import Mathlib

/-!
# Timer/counter unit of the AVR emulator (`hardware/timer`)

A shallow embedding of `hardware/timer/timer.go` and `hardware/timer/ports.go`.

* `uint8` registers are natural numbers; every arithmetic step that can leave the
  byte range is reduced `% 256`, and `WF` records that the stored registers are bytes.
* `uint` values (`excessTicks`, the argument of `Run`) are natural numbers reduced
  `% uintMod`.
* The emulator host and the GPIO callbacks live outside this package.  Every call
  the timer makes to them is appended to the ghost field `trace`; the answers of the
  host are given by an `Emulator` record of answer functions that may depend on all
  calls made so far.
* The ghost field `tickCount` counts the invocations of `Tick`.
-/

set_option linter.unusedVariables false

/-! ## Data model -/

/-- A call made by the timer to one of its external collaborators. -/
inductive Event where
  /-- The callback of output-compare pin `ocPinNum` was invoked with `level`. -/
  | pin (ocPinNum : Fin 2) (level : Bool)
  /-- The host was asked to dispatch the named vector: `em.InterruptByName(name)`. -/
  | interrupt (name : String)
  /-- The diagnostic line of `Tick`, printed when the dispatch failed and logging is on. -/
  | logLine (name : String)
deriving DecidableEq, Repr

/-- The two services of `*emulator.Emulator` used by the timer.  The emulator package is
not part of this development, so its answers are parameters: each may depend on every call
the timer has made so far. -/
structure Emulator where
  /-- The answer of `em.InterruptsEnabled()`. -/
  InterruptsEnabled : List Event → Bool
  /-- The answer of `em.InterruptByName(name)`: whether a handler is registered. -/
  InterruptByName : List Event → String → Bool

/-- The struct `Timer` of `timer.go`, with the ghost fields `trace` and `tickCount`.
`ocPinCallbacks n` tells whether the callback of pin `n` is non-nil. -/
structure Timer where
  em : Option Emulator
  digit : Nat
  controlA : Nat
  controlB : Nat
  count : Nat
  compareValA : Nat
  compareValBufferA : Nat
  compareValB : Nat
  compareValBufferB : Nat
  interruptMask : Nat
  interruptFlags : Nat
  downwards : Bool
  ocPinStates : Fin 2 → Bool
  ocPinCallbacks : Fin 2 → Bool
  logging : Bool
  inhibitCompareMatch : Bool
  excessTicks : Nat
  trace : List Event
  tickCount : Nat

/-- The number of values of a Go `uint` (64-bit platforms). -/
def uintMod : Nat := 18446744073709551616

/-- Every `uint8` field holds a byte and `excessTicks` holds a `uint`. -/
structure WF (t : Timer) : Prop where
  controlA : t.controlA < 256
  controlB : t.controlB < 256
  count : t.count < 256
  compareValA : t.compareValA < 256
  compareValBufferA : t.compareValBufferA < 256
  compareValB : t.compareValB < 256
  compareValBufferB : t.compareValBufferB < 256
  interruptMask : t.interruptMask < 256
  interruptFlags : t.interruptFlags < 256
  excessTicks : t.excessTicks < uintMod

/-- The constructor `New`: every field but `digit` has its zero value. -/
def New (digit : Nat) : Timer :=
  { em := none, digit := digit, controlA := 0, controlB := 0, count := 0,
    compareValA := 0, compareValBufferA := 0, compareValB := 0, compareValBufferB := 0,
    interruptMask := 0, interruptFlags := 0, downwards := false,
    ocPinStates := fun _ => false, ocPinCallbacks := fun _ => false,
    logging := false, inhibitCompareMatch := false, excessTicks := 0,
    trace := [], tickCount := 0 }

/-- The method `SetLogging`. -/
def Timer.SetLogging (t : Timer) (enabled : Bool) : Timer :=
  { t with logging := enabled }

/-- The method `AddTo`: attaches the host (the port registration happens in the host). -/
def Timer.AddTo (t : Timer) (em : Emulator) : Timer :=
  { t with em := some em }

/-- The method `OverrideOCPin`: installs a callback for one output-compare pin. -/
def Timer.OverrideOCPin (t : Timer) (ocPinNum : Fin 2) : Timer :=
  { t with ocPinCallbacks := Function.update t.ocPinCallbacks ocPinNum true }

/-! ## Ports (`ports.go`) -/

/-- Port TCCRxA, `Read`. -/
def tccra.Read (t : Timer) : Nat := t.controlA

/-- Port TCCRxA, `Write`. -/
def tccra.Write (t : Timer) (x : Nat) : Timer := { t with controlA := x }

/-- Port TCCRxB, `Read`. -/
def tccrb.Read (t : Timer) : Nat := t.controlB

/-- Port TCCRxB, `Write`. -/
def tccrb.Write (t : Timer) (x : Nat) : Timer := { t with controlB := x }

/-- Port TCNTx, `Read`. -/
def tcnt.Read (t : Timer) : Nat := t.count

/-- Port TCNTx, `Write`. -/
def tcnt.Write (t : Timer) (x : Nat) : Timer := { t with count := x }

/-- Port OCRxA, `Read`. -/
def ocra.Read (t : Timer) : Nat := t.compareValA

/-- Port OCRxA, `Write`: the source assigns `compareValA`. -/
def ocra.Write (t : Timer) (x : Nat) : Timer := { t with compareValA := x }

/-- Port OCRxB, `Read`. -/
def ocrb.Read (t : Timer) : Nat := t.compareValB

/-- Port OCRxB, `Write`: the source assigns `compareValB`. -/
def ocrb.Write (t : Timer) (x : Nat) : Timer := { t with compareValB := x }

/-- Port TIMSKx, `Read`. -/
def timsk.Read (t : Timer) : Nat := t.interruptMask

/-- Port TIMSKx, `Write`. -/
def timsk.Write (t : Timer) (x : Nat) : Timer := { t with interruptMask := x }

/-- Port TIFRx, `Read`. -/
def tifr.Read (t : Timer) : Nat := t.interruptFlags

/-- Port TIFRx, `Write`: `interruptFlags &= ^x`, where `^x` on a `uint8` is `0xFF xor x`. -/
def tifr.Write (t : Timer) (x : Nat) : Timer :=
  { t with interruptFlags := t.interruptFlags &&& (0xFF ^^^ x) }

/-! ## Output-compare pin driver (`timer.go`, lines 351-379) -/

/-- Method `updateOCPin`: pushes the level of a pin to its callback, when one is installed. -/
def Timer.updateOCPin (t : Timer) (ocPinNum : Fin 2) : Timer :=
  if t.ocPinCallbacks ocPinNum then
    { t with trace := t.trace ++ [Event.pin ocPinNum (t.ocPinStates ocPinNum)] }
  else t

/-- Method `toggleOCPin`: inverts the level of a pin and pushes it. -/
def Timer.toggleOCPin (t : Timer) (ocPinNum : Fin 2) : Timer :=
  Timer.updateOCPin
    { t with ocPinStates := Function.update t.ocPinStates ocPinNum (!t.ocPinStates ocPinNum) }
    ocPinNum

/-- Method `clearOCPin`: drives a pin low; pushes the level only when the pin was high. -/
def Timer.clearOCPin (t : Timer) (ocPinNum : Fin 2) : Timer :=
  if t.ocPinStates ocPinNum then
    Timer.updateOCPin
      { t with ocPinStates := Function.update t.ocPinStates ocPinNum false } ocPinNum
  else t

/-- Method `setOCPin`: drives a pin high; pushes the level only when the pin was low. -/
def Timer.setOCPin (t : Timer) (ocPinNum : Fin 2) : Timer :=
  if !t.ocPinStates ocPinNum then
    Timer.updateOCPin
      { t with ocPinStates := Function.update t.ocPinStates ocPinNum true } ocPinNum
  else t

/-! ## Flags and control fields (`timer.go`, lines 381-406) -/

/-- Method `setOCF`: sets the compare-match flag of pin A (`0x02`) or B (`0x04`). -/
def Timer.setOCF (t : Timer) (ocPinNum : Fin 2) : Timer :=
  if ocPinNum = 0 then { t with interruptFlags := t.interruptFlags ||| 0x02 }
  else { t with interruptFlags := t.interruptFlags ||| 0x04 }

/-- Method `setTOV`: sets the overflow flag (`0x01`). -/
def Timer.setTOV (t : Timer) : Timer :=
  { t with interruptFlags := t.interruptFlags ||| 0x01 }

/-- Method `getWGM`: bits 1 and 0 of control A, and bit 3 of control B moved to bit 2. -/
def Timer.getWGM (t : Timer) : Nat :=
  let wgmA := t.controlA &&& 0x03
  let wgmB := (t.controlB &&& 0x08) >>> 1
  wgmB ||| wgmA

/-- Method `getCOM`: the two compare-output-mode bits of a pin. -/
def Timer.getCOM (t : Timer) (ocPinNum : Fin 2) : Nat :=
  let shiftAmt := 6 - 2 * ocPinNum.val
  (t.controlA >>> shiftAmt) &&& 0x03

/-! ## Mode handlers (`timer.go`, lines 156-349) -/

/-- Method `changeOCPinNormalMode`. -/
def Timer.changeOCPinNormalMode (t : Timer) (ocPinNum : Fin 2) : Timer :=
  match t.getCOM ocPinNum with
  | 0 => t
  | 1 => t.toggleOCPin ocPinNum
  | 2 => t.clearOCPin ocPinNum
  | 3 => t.setOCPin ocPinNum
  | _ => t

/-- Method `checkOCPinNormalMode`. -/
def Timer.checkOCPinNormalMode (t : Timer) (ocPinNum : Fin 2) (compareVal : Nat) : Timer :=
  if t.count = compareVal then t.changeOCPinNormalMode ocPinNum else t

/-- Method `tickNormalMode`. -/
def Timer.tickNormalMode (t : Timer) : Timer :=
  let t1 := { t with compareValA := t.compareValBufferA }
  let t2 := { t1 with compareValB := t1.compareValBufferB }
  let t3 := { t2 with downwards := false }
  let t4 := if t3.count = 0xFF then t3.setTOV else t3
  let t5 := t4.checkOCPinNormalMode 0 t4.compareValA
  t5.checkOCPinNormalMode 1 t5.compareValB

/-- Method `checkOCPinPCPWMMode`. -/
def Timer.checkOCPinPCPWMMode (t : Timer) (ocPinNum : Fin 2) (compareVal : Nat) : Timer :=
  if t.count = compareVal then
    match t.getCOM ocPinNum with
    | 0 => t
    | 1 => if ocPinNum = 0 ∧ t.controlB &&& 0x08 ≠ 0 then t.toggleOCPin ocPinNum else t
    | 2 => if t.downwards then t.setOCPin ocPinNum else t.clearOCPin ocPinNum
    | 3 => if t.downwards then t.clearOCPin ocPinNum else t.setOCPin ocPinNum
    | _ => t
  else t

/-- Method `tickPCPWMMode`. -/
def Timer.tickPCPWMMode (t : Timer) (top : Nat) : Timer :=
  let t1 :=
    if t.count = top then
      { t with compareValA := t.compareValBufferA, compareValB := t.compareValBufferB }
    else t
  let t2 :=
    if t1.downwards then
      if t1.count = 0x00 then Timer.setTOV { t1 with downwards := false } else t1
    else
      if t1.count = top then { t1 with downwards := true } else t1
  let t3 := t2.checkOCPinPCPWMMode 0 t2.compareValA
  t3.checkOCPinPCPWMMode 1 t3.compareValB

/-- Method `changeOCPinCTCMode`. -/
def Timer.changeOCPinCTCMode (t : Timer) (ocPinNum : Fin 2) : Timer :=
  match t.getCOM ocPinNum with
  | 0 => t
  | 1 => t.toggleOCPin ocPinNum
  | 2 => t.clearOCPin ocPinNum
  | 3 => t.setOCPin ocPinNum
  | _ => t

/-- Method `checkOCPinCTCMode`. -/
def Timer.checkOCPinCTCMode (t : Timer) (ocPinNum : Fin 2) (compareVal : Nat) : Timer :=
  if t.count = compareVal then t.changeOCPinCTCMode ocPinNum else t

/-- Method `tickCTCMode`. -/
def Timer.tickCTCMode (t : Timer) : Timer :=
  let t1 := { t with compareValA := t.compareValBufferA }
  let t2 := { t1 with compareValB := t1.compareValBufferB }
  let t3 := { t2 with downwards := false }
  let t4 := if t3.count = 0xFF then t3.setTOV else t3
  let t5 := if t4.count = t4.compareValA then { t4 with count := 0xFF } else t4
  let t6 := t5.checkOCPinCTCMode 0 t5.compareValA
  t6.checkOCPinCTCMode 1 t6.compareValB

/-- Method `checkOCPinFastPWMMode`: the action at BOTTOM, then the action at a compare match. -/
def Timer.checkOCPinFastPWMMode (t : Timer) (ocPinNum : Fin 2) (compareVal : Nat) : Timer :=
  let t1 :=
    if t.count = 0x00 then
      match t.getCOM ocPinNum with
      | 0 => t
      | 1 => t
      | 2 => t.setOCPin ocPinNum
      | 3 => t.clearOCPin ocPinNum
      | _ => t
    else t
  if t1.count = compareVal then
    match t1.getCOM ocPinNum with
    | 0 => t1
    | 1 => if ocPinNum = 0 ∧ t1.controlB &&& 0x08 ≠ 0 then t1.toggleOCPin ocPinNum else t1
    | 2 => t1.clearOCPin ocPinNum
    | 3 => t1.setOCPin ocPinNum
    | _ => t1
  else t1

/-- Method `tickFastPWMMode`. -/
def Timer.tickFastPWMMode (t : Timer) (top : Nat) : Timer :=
  let t1 :=
    if t.count = 0x00 then
      { t with compareValA := t.compareValBufferA, compareValB := t.compareValBufferB }
    else t
  let t2 := { t1 with downwards := false }
  let t3 := if t2.count = top then Timer.setTOV { t2 with count := 0xFF } else t2
  let t4 := t3.checkOCPinFastPWMMode 0 t3.compareValA
  t4.checkOCPinFastPWMMode 1 t4.compareValB

/-- Method `forceOutputCompare`. -/
def Timer.forceOutputCompare (t : Timer) (ocPinNum : Fin 2) : Timer :=
  match t.getWGM with
  | 0 => t.changeOCPinNormalMode ocPinNum
  | 2 => t.changeOCPinCTCMode ocPinNum
  | _ => t

/-! ## `Tick` (`timer.go`, lines 96-154) -/

/-- Lines 98-108 of `Tick`: compare-match detection, skipped once when inhibited. -/
def Timer.compareMatch (t : Timer) : Timer :=
  if t.inhibitCompareMatch then { t with inhibitCompareMatch := false }
  else
    let t1 := if t.count = t.compareValA then t.setOCF 0 else t
    if t1.count = t1.compareValB then t1.setOCF 1 else t1

/-- Lines 110-124 of `Tick`: the dispatch on the waveform generation mode.  Selector 7
calls `tickPCPWMMode`, as the source does; selectors 4 and 6 have no case. -/
def Timer.modeStep (t : Timer) : Timer :=
  match t.getWGM with
  | 0 => t.tickNormalMode
  | 1 => t.tickPCPWMMode 0xFF
  | 2 => t.tickCTCMode
  | 3 => t.tickFastPWMMode 0xFF
  | 5 => t.tickPCPWMMode t.compareValA
  | 7 => t.tickPCPWMMode t.compareValA
  | _ => t

/-- Lines 126-131 of `Tick`: the counter moves one step, wrapping in a byte. -/
def Timer.advance (t : Timer) : Timer :=
  if t.downwards then { t with count := (t.count + 255) % 256 }
  else { t with count := (t.count + 1) % 256 }

/-- The state of a tick before interrupts are considered: lines 98-131 of `Tick`. -/
def Timer.tickEvents (t : Timer) : Timer :=
  t.compareMatch.modeStep.advance

/-- The name built by `fmt.Sprintf("TIMER%d_" + kind, t.digit)`. -/
def intNameOf (digit : Nat) (kind : String) : String :=
  "TIMER" ++ toString digit ++ "_" ++ kind

/-- Lines 135-145 of `Tick`: the first pending and enabled interrupt is granted; its flag
is cleared and its name returned.  The empty name means that nothing was granted. -/
def Timer.selectInterrupt (t : Timer) : Timer × String :=
  if t.interruptFlags &&& 0x01 ≠ 0 ∧ t.interruptMask &&& 0x01 ≠ 0 then
    ({ t with interruptFlags := t.interruptFlags &&& 0xFE }, intNameOf t.digit "OVF")
  else if t.interruptFlags &&& 0x02 ≠ 0 ∧ t.interruptMask &&& 0x02 ≠ 0 then
    ({ t with interruptFlags := t.interruptFlags &&& 0xFD }, intNameOf t.digit "COMPA")
  else if t.interruptFlags &&& 0x04 ≠ 0 ∧ t.interruptMask &&& 0x04 ≠ 0 then
    ({ t with interruptFlags := t.interruptFlags &&& 0xFB }, intNameOf t.digit "COMPB")
  else (t, "")

/-- Lines 133-153 of `Tick`: interrupts are triggered when a host is attached and reports
them enabled. -/
def Timer.triggerInterrupts (t : Timer) : Timer :=
  match t.em with
  | none => t
  | some em =>
    if em.InterruptsEnabled t.trace then
      let r := t.selectInterrupt
      if r.2 ≠ "" then
        let ok := em.InterruptByName r.1.trace r.2
        let t1 := { r.1 with trace := r.1.trace ++ [Event.interrupt r.2] }
        if !ok && t1.logging then { t1 with trace := t1.trace ++ [Event.logLine r.2] }
        else t1
      else r.1
    else t

/-- The method `Tick`; the ghost counter `tickCount` records the invocation. -/
def Timer.Tick (t : Timer) : Timer :=
  let t1 := t.tickEvents.triggerInterrupts
  { t1 with tickCount := t1.tickCount + 1 }

/-! ## `Run` (`timer.go`, lines 66-94) -/

/-- What the switch on `controlB & 0x07` selects. -/
inductive ClockSel where
  /-- Case 0: the timer is stopped. -/
  | disabled
  /-- Cases 1 to 5: the value given to `ticksIncr`. -/
  | divider (ticksIncr : Nat)
  /-- Cases 6 and 7: the source panics. -/
  | external
deriving DecidableEq, Repr

/-- The switch of `Run`.  No case matches a value above 7 (which `& 0x07` never yields);
`ticksIncr` then keeps its zero value. -/
def clockSelect (cs : Nat) : ClockSel :=
  match cs with
  | 0 => .disabled
  | 1 => .divider 1
  | 2 => .divider 8
  | 3 => .divider 64
  | 4 => .divider 256
  | 5 => .divider 1024
  | 6 => .external
  | 7 => .external
  | _ => .divider 0

/-- The loop `for ticksExecuted < ticks { t.Tick(); ticksExecuted += ticksIncr }` with a
bound `fuel` on the number of iterations; `none` when the bound is reached with the loop
condition still true. -/
def runLoop (ticksIncr ticks : Nat) : Nat → Timer → Nat → Option (Timer × Nat)
  | 0, t, ticksExecuted =>
    if ticksExecuted < ticks then none else some (t, ticksExecuted)
  | fuel + 1, t, ticksExecuted =>
    if ticksExecuted < ticks then
      runLoop ticksIncr ticks fuel t.Tick ((ticksExecuted + ticksIncr) % uintMod)
    else some (t, ticksExecuted)

/-- How a call of `Run` ends. -/
inductive RunResult where
  /-- The call returned, leaving the timer in this state. -/
  | done (t : Timer)
  /-- The call panicked with this message, the timer being in this state. -/
  | panic (t : Timer) (msg : String)
  /-- The loop was still running when the fuel ran out. -/
  | outOfFuel

/-- The method `Run`, with a bound `fuel` on the iterations of its loop. -/
def Timer.Run (fuel : Nat) (t : Timer) (ticks : Nat) : RunResult :=
  match clockSelect (t.controlB &&& 0x07) with
  | .disabled => .done { t with excessTicks := 0 }
  | .external => .panic t "(*Timer).Run: external clock sources not implemented"
  | .divider ticksIncr =>
    match runLoop ticksIncr ticks fuel t t.excessTicks with
    | none => .outOfFuel
    | some (t1, ticksExecuted) =>
      .done { t1 with excessTicks := (ticksExecuted + uintMod - ticks) % uintMod }

/-- The result of `Run`, when it returned. -/
def RunResult.state? : RunResult → Option Timer
  | .done t => some t
  | _ => none

/-- Two calls of `Run` in a row: the second runs on the state left by the first. -/
def Timer.RunTwice (fuel : Nat) (t : Timer) (a b : Nat) : RunResult :=
  match t.Run fuel a with
  | .done t1 => t1.Run fuel b
  | r => r

/-- A sequence of calls of `Run`, one per element of `ns`. -/
def Timer.RunSeq (fuel : Nat) (t : Timer) : List Nat → RunResult
  | [] => .done t
  | n :: ns =>
    match t.Run fuel n with
    | .done t1 => Timer.RunSeq fuel t1 ns
    | r => r

/-! ## Vocabulary of the statements -/

/-- The divider that the specification gives for the clock-select values 1 to 5. -/
def prescaler : Nat → Nat
  | 1 => 1
  | 2 => 8
  | 3 => 64
  | 4 => 256
  | 5 => 1024
  | _ => 0

/-- The number of peripheral ticks due when `n` host ticks are scheduled with divider `d`
and carried remainder `e`: the ceiling of `(n - e) / d`, and 0 when `n ≤ e`. -/
def ticksDue (d e n : Nat) : Nat := (n - e + d - 1) / d

/-- The states reached from `New` by attaching a host, writing bytes to the ports and
calling `Run`. -/
inductive ReachPortsRun : Timer → Prop where
  | new (digit : Nat) : ReachPortsRun (New digit)
  | addTo (t : Timer) (em : Emulator) : ReachPortsRun t → ReachPortsRun (t.AddTo em)
  | tccra (t : Timer) (x : Nat) : ReachPortsRun t → x < 256 → ReachPortsRun (tccra.Write t x)
  | tccrb (t : Timer) (x : Nat) : ReachPortsRun t → x < 256 → ReachPortsRun (tccrb.Write t x)
  | tcnt (t : Timer) (x : Nat) : ReachPortsRun t → x < 256 → ReachPortsRun (tcnt.Write t x)
  | ocra (t : Timer) (x : Nat) : ReachPortsRun t → x < 256 → ReachPortsRun (ocra.Write t x)
  | ocrb (t : Timer) (x : Nat) : ReachPortsRun t → x < 256 → ReachPortsRun (ocrb.Write t x)
  | timsk (t : Timer) (x : Nat) : ReachPortsRun t → x < 256 → ReachPortsRun (timsk.Write t x)
  | tifr (t : Timer) (x : Nat) : ReachPortsRun t → x < 256 → ReachPortsRun (tifr.Write t x)
  | run (t t' : Timer) (fuel n : Nat) : ReachPortsRun t → n < uintMod →
      t.Run fuel n = RunResult.done t' → ReachPortsRun t'

/-- The states reached from `New` by attaching a host, writing bytes to the ports and
calling `Run`, in which every call of `Run` made since `New`, or since the last call made
with clock-select 0, was made with clock-select 0 or with a divider of at most `d`. -/
inductive ReachWithin (d : Nat) : Timer → Prop where
  | new (digit : Nat) : ReachWithin d (New digit)
  | reset (t t' : Timer) (fuel n : Nat) : ReachPortsRun t → n < uintMod →
      t.controlB &&& 0x07 = 0 → t.Run fuel n = RunResult.done t' → ReachWithin d t'
  | addTo (t : Timer) (em : Emulator) : ReachWithin d t → ReachWithin d (t.AddTo em)
  | tccra (t : Timer) (x : Nat) : ReachWithin d t → x < 256 → ReachWithin d (tccra.Write t x)
  | tccrb (t : Timer) (x : Nat) : ReachWithin d t → x < 256 → ReachWithin d (tccrb.Write t x)
  | tcnt (t : Timer) (x : Nat) : ReachWithin d t → x < 256 → ReachWithin d (tcnt.Write t x)
  | ocra (t : Timer) (x : Nat) : ReachWithin d t → x < 256 → ReachWithin d (ocra.Write t x)
  | ocrb (t : Timer) (x : Nat) : ReachWithin d t → x < 256 → ReachWithin d (ocrb.Write t x)
  | timsk (t : Timer) (x : Nat) : ReachWithin d t → x < 256 → ReachWithin d (timsk.Write t x)
  | tifr (t : Timer) (x : Nat) : ReachWithin d t → x < 256 → ReachWithin d (tifr.Write t x)
  | run (t t' : Timer) (fuel n : Nat) : ReachWithin d t → n < uintMod →
      t.controlB &&& 0x07 ≤ 5 → prescaler (t.controlB &&& 0x07) ≤ d →
      t.Run fuel n = RunResult.done t' → ReachWithin d t'

/-- The interrupt names requested from the host in a list of events, in order. -/
def requested : List Event → List String
  | [] => []
  | Event.interrupt name :: evs => name :: requested evs
  | _ :: evs => requested evs

/-- The pin notifications in a list of events, in order. -/
def pinEvents : List Event → List (Fin 2 × Bool)
  | [] => []
  | Event.pin n level :: evs => (n, level) :: pinEvents evs
  | _ :: evs => pinEvents evs

/-- The priority rule in the words of the specification: the first of overflow (bit 0),
compare A (bit 1) and compare B (bit 2) whose flag bit and mask bit are both set. -/
def firstPending (flags mask : Nat) : Option Nat :=
  if flags.testBit 0 && mask.testBit 0 then some 0
  else if flags.testBit 1 && mask.testBit 1 then some 1
  else if flags.testBit 2 && mask.testBit 2 then some 2
  else none

/-- The vector name that belongs to a flag bit: `TIMERn_OVF`, `TIMERn_COMPA`,
`TIMERn_COMPB`. -/
def vectorOf (digit : Nat) : Nat → String
  | 0 => intNameOf digit "OVF"
  | 1 => intNameOf digit "COMPA"
  | _ => intNameOf digit "COMPB"

/-- The levels pushed to the callback of pin `n` in a list of events, in order. -/
def pinLevels (n : Fin 2) : List Event → List Bool
  | [] => []
  | Event.pin m level :: evs => if m = n then level :: pinLevels n evs else pinLevels n evs
  | _ :: evs => pinLevels n evs

/-- The state `t'` differs from `t` at most in the level of pin `n`, which is `b` in `t'`,
and in the trace, which has grown by calls of the callback of pin `n` with the levels
`ls`. -/
def PinOnly (n : Fin 2) (b : Bool) (ls : List Bool) (t t' : Timer) : Prop :=
  t' = { t with ocPinStates := Function.update t.ocPinStates n b,
                trace := t.trace ++ ls.map (Event.pin n) }

/-- Whether the interrupt of flag bit `i` is dispatched on the tick that starts in `t`: a
host is attached, it reports interrupts enabled when the tick asks, and bit `i` is the first
flag bit, after the events of the tick, that is set together with its mask bit. -/
def Timer.dispatches (t : Timer) (i : Nat) : Bool :=
  match t.em with
  | none => false
  | some em =>
    em.InterruptsEnabled t.tickEvents.trace
      && (firstPending t.tickEvents.interruptFlags t.interruptMask == some i)

/-- The state of `tickFastPWMMode` when it reaches its two pin checks (lines 286-298 of
`timer.go`): the staged registers copied at BOTTOM, the direction upward, the counter
forced to `0xFF` and the overflow flag set at TOP. -/
def Timer.fastPWMPrepare (t : Timer) (top : Nat) : Timer :=
  let t1 :=
    if t.count = 0x00 then
      { t with compareValA := t.compareValBufferA, compareValB := t.compareValBufferB }
    else t
  let t2 := { t1 with downwards := false }
  if t2.count = top then Timer.setTOV { t2 with count := 0xFF } else t2

/-- The part of the state that no operation of the package assigns a value other than the
zero value to: the compare-match inhibit flag and the two staged compare registers. -/
def Timer.staged (t : Timer) : Bool × Nat × Nat :=
  (t.inhibitCompareMatch, t.compareValBufferA, t.compareValBufferB)

/-- The states reached from `New` by the exported methods, port writes of bytes, `Tick`,
`Run`, `forceOutputCompare` and the three pin operations. -/
inductive Reachable : Timer → Prop where
  | new (digit : Nat) : Reachable (New digit)
  | setLogging (t : Timer) (enabled : Bool) : Reachable t → Reachable (t.SetLogging enabled)
  | addTo (t : Timer) (em : Emulator) : Reachable t → Reachable (t.AddTo em)
  | overrideOCPin (t : Timer) (n : Fin 2) : Reachable t → Reachable (t.OverrideOCPin n)
  | tccra (t : Timer) (x : Nat) : Reachable t → x < 256 → Reachable (tccra.Write t x)
  | tccrb (t : Timer) (x : Nat) : Reachable t → x < 256 → Reachable (tccrb.Write t x)
  | tcnt (t : Timer) (x : Nat) : Reachable t → x < 256 → Reachable (tcnt.Write t x)
  | ocra (t : Timer) (x : Nat) : Reachable t → x < 256 → Reachable (ocra.Write t x)
  | ocrb (t : Timer) (x : Nat) : Reachable t → x < 256 → Reachable (ocrb.Write t x)
  | timsk (t : Timer) (x : Nat) : Reachable t → x < 256 → Reachable (timsk.Write t x)
  | tifr (t : Timer) (x : Nat) : Reachable t → x < 256 → Reachable (tifr.Write t x)
  | tick (t : Timer) : Reachable t → Reachable t.Tick
  | run (t t' : Timer) (fuel n : Nat) : Reachable t → n < uintMod →
      t.Run fuel n = RunResult.done t' → Reachable t'
  | forceOutputCompare (t : Timer) (n : Fin 2) : Reachable t →
      Reachable (t.forceOutputCompare n)
  | setOCPin (t : Timer) (n : Fin 2) : Reachable t → Reachable (t.setOCPin n)
  | clearOCPin (t : Timer) (n : Fin 2) : Reachable t → Reachable (t.clearOCPin n)
  | toggleOCPin (t : Timer) (n : Fin 2) : Reachable t → Reachable (t.toggleOCPin n)

/-- The state `t'` differs from `t` at most in the pin levels, and in the trace by events
that are no interrupt requests. -/
def PinsOnly (t t' : Timer) : Prop :=
  ∃ s evs, requested evs = [] ∧ t' = { t with ocPinStates := s, trace := t.trace ++ evs }

/-- What lines 98-131 of `Tick` keep: the host, the configuration and the mask are the
same, no flag bit is cleared, and the trace only grows by pin notifications. -/
structure EventsFrame (t t' : Timer) : Prop where
  em : t'.em = t.em
  digit : t'.digit = t.digit
  controlA : t'.controlA = t.controlA
  controlB : t'.controlB = t.controlB
  interruptMask : t'.interruptMask = t.interruptMask
  logging : t'.logging = t.logging
  ocPinCallbacks : t'.ocPinCallbacks = t.ocPinCallbacks
  excessTicks : t'.excessTicks = t.excessTicks
  tickCount : t'.tickCount = t.tickCount
  flags : ∀ i, t.interruptFlags.testBit i = true → t'.interruptFlags.testBit i = true
  trace : ∃ evs, t'.trace = t.trace ++ evs ∧ requested evs = []

/-! ## Bit-level lemmas -/

/-- Bit `i` of `0xFF` is set exactly for `i < 8`. -/
theorem testBit_255 (i : Nat) : Nat.testBit 255 i = decide (i < 8) := by
  have h : (255 : Nat) = 2 ^ 8 - 1 := by norm_num
  rw [h, Nat.testBit_two_pow_sub_one]

/-- A byte has no bit at position 8 or above. -/
theorem testBit_byte_high {f i : Nat} (hf : f < 256) (hi : 8 ≤ i) : f.testBit i = false := by
  apply Nat.testBit_lt_two_pow
  calc f < 2 ^ 8 := by simpa using hf
    _ ≤ 2 ^ i := Nat.pow_le_pow_right (by decide) hi

/-- Bits of `f &^ v` on a byte `f`: bit `i` survives when it is set in `f` and clear in `v`. -/
theorem testBit_and_compl (f v i : Nat) (hf : f < 256) :
    (f &&& (0xFF ^^^ v)).testBit i = (f.testBit i && !v.testBit i) := by
  rw [Nat.testBit_and, Nat.testBit_xor, testBit_255]
  by_cases hi : i < 8
  · simp [hi]
  · have hz : f.testBit i = false := testBit_byte_high hf (by omega)
    simp [hz]

theorem and_two_pow_ne_zero (x i : Nat) : x &&& 2 ^ i ≠ 0 ↔ x.testBit i = true := by
  constructor
  · intro h
    by_contra hb
    apply h
    apply Nat.eq_of_testBit_eq
    intro j
    rw [Nat.testBit_and, Nat.testBit_two_pow, Nat.zero_testBit]
    by_cases hij : i = j
    · subst hij; simp at hb; simp [hb]
    · simp [hij]
  · intro hb h0
    have h1 := congrArg (fun n => Nat.testBit n i) h0
    simp [Nat.testBit_two_pow_self, hb] at h1

theorem and_1_ne_zero (x : Nat) : x &&& 0x01 ≠ 0 ↔ x.testBit 0 = true :=
  and_two_pow_ne_zero x 0

theorem and_2_ne_zero (x : Nat) : x &&& 0x02 ≠ 0 ↔ x.testBit 1 = true :=
  and_two_pow_ne_zero x 1

theorem and_4_ne_zero (x : Nat) : x &&& 0x04 ≠ 0 ↔ x.testBit 2 = true :=
  and_two_pow_ne_zero x 2

/-! ## Frame lemmas of the pin driver -/

theorem intNameOf_ne_empty (d : Nat) (k : String) : intNameOf d k ≠ "" := by
  intro h
  have h1 := congrArg String.length h
  simp [intNameOf, String.length_append] at h1
  exact absurd h1.1.1.1 (by decide)

theorem requested_append (a b : List Event) :
    requested (a ++ b) = requested a ++ requested b := by
  induction a with
  | nil => rfl
  | cons e a ih => cases e <;> simp [requested, ih]

theorem pinsOnly_refl (t : Timer) : PinsOnly t t :=
  ⟨t.ocPinStates, [], rfl, by simp⟩

theorem pinsOnly_trans {a b c : Timer} (h1 : PinsOnly a b) (h2 : PinsOnly b c) :
    PinsOnly a c := by
  obtain ⟨s, evs, he, rfl⟩ := h1
  obtain ⟨s', evs', he', rfl⟩ := h2
  exact ⟨s', evs ++ evs', by rw [requested_append, he, he']; rfl, by simp⟩

theorem updateOCPin_pinsOnly (t : Timer) (n : Fin 2) : PinsOnly t (t.updateOCPin n) := by
  unfold Timer.updateOCPin
  split
  · exact ⟨t.ocPinStates, [Event.pin n (t.ocPinStates n)], rfl, rfl⟩
  · exact pinsOnly_refl t

theorem toggleOCPin_pinsOnly (t : Timer) (n : Fin 2) : PinsOnly t (t.toggleOCPin n) := by
  unfold Timer.toggleOCPin
  exact pinsOnly_trans ⟨_, [], rfl, by simp; rfl⟩ (updateOCPin_pinsOnly _ n)

theorem clearOCPin_pinsOnly (t : Timer) (n : Fin 2) : PinsOnly t (t.clearOCPin n) := by
  unfold Timer.clearOCPin
  split
  · exact pinsOnly_trans ⟨_, [], rfl, by simp; rfl⟩ (updateOCPin_pinsOnly _ n)
  · exact pinsOnly_refl t

theorem setOCPin_pinsOnly (t : Timer) (n : Fin 2) : PinsOnly t (t.setOCPin n) := by
  unfold Timer.setOCPin
  split
  · exact pinsOnly_trans ⟨_, [], rfl, by simp; rfl⟩ (updateOCPin_pinsOnly _ n)
  · exact pinsOnly_refl t

theorem changeOCPinNormalMode_pinsOnly (t : Timer) (n : Fin 2) :
    PinsOnly t (t.changeOCPinNormalMode n) := by
  unfold Timer.changeOCPinNormalMode
  split
  · exact pinsOnly_refl t
  · exact toggleOCPin_pinsOnly t n
  · exact clearOCPin_pinsOnly t n
  · exact setOCPin_pinsOnly t n
  · exact pinsOnly_refl t

theorem checkOCPinNormalMode_pinsOnly (t : Timer) (n : Fin 2) (v : Nat) :
    PinsOnly t (t.checkOCPinNormalMode n v) := by
  unfold Timer.checkOCPinNormalMode
  split
  · exact changeOCPinNormalMode_pinsOnly t n
  · exact pinsOnly_refl t

theorem changeOCPinCTCMode_pinsOnly (t : Timer) (n : Fin 2) :
    PinsOnly t (t.changeOCPinCTCMode n) := by
  unfold Timer.changeOCPinCTCMode
  split
  · exact pinsOnly_refl t
  · exact toggleOCPin_pinsOnly t n
  · exact clearOCPin_pinsOnly t n
  · exact setOCPin_pinsOnly t n
  · exact pinsOnly_refl t

theorem checkOCPinCTCMode_pinsOnly (t : Timer) (n : Fin 2) (v : Nat) :
    PinsOnly t (t.checkOCPinCTCMode n v) := by
  unfold Timer.checkOCPinCTCMode
  split
  · exact changeOCPinCTCMode_pinsOnly t n
  · exact pinsOnly_refl t

theorem checkOCPinPCPWMMode_pinsOnly (t : Timer) (n : Fin 2) (v : Nat) :
    PinsOnly t (t.checkOCPinPCPWMMode n v) := by
  unfold Timer.checkOCPinPCPWMMode
  split
  · split
    · exact pinsOnly_refl t
    · split
      · exact toggleOCPin_pinsOnly t n
      · exact pinsOnly_refl t
    · split
      · exact setOCPin_pinsOnly t n
      · exact clearOCPin_pinsOnly t n
    · split
      · exact clearOCPin_pinsOnly t n
      · exact setOCPin_pinsOnly t n
    · exact pinsOnly_refl t
  · exact pinsOnly_refl t

theorem fastPWM_bottom_pinsOnly (t : Timer) (n : Fin 2) :
    PinsOnly t (if t.count = 0x00 then
      match t.getCOM n with
      | 0 => t
      | 1 => t
      | 2 => t.setOCPin n
      | 3 => t.clearOCPin n
      | _ => t
    else t) := by
  split
  · split
    · exact pinsOnly_refl t
    · exact pinsOnly_refl t
    · exact setOCPin_pinsOnly t n
    · exact clearOCPin_pinsOnly t n
    · exact pinsOnly_refl t
  · exact pinsOnly_refl t

theorem fastPWM_match_pinsOnly (t : Timer) (n : Fin 2) (v : Nat) :
    PinsOnly t (if t.count = v then
      match t.getCOM n with
      | 0 => t
      | 1 => if n = 0 ∧ t.controlB &&& 0x08 ≠ 0 then t.toggleOCPin n else t
      | 2 => t.clearOCPin n
      | 3 => t.setOCPin n
      | _ => t
    else t) := by
  split
  · split
    · exact pinsOnly_refl t
    · split
      · exact toggleOCPin_pinsOnly t n
      · exact pinsOnly_refl t
    · exact clearOCPin_pinsOnly t n
    · exact setOCPin_pinsOnly t n
    · exact pinsOnly_refl t
  · exact pinsOnly_refl t

theorem checkOCPinFastPWMMode_pinsOnly (t : Timer) (n : Fin 2) (v : Nat) :
    PinsOnly t (t.checkOCPinFastPWMMode n v) := by
  unfold Timer.checkOCPinFastPWMMode
  exact pinsOnly_trans (fastPWM_bottom_pinsOnly t n) (fastPWM_match_pinsOnly _ n v)

/-! ## Frame lemmas of the tick phases -/

theorem eventsFrame_refl (t : Timer) : EventsFrame t t :=
  ⟨rfl, rfl, rfl, rfl, rfl, rfl, rfl, rfl, rfl, fun _ h => h, [], by simp, rfl⟩

theorem eventsFrame_trans {a b c : Timer} (h1 : EventsFrame a b) (h2 : EventsFrame b c) :
    EventsFrame a c := by
  obtain ⟨e1, he1, hr1⟩ := h1.trace
  obtain ⟨e2, he2, hr2⟩ := h2.trace
  exact ⟨h2.em.trans h1.em, h2.digit.trans h1.digit, h2.controlA.trans h1.controlA,
    h2.controlB.trans h1.controlB, h2.interruptMask.trans h1.interruptMask,
    h2.logging.trans h1.logging, h2.ocPinCallbacks.trans h1.ocPinCallbacks,
    h2.excessTicks.trans h1.excessTicks, h2.tickCount.trans h1.tickCount,
    fun i h => h2.flags i (h1.flags i h),
    e1 ++ e2, by rw [he2, he1, List.append_assoc], by rw [requested_append, hr1, hr2]; rfl⟩

theorem eventsFrame_of_pinsOnly {t t' : Timer} (h : PinsOnly t t') : EventsFrame t t' := by
  obtain ⟨s, evs, he, rfl⟩ := h
  exact ⟨rfl, rfl, rfl, rfl, rfl, rfl, rfl, rfl, rfl, fun _ h => h, evs, rfl, he⟩

theorem setTOV_frame (t : Timer) : EventsFrame t t.setTOV :=
  ⟨rfl, rfl, rfl, rfl, rfl, rfl, rfl, rfl, rfl,
    fun i h => by simp [Timer.setTOV, Nat.testBit_or, h], [], by simp [Timer.setTOV], rfl⟩

theorem setOCF_frame (t : Timer) (n : Fin 2) : EventsFrame t (t.setOCF n) := by
  unfold Timer.setOCF
  split
  · exact ⟨rfl, rfl, rfl, rfl, rfl, rfl, rfl, rfl, rfl,
      fun i h => by simp [Nat.testBit_or, h], [], by simp, rfl⟩
  · exact ⟨rfl, rfl, rfl, rfl, rfl, rfl, rfl, rfl, rfl,
      fun i h => by simp [Nat.testBit_or, h], [], by simp, rfl⟩

/-- A state that agrees with `t` on everything `EventsFrame` speaks about. -/
theorem eventsFrame_of_eq {t t' : Timer} (hem : t'.em = t.em) (hd : t'.digit = t.digit)
    (ha : t'.controlA = t.controlA) (hb : t'.controlB = t.controlB)
    (hm : t'.interruptMask = t.interruptMask) (hl : t'.logging = t.logging)
    (hc : t'.ocPinCallbacks = t.ocPinCallbacks) (he : t'.excessTicks = t.excessTicks)
    (hk : t'.tickCount = t.tickCount) (hf : t'.interruptFlags = t.interruptFlags)
    (ht : t'.trace = t.trace) : EventsFrame t t' :=
  ⟨hem, hd, ha, hb, hm, hl, hc, he, hk, fun i h => by rw [hf]; exact h, [], by simp [ht], rfl⟩

theorem eventsFrame_ite {t a b : Timer} (c : Prop) [Decidable c] (ha : EventsFrame t a)
    (hb : EventsFrame t b) : EventsFrame t (if c then a else b) := by
  split
  · exact ha
  · exact hb

theorem eventsFrame_setTOV {t t' : Timer} (h : EventsFrame t t') : EventsFrame t t'.setTOV :=
  eventsFrame_trans h (setTOV_frame t')

theorem eventsFrame_setOCF {t t' : Timer} (h : EventsFrame t t') (n : Fin 2) :
    EventsFrame t (t'.setOCF n) :=
  eventsFrame_trans h (setOCF_frame t' n)

theorem compareMatch_frame (t : Timer) : EventsFrame t t.compareMatch := by
  unfold Timer.compareMatch
  refine eventsFrame_ite _ (eventsFrame_of_eq rfl rfl rfl rfl rfl rfl rfl rfl rfl rfl rfl) ?_
  have h1 : EventsFrame t (if t.count = t.compareValA then t.setOCF 0 else t) :=
    eventsFrame_ite _ (setOCF_frame t 0) (eventsFrame_refl t)
  exact eventsFrame_ite _ (eventsFrame_setOCF h1 1) h1

theorem eventsFrame_update {t t' u : Timer} (h : EventsFrame t t') (hem : u.em = t'.em)
    (hd : u.digit = t'.digit) (ha : u.controlA = t'.controlA) (hb : u.controlB = t'.controlB)
    (hm : u.interruptMask = t'.interruptMask) (hl : u.logging = t'.logging)
    (hc : u.ocPinCallbacks = t'.ocPinCallbacks) (he : u.excessTicks = t'.excessTicks)
    (hk : u.tickCount = t'.tickCount) (hf : u.interruptFlags = t'.interruptFlags)
    (ht : u.trace = t'.trace) : EventsFrame t u :=
  eventsFrame_trans h (eventsFrame_of_eq hem hd ha hb hm hl hc he hk hf ht)

theorem tickNormalMode_frame (t : Timer) : EventsFrame t t.tickNormalMode := by
  unfold Timer.tickNormalMode
  have h3 : EventsFrame t { t with compareValA := t.compareValBufferA,
                                   compareValB := t.compareValBufferB,
                                   downwards := false } :=
    eventsFrame_of_eq rfl rfl rfl rfl rfl rfl rfl rfl rfl rfl rfl
  exact eventsFrame_trans (eventsFrame_trans
    (eventsFrame_ite _ (eventsFrame_setTOV h3) h3)
    (eventsFrame_of_pinsOnly (checkOCPinNormalMode_pinsOnly _ _ _)))
    (eventsFrame_of_pinsOnly (checkOCPinNormalMode_pinsOnly _ _ _))

theorem tickCTCMode_frame (t : Timer) : EventsFrame t t.tickCTCMode := by
  unfold Timer.tickCTCMode
  have h3 : EventsFrame t { t with compareValA := t.compareValBufferA,
                                   compareValB := t.compareValBufferB,
                                   downwards := false } :=
    eventsFrame_of_eq rfl rfl rfl rfl rfl rfl rfl rfl rfl rfl rfl
  have h4 := eventsFrame_ite (t.count = 0xFF) (eventsFrame_setTOV h3) h3
  refine eventsFrame_trans ?_ (eventsFrame_of_pinsOnly (checkOCPinCTCMode_pinsOnly _ _ _))
  refine eventsFrame_trans ?_ (eventsFrame_of_pinsOnly (checkOCPinCTCMode_pinsOnly _ _ _))
  exact eventsFrame_ite _
    (eventsFrame_update h4 rfl rfl rfl rfl rfl rfl rfl rfl rfl rfl rfl) h4

theorem tickPCPWMMode_frame (t : Timer) (top : Nat) : EventsFrame t (t.tickPCPWMMode top) := by
  unfold Timer.tickPCPWMMode
  have h1 : EventsFrame t (if t.count = top then
      { t with compareValA := t.compareValBufferA, compareValB := t.compareValBufferB }
    else t) :=
    eventsFrame_ite _ (eventsFrame_of_eq rfl rfl rfl rfl rfl rfl rfl rfl rfl rfl rfl)
      (eventsFrame_refl t)
  refine eventsFrame_trans ?_ (eventsFrame_of_pinsOnly (checkOCPinPCPWMMode_pinsOnly _ _ _))
  refine eventsFrame_trans ?_ (eventsFrame_of_pinsOnly (checkOCPinPCPWMMode_pinsOnly _ _ _))
  exact eventsFrame_ite _
    (eventsFrame_ite _
      (eventsFrame_setTOV (eventsFrame_update h1 rfl rfl rfl rfl rfl rfl rfl rfl rfl rfl rfl))
      h1)
    (eventsFrame_ite _ (eventsFrame_update h1 rfl rfl rfl rfl rfl rfl rfl rfl rfl rfl rfl)
      h1)

theorem tickFastPWMMode_frame (t : Timer) (top : Nat) :
    EventsFrame t (t.tickFastPWMMode top) := by
  unfold Timer.tickFastPWMMode
  have h1 : EventsFrame t (if t.count = 0x00 then
      { t with compareValA := t.compareValBufferA, compareValB := t.compareValBufferB }
    else t) :=
    eventsFrame_ite _ (eventsFrame_of_eq rfl rfl rfl rfl rfl rfl rfl rfl rfl rfl rfl)
      (eventsFrame_refl t)
  have h2 := eventsFrame_update (u := { (if t.count = 0x00 then
      { t with compareValA := t.compareValBufferA, compareValB := t.compareValBufferB }
    else t) with downwards := false }) h1 rfl rfl rfl rfl rfl rfl rfl rfl rfl rfl rfl
  refine eventsFrame_trans ?_ (eventsFrame_of_pinsOnly (checkOCPinFastPWMMode_pinsOnly _ _ _))
  refine eventsFrame_trans ?_ (eventsFrame_of_pinsOnly (checkOCPinFastPWMMode_pinsOnly _ _ _))
  exact eventsFrame_ite _
    (eventsFrame_setTOV (eventsFrame_update h2 rfl rfl rfl rfl rfl rfl rfl rfl rfl rfl rfl))
    h2

theorem modeStep_frame (t : Timer) : EventsFrame t t.modeStep := by
  unfold Timer.modeStep
  split
  · exact tickNormalMode_frame t
  · exact tickPCPWMMode_frame t _
  · exact tickCTCMode_frame t
  · exact tickFastPWMMode_frame t _
  · exact tickPCPWMMode_frame t _
  · exact tickPCPWMMode_frame t _
  · exact eventsFrame_refl t

theorem advance_frame (t : Timer) : EventsFrame t t.advance := by
  unfold Timer.advance
  exact eventsFrame_ite _ (eventsFrame_of_eq rfl rfl rfl rfl rfl rfl rfl rfl rfl rfl rfl)
    (eventsFrame_of_eq rfl rfl rfl rfl rfl rfl rfl rfl rfl rfl rfl)

theorem tickEvents_frame (t : Timer) : EventsFrame t t.tickEvents :=
  eventsFrame_trans (eventsFrame_trans (compareMatch_frame t) (modeStep_frame _))
    (advance_frame _)

/-! ## The interrupt part of `Tick` -/

theorem selectInterrupt_cases (m : Timer) :
    (firstPending m.interruptFlags m.interruptMask = some 0 ∧
      m.selectInterrupt = ({ m with interruptFlags := m.interruptFlags &&& 0xFE },
        vectorOf m.digit 0)) ∨
    (firstPending m.interruptFlags m.interruptMask = some 1 ∧
      m.selectInterrupt = ({ m with interruptFlags := m.interruptFlags &&& 0xFD },
        vectorOf m.digit 1)) ∨
    (firstPending m.interruptFlags m.interruptMask = some 2 ∧
      m.selectInterrupt = ({ m with interruptFlags := m.interruptFlags &&& 0xFB },
        vectorOf m.digit 2)) ∨
    (firstPending m.interruptFlags m.interruptMask = none ∧ m.selectInterrupt = (m, "")) := by
  unfold Timer.selectInterrupt firstPending
  simp only [and_1_ne_zero, and_2_ne_zero, and_4_ne_zero, Bool.and_eq_true]
  by_cases h0 : m.interruptFlags.testBit 0 = true ∧ m.interruptMask.testBit 0 = true
  · left; simp only [h0, and_self, if_true, true_and]; rfl
  · by_cases h1 : m.interruptFlags.testBit 1 = true ∧ m.interruptMask.testBit 1 = true
    · right; left; simp only [h0, h1, and_self, if_true, if_false, true_and]; rfl
    · by_cases h2 : m.interruptFlags.testBit 2 = true ∧ m.interruptMask.testBit 2 = true
      · right; right; left
        simp only [h0, h1, h2, and_self, if_true, if_false, true_and]; rfl
      · right; right; right
        simp only [h0, h1, h2, and_self, if_true, if_false, true_and]

theorem testBit_FE (i : Nat) (hi : i < 8) : Nat.testBit 0xFE i = decide (i ≠ 0) := by
  interval_cases i <;> decide

theorem testBit_FD (i : Nat) (hi : i < 8) : Nat.testBit 0xFD i = decide (i ≠ 1) := by
  interval_cases i <;> decide

theorem testBit_FB (i : Nat) (hi : i < 8) : Nat.testBit 0xFB i = decide (i ≠ 2) := by
  interval_cases i <;> decide

/-- The trace left by the interrupt part of `Tick` once a name has been selected. -/
theorem trigger_trace (m r : Timer) (em : Emulator) (name : String)
    (hem : m.em = some em) (hen : em.InterruptsEnabled m.trace = true)
    (hsel : m.selectInterrupt = (r, name)) (hname : name ≠ "") (htr : r.trace = m.trace) :
    ∃ evs, m.triggerInterrupts.trace = m.trace ++ evs ∧ pinEvents evs = [] ∧
      requested evs = [name] ∧
      m.triggerInterrupts.interruptFlags = r.interruptFlags ∧
      m.triggerInterrupts.interruptMask = r.interruptMask := by
  unfold Timer.triggerInterrupts
  simp only [hem, hen, hsel, if_true, hname, ne_eq, not_false_eq_true]
  split
  · exact ⟨[Event.interrupt name, Event.logLine name], by simp [htr], rfl, rfl, rfl, rfl⟩
  · exact ⟨[Event.interrupt name], by simp [htr], rfl, rfl, rfl, rfl⟩

theorem triggerInterrupts_spec (m : Timer) (em : Emulator)
    (hem : m.em = some em) (hen : em.InterruptsEnabled m.trace = true) :
    ∃ evs, m.triggerInterrupts.trace = m.trace ++ evs ∧ pinEvents evs = [] ∧
      requested evs
        = (firstPending m.interruptFlags m.interruptMask).toList.map (vectorOf m.digit) ∧
      (∀ i, i < 8 → m.triggerInterrupts.interruptFlags.testBit i
        = (m.interruptFlags.testBit i
            && decide (firstPending m.interruptFlags m.interruptMask ≠ some i))) ∧
      m.triggerInterrupts.interruptMask = m.interruptMask := by
  rcases selectInterrupt_cases m with ⟨hp, hs⟩ | ⟨hp, hs⟩ | ⟨hp, hs⟩ | ⟨hp, hs⟩
  · obtain ⟨evs, h1, h2, h3, h4, h5⟩ :=
      trigger_trace m _ em _ hem hen hs (intNameOf_ne_empty _ _) rfl
    refine ⟨evs, h1, h2, by rw [h3, hp]; rfl, ?_, h5⟩
    intro i hi
    rw [h4, hp]
    simp only [Nat.testBit_and, testBit_FE i hi]
    cases m.interruptFlags.testBit i
    · simp
    · simp; omega
  · obtain ⟨evs, h1, h2, h3, h4, h5⟩ :=
      trigger_trace m _ em _ hem hen hs (intNameOf_ne_empty _ _) rfl
    refine ⟨evs, h1, h2, by rw [h3, hp]; rfl, ?_, h5⟩
    intro i hi
    rw [h4, hp]
    simp only [Nat.testBit_and, testBit_FD i hi]
    cases m.interruptFlags.testBit i
    · simp
    · simp; omega
  · obtain ⟨evs, h1, h2, h3, h4, h5⟩ :=
      trigger_trace m _ em _ hem hen hs (intNameOf_ne_empty _ _) rfl
    refine ⟨evs, h1, h2, by rw [h3, hp]; rfl, ?_, h5⟩
    intro i hi
    rw [h4, hp]
    simp only [Nat.testBit_and, testBit_FB i hi]
    cases m.interruptFlags.testBit i
    · simp
    · simp; omega
  · refine ⟨[], ?_, rfl, by rw [hp]; rfl, ?_, ?_⟩
    · unfold Timer.triggerInterrupts
      simp [hem, hen, hs]
    · intro i hi
      unfold Timer.triggerInterrupts
      simp [hem, hen, hs, hp]
    · unfold Timer.triggerInterrupts
      simp [hem, hen, hs]

/-! ## Lemmas on `Run` -/

theorem selectInterrupt_fields (m : Timer) :
    ∃ f, m.selectInterrupt.1 = { m with interruptFlags := f } := by
  rcases selectInterrupt_cases m with ⟨_, hs⟩ | ⟨_, hs⟩ | ⟨_, hs⟩ | ⟨_, hs⟩
  · exact ⟨_, by rw [hs]⟩
  · exact ⟨_, by rw [hs]⟩
  · exact ⟨_, by rw [hs]⟩
  · exact ⟨m.interruptFlags, by rw [hs]⟩

theorem triggerInterrupts_fields (m : Timer) :
    ∃ f tr, m.triggerInterrupts = { m with interruptFlags := f, trace := tr } := by
  obtain ⟨f, hf⟩ := selectInterrupt_fields m
  unfold Timer.triggerInterrupts
  split
  · exact ⟨m.interruptFlags, m.trace, rfl⟩
  · rename_i em _
    by_cases hen : em.InterruptsEnabled m.trace = true
    · simp only [hen, if_true]
      split_ifs
      · rw [hf]; exact ⟨_, _, rfl⟩
      · rw [hf]; exact ⟨_, _, rfl⟩
      · rw [hf]; exact ⟨f, m.trace, rfl⟩
    · simp only [hen]
      exact ⟨m.interruptFlags, m.trace, rfl⟩

theorem Tick_controlB (t : Timer) : t.Tick.controlB = t.controlB := by
  obtain ⟨f, tr, h⟩ := triggerInterrupts_fields t.tickEvents
  show t.tickEvents.triggerInterrupts.controlB = t.controlB
  rw [h]
  exact (tickEvents_frame t).controlB

theorem Tick_tickCount (t : Timer) : t.Tick.tickCount = t.tickCount + 1 := by
  obtain ⟨f, tr, h⟩ := triggerInterrupts_fields t.tickEvents
  show t.tickEvents.triggerInterrupts.tickCount + 1 = t.tickCount + 1
  rw [h]
  exact congrArg (· + 1) (tickEvents_frame t).tickCount

theorem iterate_Tick_controlB (k : Nat) (t : Timer) :
    (Timer.Tick^[k] t).controlB = t.controlB := by
  induction k generalizing t with
  | zero => rfl
  | succ k ih => rw [Function.iterate_succ_apply, ih, Tick_controlB]

theorem iterate_Tick_tickCount (k : Nat) (t : Timer) :
    (Timer.Tick^[k] t).tickCount = t.tickCount + k := by
  induction k generalizing t with
  | zero => rfl
  | succ k ih => rw [Function.iterate_succ_apply, ih, Tick_tickCount]; omega

/-- The loop of `Run` performs exactly `k` ticks when `k` is the least number of steps of
size `d` that bring the running counter from `x` to `n` or beyond without overflow. -/
theorem runLoop_exact (d n : Nat) :
    ∀ (k fuel : Nat) (t : Timer) (x : Nat), k ≤ fuel → (∀ j, j < k → x + j * d < n) →
      n ≤ x + k * d → x + k * d < uintMod →
      runLoop d n fuel t x = some (Timer.Tick^[k] t, x + k * d) := by
  intro k
  induction k with
  | zero =>
    intro fuel t x _ _ hn _
    have hx : ¬ x < n := by omega
    cases fuel <;> simp [runLoop, hx]
  | succ k ih =>
    intro fuel t x hfuel hlt hn hov
    have hx : x < n := by simpa using hlt 0 (Nat.succ_pos k)
    have hmul : (k + 1) * d = k * d + d := Nat.succ_mul k d
    cases fuel with
    | zero => omega
    | succ fuel =>
      have hmod : (x + d) % uintMod = x + d := Nat.mod_eq_of_lt (by omega)
      have hrec := ih fuel t.Tick (x + d) (by omega)
        (fun j hj => by
          have h := hlt (j + 1) (by omega)
          rw [Nat.succ_mul] at h
          omega)
        (by omega) (by omega)
      simp only [runLoop, hx, if_true, hmod, hrec, Function.iterate_succ_apply]
      rw [hmul]
      congr 2
      omega

theorem prescaler_cases {cs : Nat} (h1 : 1 ≤ cs) (h5 : cs ≤ 5) :
    prescaler cs = 1 ∨ prescaler cs = 8 ∨ prescaler cs = 64 ∨ prescaler cs = 256 ∨
      prescaler cs = 1024 := by
  interval_cases cs <;> simp [prescaler]

theorem clockSelect_divider {cs : Nat} (h1 : 1 ≤ cs) (h5 : cs ≤ 5) :
    clockSelect cs = ClockSel.divider (prescaler cs) := by
  interval_cases cs <;> rfl

theorem ticksDue_props {d : Nat} (hd : d = 1 ∨ d = 8 ∨ d = 64 ∨ d = 256 ∨ d = 1024)
    (e n : Nat) :
    (∀ j, j < ticksDue d e n → e + j * d < n) ∧ n ≤ e + ticksDue d e n * d ∧
    ticksDue d e n ≤ n ∧ (n ≤ e → ticksDue d e n = 0) ∧
    (e < n → e + ticksDue d e n * d < n + d) := by
  unfold ticksDue
  rcases hd with rfl | rfl | rfl | rfl | rfl
  all_goals
    refine ⟨fun j hj => ?_, ?_, ?_, fun h => ?_, fun h => ?_⟩ <;> omega

/-- What `Run` does when the clock-select field picks a divider and nothing overflows. -/
theorem Run_spec (t : Timer) (fuel n cs : Nat) (hcs : t.controlB &&& 0x07 = cs)
    (h1 : 1 ≤ cs) (h5 : cs ≤ 5) (he : t.excessTicks < uintMod)
    (hn : n + prescaler cs ≤ uintMod) (hfuel : n ≤ fuel) :
    t.Run fuel n = RunResult.done
      { Timer.Tick^[ticksDue (prescaler cs) t.excessTicks n] t with
        excessTicks := t.excessTicks + ticksDue (prescaler cs) t.excessTicks n * prescaler cs
          - n } := by
  obtain ⟨hlt, hge, hkn, hz, hlt2⟩ := ticksDue_props (prescaler_cases h1 h5) t.excessTicks n
  have hov : t.excessTicks + ticksDue (prescaler cs) t.excessTicks n * prescaler cs
      < uintMod := by
    by_cases hle : n ≤ t.excessTicks
    · rw [hz hle]; simpa using he
    · have := hlt2 (by omega); omega
  have hloop := runLoop_exact (prescaler cs) n _ fuel t t.excessTicks (by omega) hlt hge hov
  unfold Timer.Run
  rw [hcs, clockSelect_divider h1 h5]
  simp only [hloop]
  congr 2
  have hM : uintMod = 18446744073709551616 := rfl
  rw [hM] at hov ⊢
  omega

theorem ticksDue_add {d : Nat} (hd : d = 1 ∨ d = 8 ∨ d = 64 ∨ d = 256 ∨ d = 1024)
    (e a b : Nat) :
    ticksDue d e a + ticksDue d (e + ticksDue d e a * d - a) b = ticksDue d e (a + b) ∧
    e + ticksDue d e a * d - a + ticksDue d (e + ticksDue d e a * d - a) b * d - b
      = e + ticksDue d e (a + b) * d - (a + b) := by
  unfold ticksDue
  rcases hd with rfl | rfl | rfl | rfl | rfl <;> constructor <;> omega

theorem Run_spec_fields (t : Timer) (fuel n cs : Nat) (hcs : t.controlB &&& 0x07 = cs)
    (h1 : 1 ≤ cs) (h5 : cs ≤ 5) (he : t.excessTicks < uintMod)
    (hn : n + prescaler cs ≤ uintMod) (hfuel : n ≤ fuel) :
    ∃ t', t.Run fuel n = RunResult.done t' ∧ t'.controlB = t.controlB ∧
      t'.tickCount = t.tickCount + ticksDue (prescaler cs) t.excessTicks n ∧
      t'.excessTicks
        = t.excessTicks + ticksDue (prescaler cs) t.excessTicks n * prescaler cs - n ∧
      t'.excessTicks < uintMod := by
  refine ⟨_, Run_spec t fuel n cs hcs h1 h5 he hn hfuel, iterate_Tick_controlB _ t,
    iterate_Tick_tickCount _ t, rfl, ?_⟩
  obtain ⟨_, _, _, hz, hlt2⟩ := ticksDue_props (prescaler_cases h1 h5) t.excessTicks n
  show t.excessTicks + ticksDue (prescaler cs) t.excessTicks n * prescaler cs - n < uintMod
  by_cases hle : n ≤ t.excessTicks
  · rw [hz hle]; omega
  · have := hlt2 (by omega); omega

theorem RunSeq_spec (cs : Nat) (h1 : 1 ≤ cs) (h5 : cs ≤ 5) (fuel : Nat) :
    ∀ (ns : List Nat) (t : Timer), t.controlB &&& 0x07 = cs → t.excessTicks < uintMod →
      ns.sum + prescaler cs ≤ uintMod → ns.sum ≤ fuel →
      ∃ t', t.RunSeq fuel ns = RunResult.done t' ∧
        t'.tickCount = t.tickCount + ticksDue (prescaler cs) t.excessTicks ns.sum ∧
        t'.excessTicks
          = t.excessTicks + ticksDue (prescaler cs) t.excessTicks ns.sum * prescaler cs
              - ns.sum := by
  intro ns
  induction ns with
  | nil =>
    intro t _ _ _ _
    have h0 : ticksDue (prescaler cs) t.excessTicks 0 = 0 := by
      unfold ticksDue
      rcases prescaler_cases h1 h5 with h | h | h | h | h <;> rw [h] <;> omega
    exact ⟨t, rfl, by simp [h0], by simp [h0]⟩
  | cons n ns ih =>
    intro t hcs he hsum hfuel
    simp only [List.sum_cons] at hsum hfuel
    obtain ⟨t1, hrun, hcb, htc, hex, hlt⟩ :=
      Run_spec_fields t fuel n cs hcs h1 h5 he (by omega) (by omega)
    obtain ⟨t', hseq, htc', hex'⟩ := ih t1 (by rw [hcb]; exact hcs) hlt (by omega) (by omega)
    obtain ⟨hk, hx⟩ := ticksDue_add (prescaler_cases h1 h5) t.excessTicks n ns.sum
    refine ⟨t', ?_, ?_, ?_⟩
    · simp only [Timer.RunSeq, hrun]
      exact hseq
    · rw [htc', htc, hex, List.sum_cons, ← hk]; omega
    · rw [hex', hex, List.sum_cons, hx]

/-- The loop of `Run`, whenever it ends: the running counter has reached `n`, it is
unchanged if it had reached `n` at the start, and otherwise overshoots by less than `d`. -/
theorem runLoop_bound (d n : Nat) :
    ∀ (fuel : Nat) (t : Timer) (x : Nat) (t' : Timer) (x' : Nat), x < uintMod →
      runLoop d n fuel t x = some (t', x') →
      n ≤ x' ∧ x' < uintMod ∧ (n ≤ x → x' = x ∧ t' = t) ∧ (x < n → x' < n + d) := by
  intro fuel
  induction fuel with
  | zero =>
    intro t x t' x' hx h
    by_cases hlt : x < n
    · simp [runLoop, hlt] at h
    · simp only [runLoop, hlt, if_false, Option.some.injEq, Prod.mk.injEq] at h
      obtain ⟨rfl, rfl⟩ := h
      exact ⟨by omega, hx, fun _ => ⟨rfl, rfl⟩, fun h' => absurd h' hlt⟩
  | succ fuel ih =>
    intro t x t' x' hx h
    by_cases hlt : x < n
    · simp only [runLoop, hlt, if_true] at h
      have hM : 0 < uintMod := by decide
      have hy : (x + d) % uintMod < uintMod := Nat.mod_lt _ hM
      have hle : (x + d) % uintMod ≤ x + d := Nat.mod_le _ _
      obtain ⟨h1, h2, h3, h4⟩ := ih t.Tick ((x + d) % uintMod) t' x' hy h
      refine ⟨h1, h2, fun h' => by omega, fun _ => ?_⟩
      by_cases hyn : n ≤ (x + d) % uintMod
      · have := (h3 hyn).1; omega
      · exact h4 (by omega)
    · simp only [runLoop, hlt, if_false, Option.some.injEq, Prod.mk.injEq] at h
      obtain ⟨rfl, rfl⟩ := h
      exact ⟨by omega, hx, fun _ => ⟨rfl, rfl⟩, fun h' => absurd h' hlt⟩

/-- With divider 8 the running counter stays a multiple of 8 and never reaches
`uintMod - 1`: the loop of `Run` does not end. -/
theorem runLoop_diverges :
    ∀ (fuel : Nat) (t : Timer) (x : Nat), x % 8 = 0 → x < uintMod →
      runLoop 8 (uintMod - 1) fuel t x = none := by
  have hM : uintMod = 18446744073709551616 := rfl
  intro fuel
  induction fuel with
  | zero =>
    intro t x h8 hx
    have hlt : x < uintMod - 1 := by rw [hM] at hx ⊢; omega
    simp [runLoop, hlt]
  | succ fuel ih =>
    intro t x h8 hx
    have hlt : x < uintMod - 1 := by rw [hM] at hx ⊢; omega
    simp only [runLoop, hlt, if_true]
    apply ih
    · rw [hM]; omega
    · exact Nat.mod_lt _ (by decide)

theorem Run_of_divider (t : Timer) (fuel n d : Nat)
    (h : clockSelect (t.controlB &&& 0x07) = ClockSel.divider d) (t' : Timer) (msg : String) :
    t.Run fuel n ≠ RunResult.panic t' msg := by
  unfold Timer.Run
  rw [h]
  simp only
  cases runLoop d n fuel t t.excessTicks <;> simp

theorem Run_of_disabled (t : Timer) (fuel n : Nat)
    (h : clockSelect (t.controlB &&& 0x07) = ClockSel.disabled) :
    t.Run fuel n = RunResult.done { t with excessTicks := 0 } := by
  unfold Timer.Run
  rw [h]

theorem Run_of_external (t : Timer) (fuel n : Nat)
    (h : clockSelect (t.controlB &&& 0x07) = ClockSel.external) :
    t.Run fuel n
      = RunResult.panic t "(*Timer).Run: external clock sources not implemented" := by
  unfold Timer.Run
  rw [h]

/-- The three ways the switch of `Run` can go, by the value of the clock-select field. -/
theorem clockSelect_cases (t : Timer) :
    (t.controlB &&& 0x07 = 0 ∧ clockSelect (t.controlB &&& 0x07) = ClockSel.disabled) ∨
    (1 ≤ t.controlB &&& 0x07 ∧ t.controlB &&& 0x07 ≤ 5 ∧
      clockSelect (t.controlB &&& 0x07) = ClockSel.divider (prescaler (t.controlB &&& 0x07))) ∨
    ((t.controlB &&& 0x07 = 6 ∨ t.controlB &&& 0x07 = 7) ∧
      clockSelect (t.controlB &&& 0x07) = ClockSel.external) := by
  have hle : t.controlB &&& 0x07 ≤ 7 := Nat.and_le_right
  generalize t.controlB &&& 0x07 = cs at hle
  interval_cases cs <;> simp [clockSelect, prescaler]

/-! ## The compare registers across a tick -/

theorem pinsOnly_fields {t t' : Timer} (h : PinsOnly t t') :
    t'.count = t.count ∧ t'.compareValA = t.compareValA ∧ t'.compareValB = t.compareValB ∧
    t'.compareValBufferA = t.compareValBufferA ∧ t'.compareValBufferB = t.compareValBufferB ∧
    t'.downwards = t.downwards ∧ t'.interruptFlags = t.interruptFlags ∧
    t'.inhibitCompareMatch = t.inhibitCompareMatch := by
  obtain ⟨s, evs, _, rfl⟩ := h
  exact ⟨rfl, rfl, rfl, rfl, rfl, rfl, rfl, rfl⟩

theorem compareMatch_fields (t : Timer) :
    ∃ f, t.compareMatch = { t with interruptFlags := f, inhibitCompareMatch := false } := by
  unfold Timer.compareMatch Timer.setOCF
  by_cases hi : t.inhibitCompareMatch = true
  · simp only [hi, if_true]
    exact ⟨t.interruptFlags, rfl⟩
  · have hf : t.inhibitCompareMatch = false := by simpa using hi
    have ht : t = { t with inhibitCompareMatch := false } := by
      cases t; simp at hf; subst hf; rfl
    simp only [hi]
    split_ifs
    all_goals exact ⟨_, by conv_lhs => rw [ht]⟩

theorem tickFastPWMMode_compareVal (t : Timer) (top : Nat) :
    (t.tickFastPWMMode top).compareValA
      = (if t.count = 0x00 then t.compareValBufferA else t.compareValA) ∧
    (t.tickFastPWMMode top).compareValB
      = (if t.count = 0x00 then t.compareValBufferB else t.compareValB) := by
  unfold Timer.tickFastPWMMode
  constructor
  · refine (pinsOnly_fields (checkOCPinFastPWMMode_pinsOnly _ _ _)).2.1.trans ?_
    refine (pinsOnly_fields (checkOCPinFastPWMMode_pinsOnly _ _ _)).2.1.trans ?_
    split_ifs <;> rfl
  · refine (pinsOnly_fields (checkOCPinFastPWMMode_pinsOnly _ _ _)).2.2.1.trans ?_
    refine (pinsOnly_fields (checkOCPinFastPWMMode_pinsOnly _ _ _)).2.2.1.trans ?_
    split_ifs <;> rfl

theorem tickPCPWMMode_compareVal (t : Timer) (top : Nat) :
    (t.tickPCPWMMode top).compareValA
      = (if t.count = top then t.compareValBufferA else t.compareValA) ∧
    (t.tickPCPWMMode top).compareValB
      = (if t.count = top then t.compareValBufferB else t.compareValB) := by
  unfold Timer.tickPCPWMMode
  constructor
  · refine (pinsOnly_fields (checkOCPinPCPWMMode_pinsOnly _ _ _)).2.1.trans ?_
    refine (pinsOnly_fields (checkOCPinPCPWMMode_pinsOnly _ _ _)).2.1.trans ?_
    split_ifs <;> rfl
  · refine (pinsOnly_fields (checkOCPinPCPWMMode_pinsOnly _ _ _)).2.2.1.trans ?_
    refine (pinsOnly_fields (checkOCPinPCPWMMode_pinsOnly _ _ _)).2.2.1.trans ?_
    split_ifs <;> rfl

/-- The active compare registers after a `Tick` are those left by the mode handler. -/
theorem Tick_compareVal (t : Timer) :
    t.Tick.compareValA = t.compareMatch.modeStep.compareValA ∧
    t.Tick.compareValB = t.compareMatch.modeStep.compareValB := by
  obtain ⟨f, tr, h⟩ := triggerInterrupts_fields t.tickEvents
  have hA : t.Tick.compareValA = t.tickEvents.triggerInterrupts.compareValA := rfl
  have hB : t.Tick.compareValB = t.tickEvents.triggerInterrupts.compareValB := rfl
  rw [hA, hB, h]
  unfold Timer.tickEvents Timer.advance
  split_ifs <;> exact ⟨rfl, rfl⟩

theorem compareMatch_getWGM (t : Timer) : t.compareMatch.getWGM = t.getWGM := by
  obtain ⟨f, h⟩ := compareMatch_fields t
  rw [h]
  rfl

/-! ## Fast PWM at TOP -/

/-- Without a host, or with a host that reports interrupts disabled, the interrupt part of
`Tick` does nothing. -/
theorem triggerInterrupts_of_disabled (m : Timer)
    (h : ∀ em, m.em = some em → em.InterruptsEnabled m.trace = false) :
    m.triggerInterrupts = m := by
  unfold Timer.triggerInterrupts
  split
  · rfl
  · rename_i em hem
    simp [h em hem]

/-- The overflow flag survives the interrupt part of `Tick` when the overflow interrupt is
not dispatched: no host, interrupts disabled, or overflow mask bit clear. -/
theorem triggerInterrupts_keeps_overflow (m : Timer)
    (hnd : ∀ em, m.em = some em → em.InterruptsEnabled m.trace = true →
      m.interruptMask.testBit 0 = false) :
    m.triggerInterrupts.interruptFlags.testBit 0 = m.interruptFlags.testBit 0 := by
  by_cases hen : ∀ em, m.em = some em → em.InterruptsEnabled m.trace = false
  · rw [triggerInterrupts_of_disabled m hen]
  · push_neg at hen
    obtain ⟨em, hem, hen⟩ := hen
    have hen' : em.InterruptsEnabled m.trace = true := by simpa using hen
    obtain ⟨_, _, _, _, hbits, _⟩ := triggerInterrupts_spec m em hem hen'
    rw [hbits 0 (by decide)]
    have hne : firstPending m.interruptFlags m.interruptMask ≠ some 0 := by
      unfold firstPending
      simp only [hnd em hem hen', Bool.and_false]
      split_ifs <;> simp_all
    simp [hne]

/-- What `tickFastPWMMode` leaves when it starts at `count = top`. -/
theorem tickFastPWMMode_at_top (t : Timer) (top : Nat) (hc : t.count = top) :
    (t.tickFastPWMMode top).count = 0xFF ∧ (t.tickFastPWMMode top).downwards = false ∧
    (t.tickFastPWMMode top).interruptFlags = t.interruptFlags ||| 0x01 := by
  unfold Timer.tickFastPWMMode
  refine ⟨?_, ?_, ?_⟩
  · refine (pinsOnly_fields (checkOCPinFastPWMMode_pinsOnly _ _ _)).1.trans ?_
    refine (pinsOnly_fields (checkOCPinFastPWMMode_pinsOnly _ _ _)).1.trans ?_
    split_ifs <;> rfl
  · refine (pinsOnly_fields (checkOCPinFastPWMMode_pinsOnly _ _ _)).2.2.2.2.2.1.trans ?_
    refine (pinsOnly_fields (checkOCPinFastPWMMode_pinsOnly _ _ _)).2.2.2.2.2.1.trans ?_
    split_ifs <;> rfl
  · refine (pinsOnly_fields (checkOCPinFastPWMMode_pinsOnly _ _ _)).2.2.2.2.2.2.1.trans ?_
    refine (pinsOnly_fields (checkOCPinFastPWMMode_pinsOnly _ _ _)).2.2.2.2.2.2.1.trans ?_
    split_ifs <;> rfl

/-- Fast PWM with TOP = `0xFF` (WGM = 3): a `Tick` that begins with `count = 0xFF` ends
with `count = 0`, counting upward, overflow flag set, when the overflow interrupt is not
dispatched on that tick. -/
theorem Tick_fastPWM_wgm3_at_top (t : Timer) (hw : t.getWGM = 3) (hc : t.count = 0xFF)
    (hnd : ∀ em, t.em = some em → em.InterruptsEnabled t.tickEvents.trace = true →
      t.interruptMask.testBit 0 = false) :
    t.Tick.count = 0x00 ∧ t.Tick.downwards = false ∧
    t.Tick.interruptFlags.testBit 0 = true := by
  obtain ⟨f, hcm⟩ := compareMatch_fields t
  have hstep : t.compareMatch.modeStep = t.compareMatch.tickFastPWMMode 0xFF := by
    unfold Timer.modeStep
    rw [compareMatch_getWGM, hw]
  have hcc : t.compareMatch.count = 0xFF := by rw [hcm]; exact hc
  obtain ⟨m1, m2, m3⟩ := tickFastPWMMode_at_top t.compareMatch 0xFF hcc
  have hfr := tickEvents_frame t
  have hte : t.tickEvents = t.compareMatch.modeStep.advance := rfl
  have hcount : t.tickEvents.count = 0x00 ∧ t.tickEvents.downwards = false ∧
      t.tickEvents.interruptFlags.testBit 0 = true := by
    rw [hte, hstep]
    unfold Timer.advance
    simp only [m2, Bool.false_eq_true, if_false, m1, m3, Nat.testBit_or]
    exact ⟨by decide, trivial, by simp⟩
  obtain ⟨g, tr, htrig⟩ := triggerInterrupts_fields t.tickEvents
  have hkeep := triggerInterrupts_keeps_overflow t.tickEvents
    (fun em hem hen => by rw [hfr.interruptMask]; exact hnd em (hfr.em ▸ hem) hen)
  refine ⟨?_, ?_, ?_⟩
  · show t.tickEvents.triggerInterrupts.count = 0
    rw [htrig]; exact hcount.1
  · show t.tickEvents.triggerInterrupts.downwards = false
    rw [htrig]; exact hcount.2.1
  · show t.tickEvents.triggerInterrupts.interruptFlags.testBit 0 = true
    rw [hkeep]; exact hcount.2.2

/-! ## Register file: the compare ports and the interrupt-flags port -/

/-- C1 (the code deviates): `ocra.Write` and `ocrb.Write` assign the active registers
`compareValA` and `compareValB` and leave the staged registers `compareValBufferA` and
`compareValBufferB` as they were; on a new timer, writing `0x42` to either port leaves the
buffer at 0 and makes the active register `0x42`. -/
theorem ocr_Write_assigns_active_register :
    (∀ (t : Timer) (x : Nat),
      (ocra.Write t x).compareValA = x ∧
      (ocra.Write t x).compareValBufferA = t.compareValBufferA ∧
      (ocrb.Write t x).compareValB = x ∧
      (ocrb.Write t x).compareValBufferB = t.compareValBufferB) ∧
    (ocra.Write (New 0) 0x42).compareValBufferA = 0 ∧
    (ocra.Write (New 0) 0x42).compareValA = 0x42 ∧
    (New 0).compareValA = 0 ∧
    (ocrb.Write (New 0) 0x42).compareValBufferB = 0 ∧
    (ocrb.Write (New 0) 0x42).compareValB = 0x42 ∧
    (New 0).compareValB = 0 := by
  refine ⟨fun t x => ⟨rfl, rfl, rfl, rfl⟩, rfl, rfl, rfl, rfl, rfl, rfl⟩

/-- C2: writing `v` to the interrupt-flags port of a timer whose flags `f` are a byte
leaves flags whose bit `i` is set exactly when it is set in `f` and clear in `v`
(`f AND (NOT v)`); no other field changes; writing `0x00` changes nothing; writing `0xFF`
leaves the flags 0; and `tifr.Read` then returns the new flags, not the written value. -/
theorem tifr_Write_clears_written_ones (t : Timer) (v : Nat) (hf : t.interruptFlags < 256) :
    (∀ i, (tifr.Write t v).interruptFlags.testBit i
        = (t.interruptFlags.testBit i && !v.testBit i)) ∧
    tifr.Write t v = { t with interruptFlags := (tifr.Write t v).interruptFlags } ∧
    tifr.Write t 0x00 = t ∧
    (tifr.Write t 0xFF).interruptFlags = 0 ∧
    tifr.Read (tifr.Write t v) = (tifr.Write t v).interruptFlags ∧
    (∀ i, (tifr.Read (tifr.Write t v)).testBit i
        = (t.interruptFlags.testBit i && !v.testBit i)) := by
  have hbits : ∀ i, (tifr.Write t v).interruptFlags.testBit i
      = (t.interruptFlags.testBit i && !v.testBit i) :=
    fun i => testBit_and_compl t.interruptFlags v i hf
  refine ⟨hbits, rfl, ?_, ?_, rfl, hbits⟩
  · have h0 : t.interruptFlags &&& (0xFF ^^^ 0x00) = t.interruptFlags := by
      apply Nat.eq_of_testBit_eq
      intro i
      rw [testBit_and_compl _ _ _ hf]
      simp
    show ({ t with interruptFlags := t.interruptFlags &&& (0xFF ^^^ 0x00) } : Timer) = t
    rw [h0]
  · show t.interruptFlags &&& (0xFF ^^^ 0xFF) = 0
    simp

/-- Witness for C2: flags `0x07`, written value `0x05`; bit 1 alone survives. -/
theorem tifr_Write_clears_written_ones_witness :
    ({ New 0 with interruptFlags := 0x07 } : Timer).interruptFlags < 256 ∧
    (tifr.Write { New 0 with interruptFlags := 0x07 } 0x05).interruptFlags = 0x02 ∧
    tifr.Write { New 0 with interruptFlags := 0x07 } 0x00
      = { New 0 with interruptFlags := 0x07 } ∧
    (tifr.Write { New 0 with interruptFlags := 0x07 } 0xFF).interruptFlags = 0 :=
  ⟨by decide, by decide,
    (tifr_Write_clears_written_ones { New 0 with interruptFlags := 0x07 } 0x05
      (by decide)).2.2.1,
    (tifr_Write_clears_written_ones { New 0 with interruptFlags := 0x07 } 0x05
      (by decide)).2.2.2.1⟩

/-! ## Interrupt dispatch -/

/-- C3: on a timer attached to a host that reports interrupts enabled, one `Tick` requests
the vector of the first flag bit, in the order overflow, compare A, compare B, whose flag
(as left by this tick's events) and mask bits are both set, and nothing else: at most one
request, at most one flag bit cleared, every other bit of the flags kept.  When all three
flag and mask bits are set before the tick, only `TIMERn_OVF` is requested, bit 0 is
cleared, and bits 1 and 2 stay set. -/
theorem Tick_grants_first_pending_interrupt (t : Timer) (em : Emulator)
    (hem : t.em = some em) (hen : em.InterruptsEnabled t.tickEvents.trace = true) :
    (∃ evs, t.Tick.trace = t.trace ++ evs ∧
      requested evs
        = (firstPending t.tickEvents.interruptFlags t.interruptMask).toList.map
            (vectorOf t.digit) ∧
      (requested evs).length ≤ 1 ∧
      (t.interruptFlags.testBit 0 = true → t.interruptFlags.testBit 1 = true →
        t.interruptFlags.testBit 2 = true → t.interruptMask.testBit 0 = true →
        t.interruptMask.testBit 1 = true → t.interruptMask.testBit 2 = true →
        requested evs = [intNameOf t.digit "OVF"])) ∧
    (∀ i, i < 8 → t.Tick.interruptFlags.testBit i
      = (t.tickEvents.interruptFlags.testBit i
          && decide (firstPending t.tickEvents.interruptFlags t.interruptMask ≠ some i))) ∧
    (∀ i j, i < 8 → j < 8 →
      t.tickEvents.interruptFlags.testBit i = true → t.Tick.interruptFlags.testBit i = false →
      t.tickEvents.interruptFlags.testBit j = true → t.Tick.interruptFlags.testBit j = false →
      i = j) ∧
    (t.interruptFlags.testBit 0 = true → t.interruptFlags.testBit 1 = true →
      t.interruptFlags.testBit 2 = true → t.interruptMask.testBit 0 = true →
      t.interruptMask.testBit 1 = true → t.interruptMask.testBit 2 = true →
      t.Tick.interruptFlags.testBit 0 = false ∧ t.Tick.interruptFlags.testBit 1 = true ∧
      t.Tick.interruptFlags.testBit 2 = true) ∧
    t.Tick.interruptMask = t.interruptMask := by
  have hfr := tickEvents_frame t
  obtain ⟨evs1, htr1, hreq1⟩ := hfr.trace
  obtain ⟨evs2, htr2, _, hreq2, hbits, hmask⟩ :=
    triggerInterrupts_spec t.tickEvents em (hfr.em.trans hem) hen
  rw [hfr.interruptMask, hfr.digit] at hreq2
  rw [hfr.interruptMask] at hbits hmask
  have hfirst : t.interruptFlags.testBit 0 = true → t.interruptMask.testBit 0 = true →
      firstPending t.tickEvents.interruptFlags t.interruptMask = some 0 := by
    intro hf hm
    simp [firstPending, hfr.flags 0 hf, hm]
  have hTf : t.Tick.interruptFlags = t.tickEvents.triggerInterrupts.interruptFlags := rfl
  have hTt : t.Tick.trace = t.tickEvents.triggerInterrupts.trace := rfl
  refine ⟨⟨evs1 ++ evs2, ?_, ?_, ?_, ?_⟩, ?_, ?_, ?_, ?_⟩
  · rw [hTt, htr2, htr1, List.append_assoc]
  · rw [requested_append, hreq1, hreq2]; rfl
  · rw [requested_append, hreq1, hreq2]
    cases firstPending t.tickEvents.interruptFlags t.interruptMask <;> simp
  · intro f0 _ _ m0 _ _
    rw [requested_append, hreq1, hreq2, hfirst f0 m0]
    rfl
  · intro i hi
    rw [hTf]
    exact hbits i hi
  · intro i j hi hj hi1 hi2 hj1 hj2
    rw [hTf, hbits i hi, hi1] at hi2
    rw [hTf, hbits j hj, hj1] at hj2
    simp at hi2 hj2
    rw [hi2] at hj2
    exact Option.some.inj hj2
  · intro f0 f1 f2 m0 _ _
    rw [hTf, hbits 0 (by decide), hbits 1 (by decide), hbits 2 (by decide), hfirst f0 m0,
      hfr.flags 1 f1, hfr.flags 2 f2]
    simp
  · exact hmask

/-- Witness for C3: all three flags pending and unmasked, host with interrupts enabled. -/
theorem Tick_grants_first_pending_interrupt_witness :
    ({ New 0 with em := some ⟨fun _ => true, fun _ _ => true⟩,
                  interruptFlags := 7, interruptMask := 7 } : Timer).em
      = some ⟨fun _ => true, fun _ _ => true⟩ ∧
    (Timer.Tick { New 0 with em := some ⟨fun _ => true, fun _ _ => true⟩,
                             interruptFlags := 7, interruptMask := 7 }).interruptFlags.testBit 0
      = false ∧
    (Timer.Tick { New 0 with em := some ⟨fun _ => true, fun _ _ => true⟩,
                             interruptFlags := 7, interruptMask := 7 }).interruptFlags.testBit 1
      = true ∧
    (Timer.Tick { New 0 with em := some ⟨fun _ => true, fun _ _ => true⟩,
                             interruptFlags := 7, interruptMask := 7 }).interruptFlags.testBit 2
      = true :=
  ⟨rfl, (Tick_grants_first_pending_interrupt
      { New 0 with em := some ⟨fun _ => true, fun _ _ => true⟩,
                   interruptFlags := 7, interruptMask := 7 }
      ⟨fun _ => true, fun _ _ => true⟩ rfl rfl).2.2.2.1
      (by decide) (by decide) (by decide) (by decide) (by decide) (by decide)⟩

/-! ## Prescaler and tick scheduler -/

/-- C4: scheduling is additive under a fixed divider.  With clock-select in 1..5 and no
`uint` overflow, `Run(a)` followed by `Run(b)` returns, and it has executed as many ticks
and leaves the same `excessTicks` as the single call `Run(a + b)`; hence from
`excessTicks = 0` a sequence of calls whose tick counts sum to `N` executes exactly
`ceil(N / d)` ticks and ends with `excessTicks = ceil(N / d) * d - N`. -/
theorem Run_additive (t : Timer) (cs : Nat) (hcs : t.controlB &&& 0x07 = cs)
    (h1 : 1 ≤ cs) (h5 : cs ≤ 5) :
    (∀ a b fuel, t.excessTicks < uintMod → a + b + prescaler cs ≤ uintMod → a + b ≤ fuel →
      ∃ t2 t12, t.RunTwice fuel a b = RunResult.done t2 ∧
        t.Run fuel (a + b) = RunResult.done t12 ∧
        t2.tickCount = t12.tickCount ∧ t2.excessTicks = t12.excessTicks) ∧
    (∀ (ns : List Nat) (fuel : Nat), t.excessTicks = 0 → ns.sum + prescaler cs ≤ uintMod →
      ns.sum ≤ fuel →
      ∃ t', t.RunSeq fuel ns = RunResult.done t' ∧
        t'.tickCount = t.tickCount + (ns.sum + prescaler cs - 1) / prescaler cs ∧
        t'.excessTicks
          = (ns.sum + prescaler cs - 1) / prescaler cs * prescaler cs - ns.sum) := by
  constructor
  · intro a b fuel he hab hfuel
    obtain ⟨t1, hrun1, hcb1, htc1, hex1, hlt1⟩ :=
      Run_spec_fields t fuel a cs hcs h1 h5 he (by omega) (by omega)
    obtain ⟨t2, hrun2, _, htc2, hex2, _⟩ :=
      Run_spec_fields t1 fuel b cs (by rw [hcb1]; exact hcs) h1 h5 hlt1 (by omega) (by omega)
    obtain ⟨t12, hrun12, _, htc12, hex12, _⟩ :=
      Run_spec_fields t fuel (a + b) cs hcs h1 h5 he hab hfuel
    obtain ⟨hk, hx⟩ := ticksDue_add (prescaler_cases h1 h5) t.excessTicks a b
    refine ⟨t2, t12, ?_, hrun12, ?_, ?_⟩
    · simp only [Timer.RunTwice, hrun1]
      exact hrun2
    · rw [htc2, htc1, hex1, htc12, ← hk]; omega
    · rw [hex2, hex1, hex12, hx]
  · intro ns fuel he hsum hfuel
    obtain ⟨t', hseq, htc, hex⟩ :=
      RunSeq_spec cs h1 h5 fuel ns t hcs (by rw [he]; decide) hsum hfuel
    refine ⟨t', hseq, ?_, ?_⟩
    · rw [htc, he]; simp [ticksDue]
    · rw [hex, he]; simp [ticksDue]

/-- Witness for C4: divider 8, calls of 5 and 5 host ticks. -/
theorem Run_additive_witness :
    (tccrb.Write (New 0) 2).controlB &&& 0x07 = 2 ∧
    ∃ t2 t12, (tccrb.Write (New 0) 2).RunTwice 10 5 5 = RunResult.done t2 ∧
      (tccrb.Write (New 0) 2).Run 10 (5 + 5) = RunResult.done t12 ∧
      t2.tickCount = t12.tickCount ∧ t2.excessTicks = t12.excessTicks :=
  ⟨by decide, (Run_additive (tccrb.Write (New 0) 2) 2 (by decide) (by decide) (by decide)).1
    5 5 10 (by decide) (by decide) (by decide)⟩

/-- Counterexample to C5 as stated: on a new timer with `controlB = 2`, the calls
`Run(5)`, `Run(5)` execute 2 ticks (not 1) and leave `excessTicks = 6` (not 2). -/
theorem Run_5_5_divider_8_counterexample :
    (tccrb.Write (New 0) 2).controlB &&& 0x07 = 2 ∧
    (tccrb.Write (New 0) 2).excessTicks = 0 ∧
    ∃ t', (tccrb.Write (New 0) 2).RunTwice 2 5 5 = RunResult.done t' ∧
      t'.tickCount = (tccrb.Write (New 0) 2).tickCount + 2 ∧ t'.excessTicks = 6 ∧
      ¬ (t'.tickCount = (tccrb.Write (New 0) 2).tickCount + 1 ∧ t'.excessTicks = 2) := by
  refine ⟨by decide, rfl, _, rfl, ?_, ?_, ?_⟩
  · decide
  · decide
  · decide

/-- C5 (amended): with clock-select 2 (divider 8) and `excessTicks = 0`, the calls
`Run(5)`, `Run(5)` execute one tick each, 2 in total: the first leaves `excessTicks = 3`
and the second leaves `excessTicks = 6`. -/
theorem Run_5_5_divider_8 (t : Timer) (fuel : Nat) (hcs : t.controlB &&& 0x07 = 2)
    (he : t.excessTicks = 0) (hfuel : 5 ≤ fuel) :
    ∃ t1 t2, t.Run fuel 5 = RunResult.done t1 ∧ t1.Run fuel 5 = RunResult.done t2 ∧
      t.RunTwice fuel 5 5 = RunResult.done t2 ∧
      t1.tickCount = t.tickCount + 1 ∧ t1.excessTicks = 3 ∧
      t2.tickCount = t.tickCount + 2 ∧ t2.excessTicks = 6 := by
  obtain ⟨t1, hrun1, hcb1, htc1, hex1, hlt1⟩ :=
    Run_spec_fields t fuel 5 2 hcs (by decide) (by decide) (by rw [he]; decide)
      (by decide) hfuel
  rw [he] at htc1 hex1
  have k1 : ticksDue (prescaler 2) 0 5 = 1 := by decide
  rw [k1] at htc1 hex1
  have e1 : t1.excessTicks = 3 := by rw [hex1]; decide
  obtain ⟨t2, hrun2, _, htc2, hex2, _⟩ :=
    Run_spec_fields t1 fuel 5 2 (by rw [hcb1]; exact hcs) (by decide) (by decide) hlt1
      (by decide) hfuel
  rw [e1] at htc2 hex2
  have k2 : ticksDue (prescaler 2) 3 5 = 1 := by decide
  rw [k2] at htc2 hex2
  refine ⟨t1, t2, hrun1, hrun2, ?_, htc1, e1, ?_, ?_⟩
  · simp only [Timer.RunTwice, hrun1]
    exact hrun2
  · rw [htc2, htc1]
  · rw [hex2]; decide

/-- Witness for C5 (amended): a new timer with `controlB = 2`. -/
theorem Run_5_5_divider_8_witness :
    (tccrb.Write (New 0) 2).controlB &&& 0x07 = 2 ∧ (tccrb.Write (New 0) 2).excessTicks = 0 ∧
    ∃ t1 t2, (tccrb.Write (New 0) 2).Run 5 5 = RunResult.done t1 ∧
      t1.Run 5 5 = RunResult.done t2 ∧
      (tccrb.Write (New 0) 2).RunTwice 5 5 5 = RunResult.done t2 ∧
      t1.tickCount = (tccrb.Write (New 0) 2).tickCount + 1 ∧ t1.excessTicks = 3 ∧
      t2.tickCount = (tccrb.Write (New 0) 2).tickCount + 2 ∧ t2.excessTicks = 6 :=
  ⟨by decide, rfl, Run_5_5_divider_8 (tccrb.Write (New 0) 2) 5 (by decide) rfl (by decide)⟩

/-- One call of `Run` with clock-select in 1..5 (divider `d`): whenever it returns, the new
`excessTicks` is below `d` exactly when the remainder carried into the call was below
`n + d`.  The call does return when `n + d` does not overflow. -/
theorem Run_excess_iff (t : Timer) (fuel n cs : Nat) (hcs : t.controlB &&& 0x07 = cs)
    (h1 : 1 ≤ cs) (h5 : cs ≤ 5) (he : t.excessTicks < uintMod) (hn : n < uintMod) :
    (∀ t', t.Run fuel n = RunResult.done t' →
      (t'.excessTicks < prescaler cs ↔ t.excessTicks < n + prescaler cs) ∧
      (t.excessTicks < prescaler cs → t'.excessTicks < prescaler cs)) ∧
    (n + prescaler cs ≤ uintMod → n ≤ fuel → ∃ t', t.Run fuel n = RunResult.done t') := by
  constructor
  · intro t' hrun
    unfold Timer.Run at hrun
    rw [hcs, clockSelect_divider h1 h5] at hrun
    simp only at hrun
    cases hloop : runLoop (prescaler cs) n fuel t t.excessTicks with
    | none => simp [hloop] at hrun
    | some r =>
      obtain ⟨t1, x'⟩ := r
      simp only [hloop, RunResult.done.injEq] at hrun
      obtain ⟨b1, b2, b3, b4⟩ := runLoop_bound (prescaler cs) n fuel t t.excessTicks t1 x' he hloop
      have hM : uintMod = 18446744073709551616 := rfl
      have hex : t'.excessTicks = x' - n := by
        rw [← hrun]
        show (x' + uintMod - n) % uintMod = x' - n
        rw [hM] at b2 ⊢
        omega
      have hiff : t'.excessTicks < prescaler cs ↔ t.excessTicks < n + prescaler cs := by
        rw [hex]
        by_cases hle : n ≤ t.excessTicks
        · rw [(b3 hle).1]; omega
        · have := b4 (by omega); omega
      exact ⟨hiff, fun h => hiff.mpr (by omega)⟩
  · intro hov hfuel
    exact ⟨_, Run_spec t fuel n cs hcs h1 h5 he hov hfuel⟩

/-- One call of `Run` with clock-select in 1..5 that returns: the new `excessTicks` is a
`uint`; it is the carried remainder less `n` when no tick was due, and is below the divider
when a tick was due. -/
theorem Run_done_excess (t t' : Timer) (fuel n cs : Nat) (hcs : t.controlB &&& 0x07 = cs)
    (h1 : 1 ≤ cs) (h5 : cs ≤ 5) (he : t.excessTicks < uintMod)
    (hrun : t.Run fuel n = RunResult.done t') :
    t'.excessTicks < uintMod ∧ (n ≤ t.excessTicks → t'.excessTicks = t.excessTicks - n) ∧
    (t.excessTicks < n → t'.excessTicks < prescaler cs) := by
  unfold Timer.Run at hrun
  rw [hcs, clockSelect_divider h1 h5] at hrun
  simp only at hrun
  cases hloop : runLoop (prescaler cs) n fuel t t.excessTicks with
  | none => simp [hloop] at hrun
  | some r =>
    obtain ⟨t1, x'⟩ := r
    simp only [hloop, RunResult.done.injEq] at hrun
    obtain ⟨b1, b2, b3, b4⟩ := runLoop_bound (prescaler cs) n fuel t t.excessTicks t1 x' he hloop
    have hM : uintMod = 18446744073709551616 := rfl
    have hex : t'.excessTicks = x' - n := by
      rw [← hrun]
      show (x' + uintMod - n) % uintMod = x' - n
      rw [hM] at b2 ⊢
      omega
    rw [hex]
    refine ⟨by omega, fun hle => by rw [(b3 hle).1], fun hlt => ?_⟩
    have := b4 hlt
    omega

/-- Every state of `ReachWithin` is a state of `ReachPortsRun`. -/
theorem reachWithin_reachPortsRun {d : Nat} {t : Timer} (h : ReachWithin d t) :
    ReachPortsRun t := by
  induction h with
  | new digit => exact ReachPortsRun.new digit
  | reset t t' fuel n h hn _ hrun => exact ReachPortsRun.run t t' fuel n h hn hrun
  | addTo t em _ ih => exact ReachPortsRun.addTo t em ih
  | tccra t x _ hx ih => exact ReachPortsRun.tccra t x ih hx
  | tccrb t x _ hx ih => exact ReachPortsRun.tccrb t x ih hx
  | tcnt t x _ hx ih => exact ReachPortsRun.tcnt t x ih hx
  | ocra t x _ hx ih => exact ReachPortsRun.ocra t x ih hx
  | ocrb t x _ hx ih => exact ReachPortsRun.ocrb t x ih hx
  | timsk t x _ hx ih => exact ReachPortsRun.timsk t x ih hx
  | tifr t x _ hx ih => exact ReachPortsRun.tifr t x ih hx
  | run t t' fuel n _ hn _ _ hrun ih => exact ReachPortsRun.run t t' fuel n ih hn hrun

/-- The remainder carried between calls of `Run` is below every divider that bounds the
dividers used since the last reset. -/
theorem reachWithin_excess {d : Nat} {t : Timer} (h : ReachWithin d t) :
    t.excessTicks < uintMod ∧ (1 ≤ d → t.excessTicks < d) := by
  have hz : (0 : Nat) < uintMod := by decide
  induction h with
  | new digit => exact ⟨hz, fun hd => hd⟩
  | reset t t' fuel n _ _ hcs hrun =>
    have h0 := Run_of_disabled t fuel n (by rw [hcs]; rfl)
    rw [h0] at hrun
    cases hrun
    exact ⟨hz, fun hd => hd⟩
  | addTo t em _ ih => exact ih
  | tccra t x _ _ ih => exact ih
  | tccrb t x _ _ ih => exact ih
  | tcnt t x _ _ ih => exact ih
  | ocra t x _ _ ih => exact ih
  | ocrb t x _ _ ih => exact ih
  | timsk t x _ _ ih => exact ih
  | tifr t x _ _ ih => exact ih
  | run t t' fuel n _ hn h5 hd hrun ih =>
    by_cases h0 : t.controlB &&& 0x07 = 0
    · have hr := Run_of_disabled t fuel n (by rw [h0]; rfl)
      rw [hr] at hrun
      cases hrun
      exact ⟨hz, fun hd => hd⟩
    · obtain ⟨a1, a2, a3⟩ := Run_done_excess t t' fuel n _ rfl (by omega) h5 ih.1 hrun
      refine ⟨a1, fun hd1 => ?_⟩
      have := ih.2 hd1
      by_cases hle : n ≤ t.excessTicks
      · rw [a2 hle]; omega
      · have := a3 (by omega); omega

/-- Counterexample to C6 as stated: after `tccrb.Write(5)`, `Run(1)`, `tccrb.Write(1)` the
state is reachable, the clock-select is 1 (divider 1), and `Run(1)` returns with
`excessTicks = 1022`, which is not below the divider. -/
theorem Run_excess_bound_counterexample :
    ∃ t t', ReachPortsRun t ∧ t.controlB &&& 0x07 = 1 ∧ t.Run 1 1 = RunResult.done t' ∧
      t'.excessTicks = 1022 ∧ ¬ (t'.excessTicks < prescaler 1) := by
  refine ⟨tccrb.Write
      { Timer.Tick (tccrb.Write (New 0) 5) with excessTicks := 1023 } 1, _, ?_, ?_, rfl, ?_, ?_⟩
  · refine ReachPortsRun.tccrb _ 1 ?_ (by decide)
    exact ReachPortsRun.run (tccrb.Write (New 0) 5) _ 1 1
      (ReachPortsRun.tccrb _ 5 (ReachPortsRun.new 0) (by decide)) (by decide) rfl
  · decide
  · decide
  · decide

/-- C6 (amended): in every state reached from `New` by port writes and `Run` calls in which
no `Run` call since `New`, or since the last `Run` call made with clock-select 0, used a
divider larger than the divider `ticksIncr` selected now (clock-select in 1..5), whenever
`Run(n)` returns the carried remainder satisfies `0 ≤ excessTicks < ticksIncr`; and `Run(n)`
does return, with that bound, when `n + ticksIncr` does not exceed `2^64`. -/
theorem Run_excess_below_divider (t : Timer) (fuel n cs : Nat)
    (hcs : t.controlB &&& 0x07 = cs) (h1 : 1 ≤ cs) (h5 : cs ≤ 5)
    (hreach : ReachWithin (prescaler cs) t) (hn : n < uintMod) :
    ReachPortsRun t ∧
    (∀ t', t.Run fuel n = RunResult.done t' →
      0 ≤ t'.excessTicks ∧ t'.excessTicks < prescaler cs ∧
      ReachWithin (prescaler cs) t') ∧
    (n + prescaler cs ≤ uintMod → n ≤ fuel →
      ∃ t', t.Run fuel n = RunResult.done t' ∧ t'.excessTicks < prescaler cs) := by
  have hd : 1 ≤ prescaler cs := by
    rcases prescaler_cases h1 h5 with h | h | h | h | h <;> omega
  have hall : ∀ t', t.Run fuel n = RunResult.done t' →
      0 ≤ t'.excessTicks ∧ t'.excessTicks < prescaler cs ∧ ReachWithin (prescaler cs) t' := by
    intro t' hrun
    have hr : ReachWithin (prescaler cs) t' :=
      ReachWithin.run t t' fuel n hreach hn (by omega) (by rw [hcs]) hrun
    exact ⟨Nat.zero_le _, (reachWithin_excess hr).2 hd, hr⟩
  refine ⟨reachWithin_reachPortsRun hreach, hall, fun hov hfuel => ?_⟩
  have hrun := Run_spec t fuel n cs hcs h1 h5 (reachWithin_excess hreach).1 hov hfuel
  exact ⟨_, hrun, (hall _ hrun).2.1⟩

/-- Witness for C6 (amended): clock-select 2 is written and `Run(3)` is called (one tick,
remainder 5); then clock-select 3 is written, a larger divider, and `Run(100)` is called:
it returns with a remainder below 64. -/
theorem Run_excess_below_divider_witness :
    ReachWithin (prescaler 3)
      (tccrb.Write { Timer.Tick (tccrb.Write (New 0) 2) with excessTicks := 5 } 3) ∧
    (tccrb.Write (New 0) 2).Run 3 3
      = RunResult.done { Timer.Tick (tccrb.Write (New 0) 2) with excessTicks := 5 } ∧
    (tccrb.Write { Timer.Tick (tccrb.Write (New 0) 2) with excessTicks := 5 } 3).controlB
      &&& 0x07 = 3 ∧
    ∃ t', (tccrb.Write { Timer.Tick (tccrb.Write (New 0) 2) with excessTicks := 5 } 3).Run
        100 100 = RunResult.done t' ∧ t'.excessTicks < prescaler 3 :=
  have hreach : ReachWithin (prescaler 3)
      (tccrb.Write { Timer.Tick (tccrb.Write (New 0) 2) with excessTicks := 5 } 3) :=
    ReachWithin.tccrb _ 3
      (ReachWithin.run (tccrb.Write (New 0) 2) _ 3 3
        (ReachWithin.tccrb _ 2 (ReachWithin.new 0) (by decide)) (by decide) (by decide)
        (by decide) rfl) (by decide)
  ⟨hreach, rfl, by decide,
    (Run_excess_below_divider _ 100 100 3 (by decide) (by decide) (by decide)
      hreach (by decide)).2.2 (by decide) (by decide)⟩

/-- Counterexample to C7 as stated: with clock-select 2 (divider 8), `excessTicks = 0`
and `n = 2^64 - 1`, `Run(n)` does not complete: whatever the bound on the iterations, the
loop is still running. -/
theorem Run_completes_counterexample :
    (tccrb.Write (New 0) 2).controlB &&& 0x07 = 2 ∧ uintMod - 1 < uintMod ∧
    ∀ fuel, (tccrb.Write (New 0) 2).Run fuel (uintMod - 1) = RunResult.outOfFuel := by
  refine ⟨by decide, by decide, fun fuel => ?_⟩
  have h := runLoop_diverges fuel (tccrb.Write (New 0) 2) 0 (by decide) (by decide)
  have hcs : clockSelect ((tccrb.Write (New 0) 2).controlB &&& 0x07) = ClockSel.divider 8 := by
    decide
  unfold Timer.Run
  rw [hcs]
  have he : (tccrb.Write (New 0) 2).excessTicks = 0 := rfl
  simp only [he, h]

/-- C7 (amended): `Run(n)` panics exactly when the clock-select field is 6 or 7, and then
in the state it was called in (no tick executed, no field modified); for clock-select 0..5
`Run(n)` never panics, and it completes whenever `n` plus the divider does not overflow. -/
theorem Run_panics_iff_external_clock (t : Timer) (fuel n : Nat) :
    ((∃ t' msg, t.Run fuel n = RunResult.panic t' msg)
      ↔ (t.controlB &&& 0x07 = 6 ∨ t.controlB &&& 0x07 = 7)) ∧
    (∀ t' msg, t.Run fuel n = RunResult.panic t' msg → t' = t) ∧
    (t.controlB &&& 0x07 ≤ 5 → t.excessTicks < uintMod →
      n + prescaler (t.controlB &&& 0x07) ≤ uintMod → n ≤ fuel →
      ∃ t', t.Run fuel n = RunResult.done t') := by
  rcases clockSelect_cases t with ⟨h0, hsel⟩ | ⟨h1, h5, hsel⟩ | ⟨h67, hsel⟩
  · have hrun := Run_of_disabled t fuel n hsel
    refine ⟨⟨?_, ?_⟩, ?_, fun _ _ _ _ => ⟨_, hrun⟩⟩
    · rintro ⟨t', msg, h⟩
      rw [hrun] at h
      cases h
    · intro h; omega
    · intro t' msg h
      rw [hrun] at h
      cases h
  · refine ⟨⟨?_, ?_⟩, ?_, fun _ he hov hfuel =>
      ⟨_, Run_spec t fuel n _ rfl h1 h5 he hov hfuel⟩⟩
    · rintro ⟨t', msg, h⟩
      exact absurd h (Run_of_divider t fuel n _ hsel t' msg)
    · intro h; omega
    · intro t' msg h
      exact absurd h (Run_of_divider t fuel n _ hsel t' msg)
  · have hrun := Run_of_external t fuel n hsel
    refine ⟨⟨fun _ => h67, fun _ => ⟨_, _, hrun⟩⟩, ?_, fun h => by omega⟩
    intro t' msg h
    rw [hrun] at h
    cases h
    rfl

/-- Witness for C7 (amended): clock-select 7 panics, clock-select 2 completes. -/
theorem Run_panics_iff_external_clock_witness :
    (∃ t' msg, (tccrb.Write (New 0) 7).Run 0 1 = RunResult.panic t' msg) ∧
    ∃ t', (tccrb.Write (New 0) 2).Run 20 20 = RunResult.done t' :=
  ⟨(Run_panics_iff_external_clock (tccrb.Write (New 0) 7) 0 1).1.mpr (Or.inr (by decide)),
    (Run_panics_iff_external_clock (tccrb.Write (New 0) 2) 20 20).2.2
      (by decide) (by decide) (by decide) (by decide)⟩

/-- C8: with clock-select 0, `Run(n)` returns at once: `excessTicks` becomes 0 and every
other field is as before; no tick is executed and no collaborator is called. -/
theorem Run_disabled (t : Timer) (fuel n : Nat) (hcs : t.controlB &&& 0x07 = 0) :
    t.Run fuel n = RunResult.done { t with excessTicks := 0 } ∧
    ∃ t', t.Run fuel n = RunResult.done t' ∧ t'.excessTicks = 0 ∧
      t'.tickCount = t.tickCount ∧ t'.trace = t.trace ∧
      t'.count = t.count ∧ t'.controlA = t.controlA ∧ t'.controlB = t.controlB ∧
      t'.compareValA = t.compareValA ∧ t'.compareValB = t.compareValB ∧
      t'.compareValBufferA = t.compareValBufferA ∧
      t'.compareValBufferB = t.compareValBufferB ∧
      t'.interruptFlags = t.interruptFlags ∧ t'.interruptMask = t.interruptMask ∧
      t'.downwards = t.downwards ∧ t'.ocPinStates = t.ocPinStates ∧
      t'.inhibitCompareMatch = t.inhibitCompareMatch := by
  have h : t.Run fuel n = RunResult.done { t with excessTicks := 0 } := by
    unfold Timer.Run
    rw [hcs]
    rfl
  exact ⟨h, _, h, rfl, rfl, rfl, rfl, rfl, rfl, rfl, rfl, rfl, rfl, rfl, rfl, rfl, rfl, rfl⟩

/-- Witness for C8: a timer with `controlB = 0x08` and a carried remainder of 5. -/
theorem Run_disabled_witness :
    ({ New 0 with controlB := 0x08, excessTicks := 5 } : Timer).controlB &&& 0x07 = 0 ∧
    Timer.Run 0 { New 0 with controlB := 0x08, excessTicks := 5 } 1000
      = RunResult.done { ({ New 0 with controlB := 0x08, excessTicks := 5 } : Timer) with
          excessTicks := 0 } :=
  ⟨by decide, (Run_disabled { New 0 with controlB := 0x08, excessTicks := 5 } 0 1000
    (by decide)).1⟩

/-! ## Waveform generation -/

/-- C9 (the code deviates): with WGM = 7 the dispatch of `Tick` calls `tickPCPWMMode`.
On the state reached from `New(0)` by writing `0x03` to TCCR0A, `0x09` to TCCR0B, `0x10`
to OCR0A and `0x10` to TCNT0, the selector is 7 and `count` equals TOP (the active
compare A); one `Tick` ends with `count = 0x0F`, counting downward, overflow flag clear. -/
theorem Tick_fastPWM_wgm7_at_top :
    (tcnt.Write (ocra.Write (tccrb.Write (tccra.Write (New 0) 0x03) 0x09) 0x10) 0x10).getWGM
      = 7 ∧
    (tcnt.Write (ocra.Write (tccrb.Write (tccra.Write (New 0) 0x03) 0x09) 0x10) 0x10).count
      = (tcnt.Write (ocra.Write (tccrb.Write (tccra.Write (New 0) 0x03) 0x09) 0x10)
          0x10).compareValA ∧
    (tcnt.Write (ocra.Write (tccrb.Write (tccra.Write (New 0) 0x03) 0x09) 0x10)
      0x10).Tick.count = 0x0F ∧
    (tcnt.Write (ocra.Write (tccrb.Write (tccra.Write (New 0) 0x03) 0x09) 0x10)
      0x10).Tick.downwards = true ∧
    (tcnt.Write (ocra.Write (tccrb.Write (tccra.Write (New 0) 0x03) 0x09) 0x10)
      0x10).Tick.interruptFlags.testBit 0 = false := by
  refine ⟨by decide, by decide, by decide, by decide, by decide⟩

/-- C10: double buffering in the PWM tick handlers.  With WGM = 3 (`tickFastPWMMode`) a
`Tick` that begins with `count ≠ 0` leaves `compareValA` and `compareValB` unchanged and
one that begins with `count = 0` makes them equal to the buffers; with WGM = 1 (TOP =
`0xFF`) and WGM = 5 (TOP = the active compare A at the start of the tick),
`tickPCPWMMode` does the same with `count = TOP` in place of `count = 0`. -/
theorem Tick_double_buffering (t : Timer) :
    (t.getWGM = 3 →
      (t.count ≠ 0x00 →
        t.Tick.compareValA = t.compareValA ∧ t.Tick.compareValB = t.compareValB) ∧
      (t.count = 0x00 →
        t.Tick.compareValA = t.compareValBufferA ∧
        t.Tick.compareValB = t.compareValBufferB)) ∧
    (t.getWGM = 1 →
      (t.count ≠ 0xFF →
        t.Tick.compareValA = t.compareValA ∧ t.Tick.compareValB = t.compareValB) ∧
      (t.count = 0xFF →
        t.Tick.compareValA = t.compareValBufferA ∧
        t.Tick.compareValB = t.compareValBufferB)) ∧
    (t.getWGM = 5 →
      (t.count ≠ t.compareValA →
        t.Tick.compareValA = t.compareValA ∧ t.Tick.compareValB = t.compareValB) ∧
      (t.count = t.compareValA →
        t.Tick.compareValA = t.compareValBufferA ∧
        t.Tick.compareValB = t.compareValBufferB)) := by
  obtain ⟨f, hcm⟩ := compareMatch_fields t
  obtain ⟨hA, hB⟩ := Tick_compareVal t
  have hw := compareMatch_getWGM t
  refine ⟨fun h => ?_, fun h => ?_, fun h => ?_⟩
  · have hstep : t.compareMatch.modeStep = t.compareMatch.tickFastPWMMode 0xFF := by
      unfold Timer.modeStep
      rw [hw, h]
    obtain ⟨h1, h2⟩ := tickFastPWMMode_compareVal t.compareMatch 0xFF
    rw [hA, hB, hstep, h1, h2, hcm]
    constructor
    · intro hc
      simp only [hc, if_false]
      exact ⟨trivial, trivial⟩
    · intro hc
      simp only [hc, if_true]
      exact ⟨trivial, trivial⟩
  · have hstep : t.compareMatch.modeStep = t.compareMatch.tickPCPWMMode 0xFF := by
      unfold Timer.modeStep
      rw [hw, h]
    obtain ⟨h1, h2⟩ := tickPCPWMMode_compareVal t.compareMatch 0xFF
    rw [hA, hB, hstep, h1, h2, hcm]
    constructor
    · intro hc
      simp only [hc, if_false]
      exact ⟨trivial, trivial⟩
    · intro hc
      simp only [hc, if_true]
      exact ⟨trivial, trivial⟩
  · have hstep : t.compareMatch.modeStep
        = t.compareMatch.tickPCPWMMode t.compareMatch.compareValA := by
      unfold Timer.modeStep
      rw [hw, h]
    obtain ⟨h1, h2⟩ := tickPCPWMMode_compareVal t.compareMatch t.compareMatch.compareValA
    rw [hA, hB, hstep, h1, h2, hcm]
    constructor
    · intro hc
      simp only [hc, if_false]
      exact ⟨trivial, trivial⟩
    · intro hc
      simp only [hc, if_true]
      exact ⟨trivial, trivial⟩

/-- Witness for C10: WGM = 3, `count = 0`, buffers `0x40` and `0x20`. -/
theorem Tick_double_buffering_witness :
    ({ New 0 with controlA := 0x03, compareValBufferA := 0x40,
                  compareValBufferB := 0x20 } : Timer).getWGM = 3 ∧
    ({ New 0 with controlA := 0x03, compareValBufferA := 0x40,
                  compareValBufferB := 0x20 } : Timer).count = 0x00 ∧
    (Timer.Tick { New 0 with controlA := 0x03, compareValBufferA := 0x40,
                             compareValBufferB := 0x20 }).compareValA
      = ({ New 0 with controlA := 0x03, compareValBufferA := 0x40,
                      compareValBufferB := 0x20 } : Timer).compareValBufferA ∧
    (Timer.Tick { New 0 with controlA := 0x03, compareValBufferA := 0x40,
                             compareValBufferB := 0x20 }).compareValB
      = ({ New 0 with controlA := 0x03, compareValBufferA := 0x40,
                      compareValBufferB := 0x20 } : Timer).compareValBufferB :=
  ⟨by decide, by decide,
    ((Tick_double_buffering { New 0 with controlA := 0x03, compareValBufferA := 0x40,
                                         compareValBufferB := 0x20 }).1
      (by decide)).2 (by decide)⟩

/-! ## Output-compare pin driver: exact effect -/

theorem pinOnly_same (n : Fin 2) (t : Timer) : PinOnly n (t.ocPinStates n) [] t t := by
  unfold PinOnly
  simp

theorem pinOnly_trans {n : Fin 2} {b c : Bool} {ls ms : List Bool} {t u v : Timer}
    (h1 : PinOnly n b ls t u) (h2 : PinOnly n c ms u v) : PinOnly n c (ls ++ ms) t v := by
  unfold PinOnly at *
  subst h1
  subst h2
  simp

theorem updateOCPin_pinOnly (t : Timer) (n : Fin 2) :
    PinOnly n (t.ocPinStates n)
      (if t.ocPinCallbacks n = true then [t.ocPinStates n] else []) t (t.updateOCPin n) := by
  unfold Timer.updateOCPin PinOnly
  split <;> simp

theorem toggleOCPin_pinOnly (t : Timer) (n : Fin 2) :
    PinOnly n (!t.ocPinStates n)
      (if t.ocPinCallbacks n = true then [!t.ocPinStates n] else []) t (t.toggleOCPin n) := by
  unfold Timer.toggleOCPin Timer.updateOCPin PinOnly
  split <;> simp

theorem setOCPin_pinOnly (t : Timer) (n : Fin 2) :
    PinOnly n true
      (if t.ocPinCallbacks n = true ∧ t.ocPinStates n = false then [true] else []) t
      (t.setOCPin n) := by
  unfold Timer.setOCPin Timer.updateOCPin PinOnly
  cases hs : t.ocPinStates n <;> cases hc : t.ocPinCallbacks n <;> simp [hs, hc]
  all_goals
    have h : Function.update t.ocPinStates n true = t.ocPinStates := by
      rw [← hs]; exact Function.update_eq_self n t.ocPinStates
    rw [h]

theorem clearOCPin_pinOnly (t : Timer) (n : Fin 2) :
    PinOnly n false
      (if t.ocPinCallbacks n = true ∧ t.ocPinStates n = true then [false] else []) t
      (t.clearOCPin n) := by
  unfold Timer.clearOCPin Timer.updateOCPin PinOnly
  cases hs : t.ocPinStates n <;> cases hc : t.ocPinCallbacks n <;> simp [hs, hc]
  all_goals
    have h : Function.update t.ocPinStates n false = t.ocPinStates := by
      rw [← hs]; exact Function.update_eq_self n t.ocPinStates
    rw [h]

theorem setOCPin_of_high (t : Timer) (n : Fin 2) (h : t.ocPinStates n = true) :
    t.setOCPin n = t := by
  unfold Timer.setOCPin
  simp [h]

theorem clearOCPin_of_low (t : Timer) (n : Fin 2) (h : t.ocPinStates n = false) :
    t.clearOCPin n = t := by
  unfold Timer.clearOCPin
  simp [h]

/-- C14: the output-compare pin driver.  `setOCPin p` leaves pin `p` high and calls its
callback, once and with `true`, exactly when a callback is installed and the pin was low;
`clearOCPin p` leaves it low and calls the callback, once and with `false`, exactly when
the pin was high; either operation applied twice gives the state of one application;
`toggleOCPin p` inverts the level and calls the installed callback once with the new
level.  No other field changes: the other pin keeps its level, its callback is not called,
and without a callback only the level is updated. -/
theorem ocPin_driver (t : Timer) (p : Fin 2) :
    (t.setOCPin p = { t with
        ocPinStates := Function.update t.ocPinStates p true,
        trace := t.trace ++ (if t.ocPinCallbacks p = true ∧ t.ocPinStates p = false
          then [Event.pin p true] else []) }) ∧
    (t.clearOCPin p = { t with
        ocPinStates := Function.update t.ocPinStates p false,
        trace := t.trace ++ (if t.ocPinCallbacks p = true ∧ t.ocPinStates p = true
          then [Event.pin p false] else []) }) ∧
    (t.toggleOCPin p = { t with
        ocPinStates := Function.update t.ocPinStates p (!t.ocPinStates p),
        trace := t.trace ++ (if t.ocPinCallbacks p = true
          then [Event.pin p (!t.ocPinStates p)] else []) }) ∧
    ((t.setOCPin p).ocPinStates p = true ∧ (t.clearOCPin p).ocPinStates p = false ∧
      (t.toggleOCPin p).ocPinStates p = !t.ocPinStates p) ∧
    ((t.setOCPin p).setOCPin p = t.setOCPin p ∧
      (t.clearOCPin p).clearOCPin p = t.clearOCPin p) ∧
    (∀ q, q ≠ p → (t.setOCPin p).ocPinStates q = t.ocPinStates q ∧
      (t.clearOCPin p).ocPinStates q = t.ocPinStates q ∧
      (t.toggleOCPin p).ocPinStates q = t.ocPinStates q) ∧
    (t.ocPinCallbacks p = false → (t.setOCPin p).trace = t.trace ∧
      (t.clearOCPin p).trace = t.trace ∧ (t.toggleOCPin p).trace = t.trace) := by
  have hs := setOCPin_pinOnly t p
  have hc := clearOCPin_pinOnly t p
  have hg := toggleOCPin_pinOnly t p
  unfold PinOnly at hs hc hg
  have hs1 : (t.setOCPin p).ocPinStates p = true := by rw [hs]; simp
  have hc1 : (t.clearOCPin p).ocPinStates p = false := by rw [hc]; simp
  refine ⟨?_, ?_, ?_, ⟨hs1, hc1, ?_⟩, ⟨?_, ?_⟩, ?_, ?_⟩
  · rw [hs]; split_ifs <;> rfl
  · rw [hc]; split_ifs <;> rfl
  · rw [hg]; split_ifs <;> rfl
  · rw [hg]; simp
  · exact setOCPin_of_high _ p hs1
  · exact clearOCPin_of_low _ p hc1
  · intro q hq
    rw [hs, hc, hg]
    simp [Function.update_noteq hq]
  · intro hcb
    rw [hs, hc, hg]
    simp [hcb]

/-- Witness for C14: pin B of a new timer with a callback installed on pin A only. -/
theorem ocPin_driver_witness :
    ((0 : Fin 2) ≠ 1) ∧
    ((Timer.OverrideOCPin (New 0) 0).setOCPin 1).ocPinStates 0
      = (Timer.OverrideOCPin (New 0) 0).ocPinStates 0 ∧
    ((Timer.OverrideOCPin (New 0) 0).setOCPin 1).trace = (Timer.OverrideOCPin (New 0) 0).trace :=
  ⟨by decide,
    ((ocPin_driver (Timer.OverrideOCPin (New 0) 0) 1).2.2.2.2.2.1 0 (by decide)).1,
    ((ocPin_driver (Timer.OverrideOCPin (New 0) 0) 1).2.2.2.2.2.2 (by decide)).1⟩

/-! ## General lemmas on a tick -/

theorem setOCF_zero (t : Timer) :
    t.setOCF 0 = { t with interruptFlags := t.interruptFlags ||| 0x02 } := rfl

theorem setOCF_one (t : Timer) :
    t.setOCF 1 = { t with interruptFlags := t.interruptFlags ||| 0x04 } := rfl

/-- Compare-match detection when it is not inhibited: the flag of each register that equals
the counter is set, and nothing else changes. -/
theorem compareMatch_eq (t : Timer) (hi : t.inhibitCompareMatch = false) :
    t.compareMatch = { t with interruptFlags :=
      (if t.count = t.compareValB then
        (if t.count = t.compareValA then t.interruptFlags ||| 0x02 else t.interruptFlags)
          ||| 0x04
       else (if t.count = t.compareValA then t.interruptFlags ||| 0x02
         else t.interruptFlags)) } := by
  unfold Timer.compareMatch
  rw [if_neg (by rw [hi]; simp)]
  simp only [setOCF_zero, setOCF_one]
  split_ifs <;> rfl

/-- Compare-match detection leaves the overflow flag alone. -/
theorem compareMatch_bit0 (t : Timer) :
    t.compareMatch.interruptFlags.testBit 0 = t.interruptFlags.testBit 0 := by
  have h2 : Nat.testBit 2 0 = false := by decide
  have h4 : Nat.testBit 4 0 = false := by decide
  cases hi : t.inhibitCompareMatch with
  | true =>
    unfold Timer.compareMatch
    simp [hi]
  | false =>
    rw [compareMatch_eq t hi]
    show Nat.testBit (if t.count = t.compareValB then
        (if t.count = t.compareValA then t.interruptFlags ||| 0x02 else t.interruptFlags)
          ||| 0x04
       else (if t.count = t.compareValA then t.interruptFlags ||| 0x02
         else t.interruptFlags)) 0 = _
    split_ifs <;> simp only [Nat.testBit_or, h2, h4, Bool.or_false]

/-- The interrupt part of `Tick` does nothing when nothing is pending and enabled. -/
theorem triggerInterrupts_of_idle (m : Timer)
    (h : ∀ em, m.em = some em → em.InterruptsEnabled m.trace = true →
      firstPending m.interruptFlags m.interruptMask = none) :
    m.triggerInterrupts = m := by
  by_cases hen : ∀ em, m.em = some em → em.InterruptsEnabled m.trace = false
  · exact triggerInterrupts_of_disabled m hen
  · push_neg at hen
    obtain ⟨em, hem, hen⟩ := hen
    have hen' : em.InterruptsEnabled m.trace = true := by simpa using hen
    have hp := h em hem hen'
    rcases selectInterrupt_cases m with ⟨hp', _⟩ | ⟨hp', _⟩ | ⟨hp', _⟩ | ⟨_, hs⟩
    · rw [hp] at hp'; cases hp'
    · rw [hp] at hp'; cases hp'
    · rw [hp] at hp'; cases hp'
    · unfold Timer.triggerInterrupts
      simp [hem, hen', hs]

/-- The interrupt part of `Tick` keeps flag bit `i` when interrupt `i` is not granted. -/
theorem triggerInterrupts_keeps_bit (m : Timer) (i : Nat) (hi : i < 8)
    (h : ∀ em, m.em = some em → em.InterruptsEnabled m.trace = true →
      firstPending m.interruptFlags m.interruptMask ≠ some i) :
    m.triggerInterrupts.interruptFlags.testBit i = m.interruptFlags.testBit i := by
  by_cases hen : ∀ em, m.em = some em → em.InterruptsEnabled m.trace = false
  · rw [triggerInterrupts_of_disabled m hen]
  · push_neg at hen
    obtain ⟨em, hem, hen⟩ := hen
    have hen' : em.InterruptsEnabled m.trace = true := by simpa using hen
    obtain ⟨_, _, _, _, hbits, _⟩ := triggerInterrupts_spec m em hem hen'
    rw [hbits i hi]
    simp [h em hem hen']

theorem pinLevels_append (n : Fin 2) (a b : List Event) :
    pinLevels n (a ++ b) = pinLevels n a ++ pinLevels n b := by
  induction a with
  | nil => rfl
  | cons e a ih =>
    cases e with
    | pin m l => by_cases hm : m = n <;> simp [pinLevels, hm, ih]
    | interrupt name => simp [pinLevels, ih]
    | logLine name => simp [pinLevels, ih]

theorem pinEvents_append (a b : List Event) :
    pinEvents (a ++ b) = pinEvents a ++ pinEvents b := by
  induction a with
  | nil => rfl
  | cons e a ih => cases e <;> simp [pinEvents, ih]

/-- The interrupt part of `Tick` calls no pin callback. -/
theorem triggerInterrupts_trace (m : Timer) :
    ∃ evs, m.triggerInterrupts.trace = m.trace ++ evs ∧ pinEvents evs = [] ∧
      ∀ n, pinLevels n evs = [] := by
  by_cases hen : ∀ em, m.em = some em → em.InterruptsEnabled m.trace = false
  · rw [triggerInterrupts_of_disabled m hen]
    exact ⟨[], by simp, rfl, fun _ => rfl⟩
  · push_neg at hen
    obtain ⟨em, hem, hen⟩ := hen
    have hen' : em.InterruptsEnabled m.trace = true := by simpa using hen
    obtain ⟨f, hf⟩ := selectInterrupt_fields m
    unfold Timer.triggerInterrupts
    simp only [hem, hen', if_true]
    split_ifs
    · rw [hf]
      exact ⟨[Event.interrupt m.selectInterrupt.2, Event.logLine m.selectInterrupt.2],
        by simp, rfl, fun _ => rfl⟩
    · rw [hf]
      exact ⟨[Event.interrupt m.selectInterrupt.2], by simp, rfl, fun _ => rfl⟩
    · rw [hf]
      exact ⟨[], by simp, rfl, fun _ => rfl⟩

/-- What `dispatches` denies, in the form used by the lemmas on the interrupt part. -/
theorem not_dispatches (t : Timer) (i : Nat) (h : t.dispatches i = false) :
    ∀ em, t.tickEvents.em = some em → em.InterruptsEnabled t.tickEvents.trace = true →
      firstPending t.tickEvents.interruptFlags t.tickEvents.interruptMask ≠ some i := by
  intro em hem hen
  have hfr := tickEvents_frame t
  rw [hfr.em] at hem
  rw [hfr.interruptMask]
  unfold Timer.dispatches at h
  simp only [hem, hen, Bool.true_and] at h
  simpa using h

/-- A flag bit that is set before the interrupt part of a tick and whose interrupt is not
dispatched is set after the tick. -/
theorem Tick_keeps_bit (t : Timer) (i : Nat) (hi : i < 8) (h : t.dispatches i = false) :
    t.Tick.interruptFlags.testBit i = t.tickEvents.interruptFlags.testBit i :=
  triggerInterrupts_keeps_bit t.tickEvents i hi (not_dispatches t i h)

/-- The fields of a tick that the interrupt part does not touch. -/
theorem Tick_fields (t : Timer) :
    t.Tick.count = t.tickEvents.count ∧ t.Tick.downwards = t.tickEvents.downwards ∧
    t.Tick.ocPinStates = t.tickEvents.ocPinStates ∧
    t.Tick.compareValA = t.tickEvents.compareValA ∧
    t.Tick.compareValB = t.tickEvents.compareValB ∧
    t.Tick.compareValBufferA = t.tickEvents.compareValBufferA ∧
    t.Tick.compareValBufferB = t.tickEvents.compareValBufferB ∧
    t.Tick.inhibitCompareMatch = t.tickEvents.inhibitCompareMatch ∧
    t.Tick.controlA = t.tickEvents.controlA ∧ t.Tick.ocPinCallbacks = t.tickEvents.ocPinCallbacks := by
  obtain ⟨f, tr, h⟩ := triggerInterrupts_fields t.tickEvents
  have hT : t.Tick = { t.tickEvents.triggerInterrupts with
      tickCount := t.tickEvents.triggerInterrupts.tickCount + 1 } := rfl
  rw [hT, h]
  exact ⟨rfl, rfl, rfl, rfl, rfl, rfl, rfl, rfl, rfl, rfl⟩

/-! ## Exact effect of the mode handlers -/

/-- What `tickNormalMode` leaves in the counter, the direction, the flags and the compare
registers. -/
theorem tickNormalMode_effect (t : Timer) :
    t.tickNormalMode.count = t.count ∧ t.tickNormalMode.downwards = false ∧
    t.tickNormalMode.interruptFlags
      = (if t.count = 0xFF then t.interruptFlags ||| 0x01 else t.interruptFlags) ∧
    t.tickNormalMode.compareValA = t.compareValBufferA ∧
    t.tickNormalMode.compareValB = t.compareValBufferB := by
  unfold Timer.tickNormalMode
  refine ⟨?_, ?_, ?_, ?_, ?_⟩
  · refine (pinsOnly_fields (checkOCPinNormalMode_pinsOnly _ _ _)).1.trans ?_
    refine (pinsOnly_fields (checkOCPinNormalMode_pinsOnly _ _ _)).1.trans ?_
    split_ifs <;> rfl
  · refine (pinsOnly_fields (checkOCPinNormalMode_pinsOnly _ _ _)).2.2.2.2.2.1.trans ?_
    refine (pinsOnly_fields (checkOCPinNormalMode_pinsOnly _ _ _)).2.2.2.2.2.1.trans ?_
    split_ifs <;> rfl
  · refine (pinsOnly_fields (checkOCPinNormalMode_pinsOnly _ _ _)).2.2.2.2.2.2.1.trans ?_
    refine (pinsOnly_fields (checkOCPinNormalMode_pinsOnly _ _ _)).2.2.2.2.2.2.1.trans ?_
    split_ifs <;> rfl
  · refine (pinsOnly_fields (checkOCPinNormalMode_pinsOnly _ _ _)).2.1.trans ?_
    refine (pinsOnly_fields (checkOCPinNormalMode_pinsOnly _ _ _)).2.1.trans ?_
    split_ifs <;> rfl
  · refine (pinsOnly_fields (checkOCPinNormalMode_pinsOnly _ _ _)).2.2.1.trans ?_
    refine (pinsOnly_fields (checkOCPinNormalMode_pinsOnly _ _ _)).2.2.1.trans ?_
    split_ifs <;> rfl

/-- What `tickCTCMode` leaves in the counter, the direction, the flags and the compare
registers. -/
theorem tickCTCMode_effect (t : Timer) :
    t.tickCTCMode.count = (if t.count = t.compareValBufferA then 0xFF else t.count) ∧
    t.tickCTCMode.downwards = false ∧
    t.tickCTCMode.interruptFlags
      = (if t.count = 0xFF then t.interruptFlags ||| 0x01 else t.interruptFlags) ∧
    t.tickCTCMode.compareValA = t.compareValBufferA ∧
    t.tickCTCMode.compareValB = t.compareValBufferB := by
  unfold Timer.tickCTCMode
  refine ⟨?_, ?_, ?_, ?_, ?_⟩
  · refine (pinsOnly_fields (checkOCPinCTCMode_pinsOnly _ _ _)).1.trans ?_
    refine (pinsOnly_fields (checkOCPinCTCMode_pinsOnly _ _ _)).1.trans ?_
    split_ifs <;> first | rfl | simp_all [Timer.setTOV]
  · refine (pinsOnly_fields (checkOCPinCTCMode_pinsOnly _ _ _)).2.2.2.2.2.1.trans ?_
    refine (pinsOnly_fields (checkOCPinCTCMode_pinsOnly _ _ _)).2.2.2.2.2.1.trans ?_
    split_ifs <;> rfl
  · refine (pinsOnly_fields (checkOCPinCTCMode_pinsOnly _ _ _)).2.2.2.2.2.2.1.trans ?_
    refine (pinsOnly_fields (checkOCPinCTCMode_pinsOnly _ _ _)).2.2.2.2.2.2.1.trans ?_
    split_ifs <;> rfl
  · refine (pinsOnly_fields (checkOCPinCTCMode_pinsOnly _ _ _)).2.1.trans ?_
    refine (pinsOnly_fields (checkOCPinCTCMode_pinsOnly _ _ _)).2.1.trans ?_
    split_ifs <;> rfl
  · refine (pinsOnly_fields (checkOCPinCTCMode_pinsOnly _ _ _)).2.2.1.trans ?_
    refine (pinsOnly_fields (checkOCPinCTCMode_pinsOnly _ _ _)).2.2.1.trans ?_
    split_ifs <;> rfl

/-- What `tickPCPWMMode` leaves in the counter, the direction and the flags. -/
theorem tickPCPWMMode_effect (t : Timer) (top : Nat) :
    (t.tickPCPWMMode top).count = t.count ∧
    (t.tickPCPWMMode top).downwards
      = (if t.downwards = true then (if t.count = 0x00 then false else true)
         else (if t.count = top then true else false)) ∧
    (t.tickPCPWMMode top).interruptFlags
      = (if t.downwards = true ∧ t.count = 0x00 then t.interruptFlags ||| 0x01
         else t.interruptFlags) := by
  unfold Timer.tickPCPWMMode
  refine ⟨?_, ?_, ?_⟩
  · refine (pinsOnly_fields (checkOCPinPCPWMMode_pinsOnly _ _ _)).1.trans ?_
    refine (pinsOnly_fields (checkOCPinPCPWMMode_pinsOnly _ _ _)).1.trans ?_
    split_ifs <;> rfl
  · refine (pinsOnly_fields (checkOCPinPCPWMMode_pinsOnly _ _ _)).2.2.2.2.2.1.trans ?_
    refine (pinsOnly_fields (checkOCPinPCPWMMode_pinsOnly _ _ _)).2.2.2.2.2.1.trans ?_
    cases hd : t.downwards <;> split_ifs <;> simp_all [Timer.setTOV]
  · refine (pinsOnly_fields (checkOCPinPCPWMMode_pinsOnly _ _ _)).2.2.2.2.2.2.1.trans ?_
    refine (pinsOnly_fields (checkOCPinPCPWMMode_pinsOnly _ _ _)).2.2.2.2.2.2.1.trans ?_
    cases hd : t.downwards <;> split_ifs <;> simp_all [Timer.setTOV]

/-! ## Clear-timer-on-compare wrap and Normal-mode overflow -/

/-- Compare-match detection, when not inhibited, raises the flag of a register that equals
the counter. -/
theorem compareMatch_raises (t : Timer) (hi : t.inhibitCompareMatch = false) :
    (t.count = t.compareValA → t.compareMatch.interruptFlags.testBit 1 = true) ∧
    (t.count = t.compareValB → t.compareMatch.interruptFlags.testBit 2 = true) := by
  have h2 : Nat.testBit 2 1 = true := by decide
  have h4 : Nat.testBit 4 2 = true := by decide
  rw [compareMatch_eq t hi]
  constructor
  · intro hA
    show Nat.testBit (if t.count = t.compareValB then
        (if t.count = t.compareValA then t.interruptFlags ||| 0x02 else t.interruptFlags)
          ||| 0x04
       else (if t.count = t.compareValA then t.interruptFlags ||| 0x02
         else t.interruptFlags)) 1 = true
    simp only [hA, if_true]
    split_ifs <;> simp [Nat.testBit_or, h2]
  · intro hB
    show Nat.testBit (if t.count = t.compareValB then
        (if t.count = t.compareValA then t.interruptFlags ||| 0x02 else t.interruptFlags)
          ||| 0x04
       else (if t.count = t.compareValA then t.interruptFlags ||| 0x02
         else t.interruptFlags)) 2 = true
    simp only [hB, if_true]
    simp [Nat.testBit_or, h4]

/-- The counter, the staged registers and the active registers pass unchanged through
compare-match detection. -/
theorem compareMatch_regs (t : Timer) :
    t.compareMatch.count = t.count ∧ t.compareMatch.compareValA = t.compareValA ∧
    t.compareMatch.compareValB = t.compareValB ∧
    t.compareMatch.compareValBufferA = t.compareValBufferA ∧
    t.compareMatch.compareValBufferB = t.compareValBufferB ∧
    t.compareMatch.downwards = t.downwards ∧ t.compareMatch.ocPinStates = t.ocPinStates ∧
    t.compareMatch.controlA = t.controlA ∧ t.compareMatch.controlB = t.controlB ∧
    t.compareMatch.ocPinCallbacks = t.ocPinCallbacks ∧ t.compareMatch.trace = t.trace ∧
    t.compareMatch.inhibitCompareMatch = false := by
  obtain ⟨f, h⟩ := compareMatch_fields t
  rw [h]
  exact ⟨rfl, rfl, rfl, rfl, rfl, rfl, rfl, rfl, rfl, rfl, rfl, rfl⟩

/-- The counter after `advance`. -/
theorem advance_count (t : Timer) :
    t.advance.count = (if t.downwards = true then (t.count + 255) % 256
      else (t.count + 1) % 256) ∧
    t.advance.downwards = t.downwards ∧ t.advance.interruptFlags = t.interruptFlags ∧
    t.advance.ocPinStates = t.ocPinStates ∧ t.advance.trace = t.trace := by
  unfold Timer.advance
  split_ifs <;> exact ⟨rfl, rfl, rfl, rfl, rfl⟩

/-- The handler of mode WGM = 2 on a state whose staged compare A holds the value of the
active one (no port write produces such a state unless the value is 0, see
`reachable_staged`): when the counter, the active compare A and its staged value all equal
`c` and compare matches are not inhibited, one `Tick` ends with `count = 0`, and with the
compare-A flag (bit 1) set unless the compare-A interrupt is dispatched on that tick. -/
theorem Tick_ctc_wrap_of_staged (t : Timer) (c : Nat) (hw : t.getWGM = 2) (hc : t.count = c)
    (hA : t.compareValA = c) (hbA : t.compareValBufferA = c)
    (hi : t.inhibitCompareMatch = false) :
    t.Tick.count = 0x00 ∧
    (t.dispatches 1 = false → t.Tick.interruptFlags.testBit 1 = true) := by
  obtain ⟨r1, r2, r3, r4, r5, r6, _⟩ := compareMatch_regs t
  have hstep : t.compareMatch.modeStep = t.compareMatch.tickCTCMode := by
    unfold Timer.modeStep
    rw [compareMatch_getWGM, hw]
  obtain ⟨e1, e2, _, _, _⟩ := tickCTCMode_effect t.compareMatch
  obtain ⟨a1, _⟩ := advance_count t.compareMatch.modeStep
  have hte : t.tickEvents = t.compareMatch.modeStep.advance := rfl
  have hraise := (compareMatch_raises t hi).1 (by rw [hc, hA])
  have hbit : t.tickEvents.interruptFlags.testBit 1 = true := by
    rw [hte]
    exact (advance_frame _).flags 1 ((modeStep_frame _).flags 1 hraise)
  constructor
  · rw [(Tick_fields t).1, hte, a1, hstep, e1, e2, r1, r4, hc, hbA]
    simp
  · intro hnd
    rw [Tick_keeps_bit t 1 (by decide) hnd]
    exact hbit

/-- An instance of `Tick_ctc_wrap_of_staged` with `c = 0x09`, on a state built by hand: the
staged compare A is set to `0x09` in the record. -/
theorem Tick_ctc_wrap_of_staged_instance :
    ({ New 0 with controlA := 0x02, count := 0x09, compareValA := 0x09,
                  compareValBufferA := 0x09 } : Timer).getWGM = 2 ∧
    (Timer.Tick { New 0 with controlA := 0x02, count := 0x09, compareValA := 0x09,
                             compareValBufferA := 0x09 }).count = 0x00 ∧
    (Timer.Tick { New 0 with controlA := 0x02, count := 0x09, compareValA := 0x09,
                             compareValBufferA := 0x09 }).interruptFlags.testBit 1 = true :=
  ⟨by decide,
    (Tick_ctc_wrap_of_staged { New 0 with controlA := 0x02, count := 0x09, compareValA := 0x09,
                                          compareValBufferA := 0x09 } 0x09
      (by decide) rfl rfl rfl rfl).1,
    (Tick_ctc_wrap_of_staged { New 0 with controlA := 0x02, count := 0x09, compareValA := 0x09,
                                          compareValBufferA := 0x09 } 0x09
      (by decide) rfl rfl rfl rfl).2 rfl⟩

/-- C12: overflow in Normal mode.  In mode WGM = 0 with `count = 0xFF`, compare matches not
inhibited, neither active compare register equal to `0xFF` and no interrupt dispatched on
the tick, one `Tick` ends with `count = 0`, counting upward, the overflow flag (bit 0) set
and every other flag bit, those of compare A and compare B included, as before. -/
theorem Tick_normal_overflow (t : Timer) (hw : t.getWGM = 0) (hc : t.count = 0xFF)
    (hi : t.inhibitCompareMatch = false) (hA : t.compareValA ≠ 0xFF)
    (hB : t.compareValB ≠ 0xFF) (hnd : ∀ i, t.dispatches i = false) :
    t.Tick.count = 0x00 ∧ t.Tick.downwards = false ∧
    t.Tick.interruptFlags = t.interruptFlags ||| 0x01 ∧
    t.Tick.interruptFlags.testBit 0 = true ∧
    t.Tick.interruptFlags.testBit 1 = t.interruptFlags.testBit 1 ∧
    t.Tick.interruptFlags.testBit 2 = t.interruptFlags.testBit 2 := by
  have hcm : t.compareMatch = t := by
    rw [compareMatch_eq t hi]
    have h1 : ¬ t.count = t.compareValA := by rw [hc]; exact fun h => hA h.symm
    have h2 : ¬ t.count = t.compareValB := by rw [hc]; exact fun h => hB h.symm
    simp only [h1, h2, if_false]
  have hstep : t.modeStep = t.tickNormalMode := by
    unfold Timer.modeStep
    rw [hw]
  obtain ⟨e1, e2, e3, _, _⟩ := tickNormalMode_effect t
  obtain ⟨a1, a2, a3, _⟩ := advance_count t.modeStep
  have hte : t.tickEvents = t.modeStep.advance := by
    unfold Timer.tickEvents
    rw [hcm]
  have hflags : t.tickEvents.interruptFlags = t.interruptFlags ||| 0x01 := by
    rw [hte, a3, hstep, e3, hc]
    simp
  have hidle : t.tickEvents.triggerInterrupts = t.tickEvents := by
    apply triggerInterrupts_of_idle
    intro em hem hen
    cases hp : firstPending t.tickEvents.interruptFlags t.tickEvents.interruptMask with
    | none => rfl
    | some i => exact absurd hp (not_dispatches t i (hnd i) em hem hen)
  have hTf : t.Tick.interruptFlags = t.interruptFlags ||| 0x01 := by
    show t.tickEvents.triggerInterrupts.interruptFlags = _
    rw [hidle, hflags]
  have h10 : Nat.testBit 1 0 = true := by decide
  have h11 : Nat.testBit 1 1 = false := by decide
  have h12 : Nat.testBit 1 2 = false := by decide
  refine ⟨?_, ?_, hTf, ?_, ?_, ?_⟩
  · rw [(Tick_fields t).1, hte, a1, hstep, e1, e2, hc]
    simp
  · rw [(Tick_fields t).2.1, hte, a2, hstep, e2]
  · rw [hTf, Nat.testBit_or, h10]; simp
  · rw [hTf, Nat.testBit_or, h11]; simp
  · rw [hTf, Nat.testBit_or, h12]; simp

/-- Witness for C12: a new timer with `count = 0xFF`. -/
theorem Tick_normal_overflow_witness :
    ({ New 0 with count := 0xFF } : Timer).getWGM = 0 ∧
    (Timer.Tick { New 0 with count := 0xFF }).count = 0x00 ∧
    (Timer.Tick { New 0 with count := 0xFF }).downwards = false ∧
    (Timer.Tick { New 0 with count := 0xFF }).interruptFlags
      = ({ New 0 with count := 0xFF } : Timer).interruptFlags ||| 0x01 :=
  ⟨by decide,
    (Tick_normal_overflow { New 0 with count := 0xFF } (by decide) rfl rfl (by decide)
      (by decide) (fun _ => rfl)).1,
    (Tick_normal_overflow { New 0 with count := 0xFF } (by decide) rfl rfl (by decide)
      (by decide) (fun _ => rfl)).2.1,
    (Tick_normal_overflow { New 0 with count := 0xFF } (by decide) rfl rfl (by decide)
      (by decide) (fun _ => rfl)).2.2.1⟩

/-! ## Phase-Correct PWM -/

/-- C16: the step relation of Phase-Correct PWM, for WGM = 1 (`top = 0xFF`) and WGM = 5
(`top` = the active compare A at the start of the tick), the counter being a byte and the
overflow interrupt not dispatched on the tick.  Counting upward at `count = top`: the tick
ends counting downward at `top - 1` modulo 256; counting upward elsewhere: it ends counting
upward at `count + 1` modulo 256; counting downward at `count = 0`: it ends counting upward
at 1 with the overflow flag set; counting downward elsewhere: it ends counting downward at
`count - 1`.  Only the third case changes the overflow flag. -/
theorem Tick_phase_correct_step (t : Timer) (top : Nat)
    (hw : (t.getWGM = 1 ∧ top = 0xFF) ∨ (t.getWGM = 5 ∧ top = t.compareValA))
    (hcnt : t.count < 256) (hnd : t.dispatches 0 = false) :
    (t.downwards = false → t.count = top →
      t.Tick.downwards = true ∧ t.Tick.count = (top + 255) % 256 ∧
      t.Tick.interruptFlags.testBit 0 = t.interruptFlags.testBit 0) ∧
    (t.downwards = false → t.count ≠ top →
      t.Tick.downwards = false ∧ t.Tick.count = (t.count + 1) % 256 ∧
      t.Tick.interruptFlags.testBit 0 = t.interruptFlags.testBit 0) ∧
    (t.downwards = true → t.count = 0x00 →
      t.Tick.downwards = false ∧ t.Tick.count = 0x01 ∧
      t.Tick.interruptFlags.testBit 0 = true) ∧
    (t.downwards = true → t.count ≠ 0x00 →
      t.Tick.downwards = true ∧ t.Tick.count = t.count - 1 ∧
      t.Tick.interruptFlags.testBit 0 = t.interruptFlags.testBit 0) := by
  obtain ⟨r1, r2, _, _, _, r6, _⟩ := compareMatch_regs t
  have hstep : t.compareMatch.modeStep = t.compareMatch.tickPCPWMMode top := by
    unfold Timer.modeStep
    rcases hw with ⟨h, rfl⟩ | ⟨h, rfl⟩
    · rw [compareMatch_getWGM, h]
    · rw [compareMatch_getWGM, h, r2]
  obtain ⟨e1, e2, e3⟩ := tickPCPWMMode_effect t.compareMatch top
  obtain ⟨a1, a2, a3, _⟩ := advance_count t.compareMatch.modeStep
  have hte : t.tickEvents = t.compareMatch.modeStep.advance := rfl
  have hcount : t.Tick.count = (if t.compareMatch.modeStep.downwards = true
      then (t.count + 255) % 256 else (t.count + 1) % 256) := by
    rw [(Tick_fields t).1, hte, a1, hstep, e1, r1]
  have hdown : t.Tick.downwards
      = (if t.downwards = true then (if t.count = 0x00 then false else true)
         else (if t.count = top then true else false)) := by
    rw [(Tick_fields t).2.1, hte, a2, hstep, e2, r1, r6]
  have hflag : t.Tick.interruptFlags.testBit 0
      = (if t.downwards = true ∧ t.count = 0x00 then true
         else t.interruptFlags.testBit 0) := by
    rw [Tick_keeps_bit t 0 (by decide) hnd, hte, a3, hstep, e3, r1, r6]
    split_ifs
    · simp [Nat.testBit_or]
    · exact compareMatch_bit0 t
  rw [hstep, e2, r1, r6] at hcount
  refine ⟨fun hd hc => ?_, fun hd hc => ?_, fun hd hc => ?_, fun hd hc => ?_⟩
  · rw [hdown, hcount, hflag]
    simp [hd, hc]
  · rw [hdown, hcount, hflag]
    simp [hd, hc]
  · rw [hdown, hcount, hflag]
    simp [hd, hc]
  · rw [hdown, hcount, hflag]
    simp [hd, hc]
    omega

/-- Witness for C16: WGM = 1, counting upward at `count = 0xFF`. -/
theorem Tick_phase_correct_step_witness :
    ({ New 0 with controlA := 0x01, count := 0xFF } : Timer).getWGM = 1 ∧
    (Timer.Tick { New 0 with controlA := 0x01, count := 0xFF }).downwards = true ∧
    (Timer.Tick { New 0 with controlA := 0x01, count := 0xFF }).count = (0xFF + 255) % 256 ∧
    (Timer.Tick { New 0 with controlA := 0x01, count := 0xFF }).interruptFlags.testBit 0
      = ({ New 0 with controlA := 0x01, count := 0xFF } : Timer).interruptFlags.testBit 0 :=
  ⟨by decide,
    (Tick_phase_correct_step { New 0 with controlA := 0x01, count := 0xFF } 0xFF
      (Or.inl ⟨by decide, rfl⟩) (by decide) rfl).1 rfl rfl⟩

/-! ## Reserved modes and the gate of the interrupt dispatcher -/

/-- Counterexample to C17 as stated: after writing `0x08` to TCCR0B of a new timer the
selector is 4, and one `Tick` moves the counter from 0 to 1. -/
theorem Tick_reserved_wgm_counterexample :
    Reachable (tccrb.Write (New 0) 0x08) ∧ (tccrb.Write (New 0) 0x08).getWGM = 4 ∧
    (tccrb.Write (New 0) 0x08).count = 0 ∧ (tccrb.Write (New 0) 0x08).Tick.count = 1 ∧
    (tccrb.Write (New 0) 0x08).Tick.count ≠ (tccrb.Write (New 0) 0x08).count := by
  refine ⟨Reachable.tccrb _ _ (Reachable.new 0) (by decide), by decide, rfl, by decide,
    by decide⟩

/-- C17 (amended): with the reserved selector values 4 and 6 a `Tick` runs no mode handler:
both pin levels, the active compare registers and the counting direction are as before and
no pin callback is called; the counter still moves one step in the counting direction,
modulo 256. -/
theorem Tick_reserved_wgm (t : Timer) (hw : t.getWGM = 4 ∨ t.getWGM = 6) :
    t.Tick.ocPinStates = t.ocPinStates ∧
    t.Tick.compareValA = t.compareValA ∧ t.Tick.compareValB = t.compareValB ∧
    t.Tick.downwards = t.downwards ∧
    (∃ evs, t.Tick.trace = t.trace ++ evs ∧ pinEvents evs = []) ∧
    t.Tick.count = (if t.downwards = true then (t.count + 255) % 256
      else (t.count + 1) % 256) := by
  obtain ⟨r1, r2, r3, _, _, r6, r7, _, _, _, r11, _⟩ := compareMatch_regs t
  have hstep : t.compareMatch.modeStep = t.compareMatch := by
    unfold Timer.modeStep
    rcases hw with h | h
    · rw [compareMatch_getWGM, h]
    · rw [compareMatch_getWGM, h]
  obtain ⟨a1, a2, _, a4, a5⟩ := advance_count t.compareMatch.modeStep
  obtain ⟨f1, f2, f3, f4, f5, _⟩ := Tick_fields t
  have hte : t.tickEvents = t.compareMatch.modeStep.advance := rfl
  obtain ⟨evs, htr, hpin, _⟩ := triggerInterrupts_trace t.tickEvents
  have hadv : t.compareMatch.advance.compareValA = t.compareMatch.compareValA ∧
      t.compareMatch.advance.compareValB = t.compareMatch.compareValB := by
    unfold Timer.advance
    split_ifs <;> exact ⟨rfl, rfl⟩
  refine ⟨?_, ?_, ?_, ?_, ⟨evs, ?_, hpin⟩, ?_⟩
  · rw [f3, hte, a4, hstep, r7]
  · rw [f4, hte, hstep, hadv.1, r2]
  · rw [f5, hte, hstep, hadv.2, r3]
  · rw [f2, hte, a2, hstep, r6]
  · show t.tickEvents.triggerInterrupts.trace = _
    rw [htr, hte, a5, hstep, r11]
  · rw [f1, hte, a1, hstep, r1, r6]

/-- Witness for C17 (amended): selector 4 on a new timer. -/
theorem Tick_reserved_wgm_witness :
    (tccrb.Write (New 0) 0x08).getWGM = 4 ∧
    (tccrb.Write (New 0) 0x08).Tick.ocPinStates = (tccrb.Write (New 0) 0x08).ocPinStates ∧
    (tccrb.Write (New 0) 0x08).Tick.compareValA = (tccrb.Write (New 0) 0x08).compareValA :=
  ⟨by decide, (Tick_reserved_wgm (tccrb.Write (New 0) 0x08) (Or.inl (by decide))).1,
    (Tick_reserved_wgm (tccrb.Write (New 0) 0x08) (Or.inl (by decide))).2.1⟩

/-- C18: the interrupt dispatcher is gated on the host.  On a timer without a host, or
whose host reports interrupts disabled when the tick asks, one `Tick` requests no vector
and clears no flag bit: the flags after the tick are those left by the events of the tick,
so every bit set before the tick is still set, and so are the compare flags raised by a
compare match of this tick and the overflow flag raised in Normal mode at `0xFF`,
whatever the mask holds. -/
theorem Tick_gated_on_host (t : Timer)
    (h : t.em = none ∨ ∃ em, t.em = some em ∧ em.InterruptsEnabled t.tickEvents.trace = false) :
    (∃ evs, t.Tick.trace = t.trace ++ evs ∧ requested evs = []) ∧
    t.Tick.interruptFlags = t.tickEvents.interruptFlags ∧
    (∀ i, t.interruptFlags.testBit i = true → t.Tick.interruptFlags.testBit i = true) ∧
    (t.inhibitCompareMatch = false → t.count = t.compareValA →
      t.Tick.interruptFlags.testBit 1 = true) ∧
    (t.inhibitCompareMatch = false → t.count = t.compareValB →
      t.Tick.interruptFlags.testBit 2 = true) ∧
    (t.getWGM = 0 → t.count = 0xFF → t.Tick.interruptFlags.testBit 0 = true) := by
  have hfr := tickEvents_frame t
  have hdis : ∀ em, t.tickEvents.em = some em →
      em.InterruptsEnabled t.tickEvents.trace = false := by
    intro em hem
    rw [hfr.em] at hem
    rcases h with h | ⟨em', h1, h2⟩
    · rw [h] at hem; cases hem
    · rw [h1] at hem; cases hem; exact h2
  have htrig := triggerInterrupts_of_disabled t.tickEvents hdis
  have hTf : t.Tick.interruptFlags = t.tickEvents.interruptFlags := by
    show t.tickEvents.triggerInterrupts.interruptFlags = _
    rw [htrig]
  have hte : t.tickEvents = t.compareMatch.modeStep.advance := rfl
  have hmono : ∀ i, t.compareMatch.interruptFlags.testBit i = true →
      t.tickEvents.interruptFlags.testBit i = true := by
    intro i hi
    rw [hte]
    exact (advance_frame _).flags i ((modeStep_frame _).flags i hi)
  obtain ⟨evs, htr, hreq⟩ := hfr.trace
  refine ⟨⟨evs, ?_, hreq⟩, hTf, ?_, ?_, ?_, ?_⟩
  · show t.tickEvents.triggerInterrupts.trace = _
    rw [htrig, htr]
  · intro i hi
    rw [hTf]
    exact hfr.flags i hi
  · intro hi hc
    rw [hTf]
    exact hmono 1 ((compareMatch_raises t hi).1 hc)
  · intro hi hc
    rw [hTf]
    exact hmono 2 ((compareMatch_raises t hi).2 hc)
  · intro hw hc
    rw [hTf, hte]
    apply (advance_frame _).flags 0
    have hstep : t.compareMatch.modeStep = t.compareMatch.tickNormalMode := by
      unfold Timer.modeStep
      rw [compareMatch_getWGM, hw]
    rw [hstep, (tickNormalMode_effect _).2.2.1, (compareMatch_regs t).1, hc]
    simp [Nat.testBit_or]

/-- Witness for C18: a new timer (no host) with all mask bits set and a pending flag. -/
theorem Tick_gated_on_host_witness :
    ({ New 0 with interruptMask := 0x07, interruptFlags := 0x01 } : Timer).em = none ∧
    (Timer.Tick { New 0 with interruptMask := 0x07, interruptFlags := 0x01 }).interruptFlags
      = (Timer.tickEvents
          { New 0 with interruptMask := 0x07, interruptFlags := 0x01 }).interruptFlags ∧
    ∃ evs, (Timer.Tick { New 0 with interruptMask := 0x07, interruptFlags := 0x01 }).trace
        = ({ New 0 with interruptMask := 0x07, interruptFlags := 0x01 } : Timer).trace ++ evs ∧
      requested evs = [] :=
  ⟨rfl,
    (Tick_gated_on_host { New 0 with interruptMask := 0x07, interruptFlags := 0x01 }
      (Or.inl rfl)).2.1,
    (Tick_gated_on_host { New 0 with interruptMask := 0x07, interruptFlags := 0x01 }
      (Or.inl rfl)).1⟩

/-! ## The inhibit flag and the staged registers in reachable states -/

theorem staged_of_pinsOnly {t t' : Timer} (h : PinsOnly t t') : t'.staged = t.staged := by
  obtain ⟨s, evs, _, rfl⟩ := h
  rfl

theorem tickNormalMode_staged (t : Timer) : t.tickNormalMode.staged = t.staged := by
  unfold Timer.tickNormalMode
  refine (staged_of_pinsOnly (checkOCPinNormalMode_pinsOnly _ _ _)).trans ?_
  refine (staged_of_pinsOnly (checkOCPinNormalMode_pinsOnly _ _ _)).trans ?_
  split_ifs <;> rfl

theorem tickCTCMode_staged (t : Timer) : t.tickCTCMode.staged = t.staged := by
  unfold Timer.tickCTCMode
  refine (staged_of_pinsOnly (checkOCPinCTCMode_pinsOnly _ _ _)).trans ?_
  refine (staged_of_pinsOnly (checkOCPinCTCMode_pinsOnly _ _ _)).trans ?_
  split_ifs <;> rfl

theorem tickPCPWMMode_staged (t : Timer) (top : Nat) :
    (t.tickPCPWMMode top).staged = t.staged := by
  unfold Timer.tickPCPWMMode
  refine (staged_of_pinsOnly (checkOCPinPCPWMMode_pinsOnly _ _ _)).trans ?_
  refine (staged_of_pinsOnly (checkOCPinPCPWMMode_pinsOnly _ _ _)).trans ?_
  split_ifs <;> rfl

theorem tickFastPWMMode_staged (t : Timer) (top : Nat) :
    (t.tickFastPWMMode top).staged = t.staged := by
  unfold Timer.tickFastPWMMode
  refine (staged_of_pinsOnly (checkOCPinFastPWMMode_pinsOnly _ _ _)).trans ?_
  refine (staged_of_pinsOnly (checkOCPinFastPWMMode_pinsOnly _ _ _)).trans ?_
  split_ifs <;> rfl

theorem modeStep_staged (t : Timer) : t.modeStep.staged = t.staged := by
  unfold Timer.modeStep
  split
  · exact tickNormalMode_staged t
  · exact tickPCPWMMode_staged t _
  · exact tickCTCMode_staged t
  · exact tickFastPWMMode_staged t _
  · exact tickPCPWMMode_staged t _
  · exact tickPCPWMMode_staged t _
  · rfl

/-- After a `Tick` the inhibit flag is clear and the staged registers are as before. -/
theorem Tick_staged (t : Timer) :
    t.Tick.staged = (false, t.compareValBufferA, t.compareValBufferB) := by
  obtain ⟨f, tr, h⟩ := triggerInterrupts_fields t.tickEvents
  have hT : t.Tick.staged = t.tickEvents.triggerInterrupts.staged := rfl
  have hadv : t.compareMatch.modeStep.advance.staged = t.compareMatch.modeStep.staged := by
    unfold Timer.advance
    split_ifs <;> rfl
  obtain ⟨g, hcm⟩ := compareMatch_fields t
  have hcms : t.compareMatch.staged = (false, t.compareValBufferA, t.compareValBufferB) := by
    rw [hcm]; rfl
  rw [hT, h]
  show t.tickEvents.staged = _
  show t.compareMatch.modeStep.advance.staged = _
  rw [hadv, modeStep_staged, hcms]

theorem runLoop_staged (d n : Nat) :
    ∀ (fuel : Nat) (t : Timer) (x : Nat) (t' : Timer) (x' : Nat),
      runLoop d n fuel t x = some (t', x') → t.staged = (false, 0, 0) →
      t'.staged = (false, 0, 0) := by
  intro fuel
  induction fuel with
  | zero =>
    intro t x t' x' h hs
    by_cases hlt : x < n
    · simp [runLoop, hlt] at h
    · simp only [runLoop, hlt, if_false, Option.some.injEq, Prod.mk.injEq] at h
      rw [← h.1]; exact hs
  | succ fuel ih =>
    intro t x t' x' h hs
    by_cases hlt : x < n
    · simp only [runLoop, hlt, if_true] at h
      refine ih t.Tick _ t' x' h ?_
      rw [Tick_staged]
      have h1 : t.compareValBufferA = 0 := congrArg (fun p => p.2.1) hs
      have h2 : t.compareValBufferB = 0 := congrArg (fun p => p.2.2) hs
      rw [h1, h2]
    · simp only [runLoop, hlt, if_false, Option.some.injEq, Prod.mk.injEq] at h
      rw [← h.1]; exact hs

theorem Run_staged (t t' : Timer) (fuel n : Nat) (h : t.Run fuel n = RunResult.done t')
    (hs : t.staged = (false, 0, 0)) : t'.staged = (false, 0, 0) := by
  unfold Timer.Run at h
  split at h
  · simp only [RunResult.done.injEq] at h
    rw [← h]; exact hs
  · cases h
  · rename_i d _
    cases hloop : runLoop d n fuel t t.excessTicks with
    | none => simp [hloop] at h
    | some r =>
      obtain ⟨t1, x'⟩ := r
      simp only [hloop, RunResult.done.injEq] at h
      rw [← h]
      exact runLoop_staged d n fuel t t.excessTicks t1 x' hloop hs

theorem forceOutputCompare_pinsOnly (t : Timer) (n : Fin 2) :
    PinsOnly t (t.forceOutputCompare n) := by
  unfold Timer.forceOutputCompare
  split
  · exact changeOCPinNormalMode_pinsOnly t n
  · exact changeOCPinCTCMode_pinsOnly t n
  · exact pinsOnly_refl t

/-- In every reachable state the inhibit flag is clear and both staged registers are 0. -/
theorem reachable_staged (t : Timer) (h : Reachable t) : t.staged = (false, 0, 0) := by
  induction h with
  | new digit => rfl
  | setLogging t enabled _ ih => exact ih
  | addTo t em _ ih => exact ih
  | overrideOCPin t n _ ih => exact ih
  | tccra t x _ _ ih => exact ih
  | tccrb t x _ _ ih => exact ih
  | tcnt t x _ _ ih => exact ih
  | ocra t x _ _ ih => exact ih
  | ocrb t x _ _ ih => exact ih
  | timsk t x _ _ ih => exact ih
  | tifr t x _ _ ih => exact ih
  | tick t _ ih =>
    rw [Tick_staged]
    have h1 : t.compareValBufferA = 0 := congrArg (fun p => p.2.1) ih
    have h2 : t.compareValBufferB = 0 := congrArg (fun p => p.2.2) ih
    rw [h1, h2]
  | run t t' fuel n _ _ hrun ih => exact Run_staged t t' fuel n hrun ih
  | forceOutputCompare t n _ ih =>
    rw [staged_of_pinsOnly (forceOutputCompare_pinsOnly t n)]; exact ih
  | setOCPin t n _ ih => rw [staged_of_pinsOnly (setOCPin_pinsOnly t n)]; exact ih
  | clearOCPin t n _ ih => rw [staged_of_pinsOnly (clearOCPin_pinsOnly t n)]; exact ih
  | toggleOCPin t n _ ih => rw [staged_of_pinsOnly (toggleOCPin_pinsOnly t n)]; exact ih

/-! ## Claims on the inhibit flag and the staged registers -/

/-- A compare match that is detected leaves its flag set after the events of the tick, and
after the tick when its interrupt is not dispatched. -/
theorem Tick_raises_compare (t : Timer) (hi : t.inhibitCompareMatch = false) :
    (t.count = t.compareValA → t.tickEvents.interruptFlags.testBit 1 = true ∧
      (t.dispatches 1 = false → t.Tick.interruptFlags.testBit 1 = true)) ∧
    (t.count = t.compareValB → t.tickEvents.interruptFlags.testBit 2 = true ∧
      (t.dispatches 2 = false → t.Tick.interruptFlags.testBit 2 = true)) := by
  have hte : t.tickEvents = t.compareMatch.modeStep.advance := rfl
  have hmono : ∀ i, t.compareMatch.interruptFlags.testBit i = true →
      t.tickEvents.interruptFlags.testBit i = true := by
    intro i h
    rw [hte]
    exact (advance_frame _).flags i ((modeStep_frame _).flags i h)
  constructor
  · intro hc
    have hb := hmono 1 ((compareMatch_raises t hi).1 hc)
    exact ⟨hb, fun hnd => by rw [Tick_keeps_bit t 1 (by decide) hnd]; exact hb⟩
  · intro hc
    have hb := hmono 2 ((compareMatch_raises t hi).2 hc)
    exact ⟨hb, fun hnd => by rw [Tick_keeps_bit t 2 (by decide) hnd]; exact hb⟩

/-- C19: no operation sets the compare-match inhibit flag.  In every reachable state
`inhibitCompareMatch` is false, so compare-match detection is not skipped: a tick that
begins with the counter equal to an active compare register raises the flag of that
register, and in particular a `Tick` right after a write to the counter port of the value
of the active compare A (or B) raises the compare-A (or compare-B) flag, which is still set
after the tick unless its interrupt is dispatched on that tick. -/
theorem inhibit_never_set (t : Timer) (h : Reachable t) :
    t.inhibitCompareMatch = false ∧
    (t.count = t.compareValA → t.tickEvents.interruptFlags.testBit 1 = true ∧
      (t.dispatches 1 = false → t.Tick.interruptFlags.testBit 1 = true)) ∧
    (t.count = t.compareValB → t.tickEvents.interruptFlags.testBit 2 = true ∧
      (t.dispatches 2 = false → t.Tick.interruptFlags.testBit 2 = true)) ∧
    (∀ x, x < 256 → x = t.compareValA →
      (tcnt.Write t x).inhibitCompareMatch = false ∧
      (tcnt.Write t x).tickEvents.interruptFlags.testBit 1 = true ∧
      ((tcnt.Write t x).dispatches 1 = false →
        (tcnt.Write t x).Tick.interruptFlags.testBit 1 = true)) ∧
    (∀ x, x < 256 → x = t.compareValB →
      (tcnt.Write t x).inhibitCompareMatch = false ∧
      (tcnt.Write t x).tickEvents.interruptFlags.testBit 2 = true ∧
      ((tcnt.Write t x).dispatches 2 = false →
        (tcnt.Write t x).Tick.interruptFlags.testBit 2 = true)) := by
  have hi : t.inhibitCompareMatch = false := congrArg (fun p => p.1) (reachable_staged t h)
  have hw : ∀ x, (tcnt.Write t x).inhibitCompareMatch = false := fun x => hi
  refine ⟨hi, (Tick_raises_compare t hi).1, (Tick_raises_compare t hi).2, ?_, ?_⟩
  · intro x _ hx
    have hr := (Tick_raises_compare (tcnt.Write t x) (hw x)).1 hx
    exact ⟨hw x, hr.1, hr.2⟩
  · intro x _ hx
    have hr := (Tick_raises_compare (tcnt.Write t x) (hw x)).2 hx
    exact ⟨hw x, hr.1, hr.2⟩

/-- Witness for C19: `0x10` written to OCR0A and then to TCNT0 of a new timer. -/
theorem inhibit_never_set_witness :
    Reachable (ocra.Write (New 0) 0x10) ∧
    (tcnt.Write (ocra.Write (New 0) 0x10) 0x10).inhibitCompareMatch = false ∧
    (tcnt.Write (ocra.Write (New 0) 0x10) 0x10).tickEvents.interruptFlags.testBit 1 = true ∧
    ((tcnt.Write (ocra.Write (New 0) 0x10) 0x10).dispatches 1 = false →
      (tcnt.Write (ocra.Write (New 0) 0x10) 0x10).Tick.interruptFlags.testBit 1 = true) :=
  ⟨Reachable.ocra _ _ (Reachable.new 0) (by decide),
    (inhibit_never_set (ocra.Write (New 0) 0x10)
      (Reachable.ocra _ _ (Reachable.new 0) (by decide))).2.2.2.1 0x10 (by decide) rfl⟩

/-- C20: the staged registers are never written.  In every reachable state
`compareValBufferA` and `compareValBufferB` are 0; hence after a `Tick` in Normal mode
(WGM = 0) or clear-timer-on-compare mode (WGM = 2) both active compare registers are 0,
and so are the values read from the compare ports, whatever the host wrote to them. -/
theorem buffers_never_written (t : Timer) (h : Reachable t) :
    t.compareValBufferA = 0 ∧ t.compareValBufferB = 0 ∧
    (t.getWGM = 0 ∨ t.getWGM = 2 →
      t.Tick.compareValA = 0 ∧ t.Tick.compareValB = 0 ∧
      ocra.Read t.Tick = 0 ∧ ocrb.Read t.Tick = 0) := by
  have hA : t.compareValBufferA = 0 := congrArg (fun p => p.2.1) (reachable_staged t h)
  have hB : t.compareValBufferB = 0 := congrArg (fun p => p.2.2) (reachable_staged t h)
  refine ⟨hA, hB, fun hw => ?_⟩
  obtain ⟨cA, cB⟩ := Tick_compareVal t
  obtain ⟨_, _, _, r4, r5, _⟩ := compareMatch_regs t
  have hAB : t.Tick.compareValA = 0 ∧ t.Tick.compareValB = 0 := by
    rcases hw with hw | hw
    · have hstep : t.compareMatch.modeStep = t.compareMatch.tickNormalMode := by
        unfold Timer.modeStep
        rw [compareMatch_getWGM, hw]
      obtain ⟨_, _, _, e4, e5⟩ := tickNormalMode_effect t.compareMatch
      rw [cA, cB, hstep, e4, e5, r4, r5]
      exact ⟨hA, hB⟩
    · have hstep : t.compareMatch.modeStep = t.compareMatch.tickCTCMode := by
        unfold Timer.modeStep
        rw [compareMatch_getWGM, hw]
      obtain ⟨_, _, _, e4, e5⟩ := tickCTCMode_effect t.compareMatch
      rw [cA, cB, hstep, e4, e5, r4, r5]
      exact ⟨hA, hB⟩
  exact ⟨hAB.1, hAB.2, hAB.1, hAB.2⟩

/-- Witness for C20: `0x42` written to OCR0A and `0x17` to OCR0B of a new timer, then one
tick in Normal mode. -/
theorem buffers_never_written_witness :
    Reachable (ocrb.Write (ocra.Write (New 0) 0x42) 0x17) ∧
    (ocrb.Write (ocra.Write (New 0) 0x42) 0x17).compareValA = 0x42 ∧
    (ocrb.Write (ocra.Write (New 0) 0x42) 0x17).getWGM = 0 ∧
    (ocrb.Write (ocra.Write (New 0) 0x42) 0x17).Tick.compareValA = 0 ∧
    (ocrb.Write (ocra.Write (New 0) 0x42) 0x17).Tick.compareValB = 0 ∧
    ocra.Read (ocrb.Write (ocra.Write (New 0) 0x42) 0x17).Tick = 0 ∧
    ocrb.Read (ocrb.Write (ocra.Write (New 0) 0x42) 0x17).Tick = 0 :=
  ⟨Reachable.ocrb _ _ (Reachable.ocra _ _ (Reachable.new 0) (by decide)) (by decide),
    rfl, by decide,
    (buffers_never_written (ocrb.Write (ocra.Write (New 0) 0x42) 0x17)
      (Reachable.ocrb _ _ (Reachable.ocra _ _ (Reachable.new 0) (by decide))
        (by decide))).2.2 (Or.inl (by decide))⟩

/-! ## Pin A in Fast PWM -/

theorem pinLevels_map_same (n : Fin 2) (ls : List Bool) :
    pinLevels n (ls.map (Event.pin n)) = ls := by
  induction ls with
  | nil => rfl
  | cons l ls ih => simp [pinLevels, ih]

theorem pinLevels_map_other {n m : Fin 2} (h : m ≠ n) (ls : List Bool) :
    pinLevels n (ls.map (Event.pin m)) = [] := by
  induction ls with
  | nil => rfl
  | cons l ls ih => simp [pinLevels, ih, h]

theorem pinOnly_ex_trans {n : Fin 2} {t u v : Timer}
    (h1 : ∃ b ls, PinOnly n b ls t u) (h2 : ∃ b ls, PinOnly n b ls u v) :
    ∃ b ls, PinOnly n b ls t v := by
  obtain ⟨b, ls, h1⟩ := h1
  obtain ⟨c, ms, h2⟩ := h2
  exact ⟨c, ls ++ ms, pinOnly_trans h1 h2⟩

theorem checkOCPinFastPWMMode_pinOnly (t : Timer) (n : Fin 2) (v : Nat) :
    ∃ b ls, PinOnly n b ls t (t.checkOCPinFastPWMMode n v) := by
  have hbottom : ∃ b ls, PinOnly n b ls t (if t.count = 0x00 then
      match t.getCOM n with
      | 0 => t
      | 1 => t
      | 2 => t.setOCPin n
      | 3 => t.clearOCPin n
      | _ => t
    else t) := by
    split
    · split
      · exact ⟨_, _, pinOnly_same n t⟩
      · exact ⟨_, _, pinOnly_same n t⟩
      · exact ⟨_, _, setOCPin_pinOnly t n⟩
      · exact ⟨_, _, clearOCPin_pinOnly t n⟩
      · exact ⟨_, _, pinOnly_same n t⟩
    · exact ⟨_, _, pinOnly_same n t⟩
  have hmatch : ∀ u : Timer, ∃ b ls, PinOnly n b ls u (if u.count = v then
      match u.getCOM n with
      | 0 => u
      | 1 => if n = 0 ∧ u.controlB &&& 0x08 ≠ 0 then u.toggleOCPin n else u
      | 2 => u.clearOCPin n
      | 3 => u.setOCPin n
      | _ => u
    else u) := by
    intro u
    split
    · split
      · exact ⟨_, _, pinOnly_same n u⟩
      · split
        · exact ⟨_, _, toggleOCPin_pinOnly u n⟩
        · exact ⟨_, _, pinOnly_same n u⟩
      · exact ⟨_, _, clearOCPin_pinOnly u n⟩
      · exact ⟨_, _, setOCPin_pinOnly u n⟩
      · exact ⟨_, _, pinOnly_same n u⟩
    · exact ⟨_, _, pinOnly_same n u⟩
  unfold Timer.checkOCPinFastPWMMode
  exact pinOnly_ex_trans hbottom (hmatch _)

/-- Pin A in Fast PWM with COM-A = 2 and a compare value other than 0: set at BOTTOM,
cleared at the compare match, untouched elsewhere; the callback is called on a change. -/
theorem checkOCPinFastPWMMode_pinA (u : Timer) (v : Nat) (hcom : u.getCOM 0 = 2)
    (hv0 : v ≠ 0) :
    PinOnly 0
      (if u.count = 0 then true else if u.count = v then false else u.ocPinStates 0)
      (if u.ocPinCallbacks 0 = true then
        (if u.count = 0 ∧ u.ocPinStates 0 = false then [true]
         else if u.count = v ∧ u.ocPinStates 0 = true then [false] else [])
       else [])
      u (u.checkOCPinFastPWMMode 0 v) := by
  unfold Timer.checkOCPinFastPWMMode
  by_cases h0 : u.count = 0
  · have hs := setOCPin_pinOnly u 0
    have hcnt : (u.setOCPin 0).count = u.count := by
      unfold PinOnly at hs; rw [hs]
    have hne : ¬ (u.setOCPin 0).count = v := by rw [hcnt, h0]; exact fun h => hv0 h.symm
    simp only [h0, hcom, if_true, hne, if_false]
    have hls : (if u.ocPinCallbacks 0 = true then
        (if True ∧ u.ocPinStates 0 = false then [true]
         else if 0 = v ∧ u.ocPinStates 0 = true then [false] else [])
       else [])
      = (if u.ocPinCallbacks 0 = true ∧ u.ocPinStates 0 = false then [true] else []) := by
      have : ¬ (0 = v) := fun h => hv0 h.symm
      by_cases hc : u.ocPinCallbacks 0 = true <;> by_cases hp : u.ocPinStates 0 = false <;>
        simp [hc, hp, this]
    simp only [h0] at hne
    rw [hls]
    exact hs
  · simp only [h0, if_false]
    by_cases hm : u.count = v
    · simp only [hm, hcom, if_true]
      have hc := clearOCPin_pinOnly u 0
      have hls : (if u.ocPinCallbacks 0 = true then
          (if v = 0 ∧ u.ocPinStates 0 = false then [true]
           else if True ∧ u.ocPinStates 0 = true then [false] else [])
         else [])
        = (if u.ocPinCallbacks 0 = true ∧ u.ocPinStates 0 = true then [false] else []) := by
        by_cases hc : u.ocPinCallbacks 0 = true <;> by_cases hp : u.ocPinStates 0 = true <;>
          simp [hc, hp, hv0]
      have hv0' : ¬ v = 0 := hv0
      simp only [hv0', if_false, false_and, true_and] at hls ⊢
      rw [hls]
      exact hc
    · simp only [hm, if_false, false_and]
      have : (if u.ocPinCallbacks 0 = true then ([] : List Bool) else []) = [] := by
        split <;> rfl
      rw [this]
      exact pinOnly_same 0 u

/-! ## Pin A across the Fast PWM handler -/

/-- The method `tickFastPWMMode` is its preparation followed by the check of pin A and the
check of pin B. -/
theorem tickFastPWMMode_eq (t : Timer) (top : Nat) :
    t.tickFastPWMMode top
      = Timer.checkOCPinFastPWMMode
          (Timer.checkOCPinFastPWMMode (t.fastPWMPrepare top) 0
            (t.fastPWMPrepare top).compareValA) 1
          (Timer.checkOCPinFastPWMMode (t.fastPWMPrepare top) 0
            (t.fastPWMPrepare top).compareValA).compareValB := rfl

theorem fastPWMPrepare_below_top (u : Timer) (top : Nat) (hct : u.count ≠ top) :
    (u.fastPWMPrepare top).count = u.count ∧
    (u.fastPWMPrepare top).compareValA
      = (if u.count = 0x00 then u.compareValBufferA else u.compareValA) ∧
    (u.fastPWMPrepare top).ocPinStates = u.ocPinStates ∧
    (u.fastPWMPrepare top).ocPinCallbacks = u.ocPinCallbacks ∧
    (u.fastPWMPrepare top).trace = u.trace ∧
    (u.fastPWMPrepare top).controlA = u.controlA := by
  unfold Timer.fastPWMPrepare
  by_cases h0 : u.count = 0x00
  · have hct' : ¬ (0 = top) := by rw [← h0]; exact hct
    simp [h0, hct']
  · simp [h0, hct]

/-- Pin A across `tickFastPWMMode` below TOP, with COM-A = 2 and the active compare A and
its staged value both equal to `v ≠ 0`. -/
theorem tickFastPWMMode_pinA (u : Timer) (top v : Nat) (hcom : u.getCOM 0 = 2)
    (hA : u.compareValA = v) (hbA : u.compareValBufferA = v) (hv0 : v ≠ 0)
    (hct : u.count ≠ top) :
    (u.tickFastPWMMode top).ocPinStates 0
      = (if u.count = 0 then true else if u.count = v then false else u.ocPinStates 0) ∧
    ∃ evs, (u.tickFastPWMMode top).trace = u.trace ++ evs ∧
      pinLevels 0 evs
        = (if u.ocPinCallbacks 0 = true then
            (if u.count = 0 ∧ u.ocPinStates 0 = false then [true]
             else if u.count = v ∧ u.ocPinStates 0 = true then [false] else [])
           else []) := by
  obtain ⟨p1, p2, p3, p4, p5, p6⟩ := fastPWMPrepare_below_top u top hct
  have pA : (u.fastPWMPrepare top).compareValA = v := by
    rw [p2]; split_ifs
    · exact hbA
    · exact hA
  have pcom : (u.fastPWMPrepare top).getCOM 0 = 2 := by
    unfold Timer.getCOM at hcom ⊢
    rw [p6]; exact hcom
  have h0 := checkOCPinFastPWMMode_pinA (u.fastPWMPrepare top) v pcom hv0
  obtain ⟨b1, ls1, h1⟩ := checkOCPinFastPWMMode_pinOnly
    (Timer.checkOCPinFastPWMMode (u.fastPWMPrepare top) 0 v) 1
    (Timer.checkOCPinFastPWMMode (u.fastPWMPrepare top) 0 v).compareValB
  rw [tickFastPWMMode_eq, pA]
  rw [p1, p3, p4] at h0
  unfold PinOnly at h0 h1
  have hZp := congrArg Timer.ocPinStates h1
  have hYp := congrArg Timer.ocPinStates h0
  have hZt := congrArg Timer.trace h1
  have hYt := congrArg Timer.trace h0
  simp only [] at hZp hYp hZt hYt
  constructor
  · rw [hZp, Function.update_noteq (by decide), hYp, Function.update_same]
  · refine ⟨List.map (Event.pin 0)
        (if u.ocPinCallbacks 0 = true then
          (if u.count = 0 ∧ u.ocPinStates 0 = false then [true]
           else if u.count = v ∧ u.ocPinStates 0 = true then [false] else [])
         else []) ++ List.map (Event.pin 1) ls1, ?_, ?_⟩
    · rw [hZt, hYt, p5, List.append_assoc]
    · rw [pinLevels_append, pinLevels_map_same, pinLevels_map_other (by decide)]
      simp

/-! ## One tick of Fast PWM below the compare value -/

/-- Below TOP `tickFastPWMMode` leaves the counter as it is; it always leaves the direction
upward. -/
theorem tickFastPWMMode_count (u : Timer) (top : Nat) (hct : u.count ≠ top) :
    (u.tickFastPWMMode top).count = u.count ∧ (u.tickFastPWMMode top).downwards = false := by
  constructor
  · rw [tickFastPWMMode_eq]
    refine (pinsOnly_fields (checkOCPinFastPWMMode_pinsOnly _ _ _)).1.trans ?_
    refine (pinsOnly_fields (checkOCPinFastPWMMode_pinsOnly _ _ _)).1.trans ?_
    exact (fastPWMPrepare_below_top u top hct).1
  · unfold Timer.tickFastPWMMode
    refine (pinsOnly_fields (checkOCPinFastPWMMode_pinsOnly _ _ _)).2.2.2.2.2.1.trans ?_
    refine (pinsOnly_fields (checkOCPinFastPWMMode_pinsOnly _ _ _)).2.2.2.2.2.1.trans ?_
    split_ifs <;> rfl

/-- One tick of Fast PWM (WGM = 3) with COM-A = 2 and compare A, active and staged, equal
to `0x80`, from a counter at most `0x80`. -/
theorem fastPWM_step (s : Timer) (hw : s.getWGM = 3) (hcom : s.getCOM 0 = 2)
    (hA : s.compareValA = 0x80) (hbA : s.compareValBufferA = 0x80) (hc : s.count ≤ 0x80) :
    s.Tick.controlA = s.controlA ∧ s.Tick.controlB = s.controlB ∧
    s.Tick.compareValA = 0x80 ∧ s.Tick.compareValBufferA = 0x80 ∧
    s.Tick.count = s.count + 1 ∧ s.Tick.ocPinCallbacks = s.ocPinCallbacks ∧
    s.Tick.ocPinStates 0
      = (if s.count = 0 then true else if s.count = 0x80 then false else s.ocPinStates 0) ∧
    ∃ evs, s.Tick.trace = s.trace ++ evs ∧
      pinLevels 0 evs
        = (if s.ocPinCallbacks 0 = true then
            (if s.count = 0 ∧ s.ocPinStates 0 = false then [true]
             else if s.count = 0x80 ∧ s.ocPinStates 0 = true then [false] else [])
           else []) := by
  obtain ⟨r1, r2, _, r4, _, _, r7, r8, _, r10, r11, _⟩ := compareMatch_regs s
  have hfr := tickEvents_frame s
  obtain ⟨f1, _, f3, _, _, _, _, _, f9, f10⟩ := Tick_fields s
  have hstep : s.compareMatch.modeStep = s.compareMatch.tickFastPWMMode 0xFF := by
    unfold Timer.modeStep
    rw [compareMatch_getWGM, hw]
  have hct : s.compareMatch.count ≠ 0xFF := by rw [r1]; omega
  have hcom' : s.compareMatch.getCOM 0 = 2 := by
    unfold Timer.getCOM at hcom ⊢
    rw [r8]; exact hcom
  obtain ⟨hp, evs, htr, hlv⟩ := tickFastPWMMode_pinA s.compareMatch 0xFF 0x80 hcom'
    (by rw [r2]; exact hA) (by rw [r4]; exact hbA) (by decide) hct
  obtain ⟨c1, c2⟩ := tickFastPWMMode_count s.compareMatch 0xFF hct
  obtain ⟨a1, _, _, a4, a5⟩ := advance_count s.compareMatch.modeStep
  have hte : s.tickEvents = s.compareMatch.modeStep.advance := rfl
  obtain ⟨evs', htr', _, hlv'⟩ := triggerInterrupts_trace s.tickEvents
  rw [r1, r7] at hp
  rw [r1, r7, r10] at hlv
  refine ⟨f9.trans hfr.controlA, (Tick_controlB s), ?_, ?_, ?_, f10.trans hfr.ocPinCallbacks,
    ?_, evs ++ evs', ?_, ?_⟩
  · rw [(Tick_compareVal s).1, hstep, (tickFastPWMMode_compareVal _ _).1, r2, r4, hA, hbA]
    simp
  · have h := Tick_staged s
    have h2 : s.Tick.compareValBufferA = s.compareValBufferA := congrArg (fun p => p.2.1) h
    rw [h2, hbA]
  · rw [f1, hte, a1, hstep, c2, c1, r1]
    simp only [Bool.false_eq_true, if_false]
    omega
  · rw [f3, hte, a4, hstep, hp]
  · show s.tickEvents.triggerInterrupts.trace = _
    rw [htr', hte, a5, hstep, htr, r11, List.append_assoc]
  · rw [pinLevels_append, hlv, hlv' 0, List.append_nil]

/-! ## Fast PWM pin waveform -/

/-- The first 128 ticks of the Fast PWM scenario: the counter has reached `k`, the
configuration and compare A are as at the start, pin A is high from the first tick on, and
the callback of pin A has been called once, with `true`. -/
theorem fastPWM_iterate (t : Timer) (hw : t.getWGM = 3) (hcom : t.getCOM 0 = 2)
    (hA : t.compareValA = 0x80) (hbA : t.compareValBufferA = 0x80) (hc : t.count = 0)
    (hpin : t.ocPinStates 0 = false) :
    ∀ k, k ≤ 128 →
      (Timer.Tick^[k] t).controlA = t.controlA ∧ (Timer.Tick^[k] t).controlB = t.controlB ∧
      (Timer.Tick^[k] t).compareValA = 0x80 ∧ (Timer.Tick^[k] t).compareValBufferA = 0x80 ∧
      (Timer.Tick^[k] t).count = k ∧
      (Timer.Tick^[k] t).ocPinCallbacks = t.ocPinCallbacks ∧
      (Timer.Tick^[k] t).ocPinStates 0 = decide (1 ≤ k) ∧
      ∃ evs, (Timer.Tick^[k] t).trace = t.trace ++ evs ∧
        pinLevels 0 evs = (if t.ocPinCallbacks 0 = true ∧ 1 ≤ k then [true] else []) := by
  intro k
  induction k with
  | zero =>
    intro _
    exact ⟨rfl, rfl, hA, hbA, hc, rfl, by simpa using hpin, [], by simp, by simp [pinLevels]⟩
  | succ k ih =>
    intro hk
    obtain ⟨i1, i2, i3, i4, i5, i6, i7, evs, i8, i9⟩ := ih (by omega)
    have hw' : (Timer.Tick^[k] t).getWGM = 3 := by
      unfold Timer.getWGM at hw ⊢
      rw [i1, i2]; exact hw
    have hcom' : (Timer.Tick^[k] t).getCOM 0 = 2 := by
      unfold Timer.getCOM at hcom ⊢
      rw [i1]; exact hcom
    obtain ⟨s1, s2, s3, s4, s5, s6, s7, evs', s8, s9⟩ :=
      fastPWM_step (Timer.Tick^[k] t) hw' hcom' i3 i4 (by omega)
    rw [Function.iterate_succ_apply']
    rw [i5, i7, i6] at s9
    rw [i5, i7] at s7
    refine ⟨s1.trans i1, s2.trans i2, s3, s4, by rw [s5, i5], s6.trans i6, ?_,
      evs ++ evs', by rw [s8, i8, List.append_assoc], ?_⟩
    · rw [s7]
      by_cases hk0 : k = 0
      · simp [hk0]
      · have h128 : ¬ k = 128 := by omega
        have h1 : 1 ≤ k := by omega
        simp [hk0, h128, h1]
    · rw [pinLevels_append, i9, s9]
      by_cases hcb : t.ocPinCallbacks 0 = true
      · by_cases hk0 : k = 0
        · simp [hcb, hk0]
        · have h128 : ¬ k = 128 := by omega
          have h1 : 1 ≤ k := by omega
          simp [hcb, hk0, h128, h1]
      · simp [hcb]

/-- The pin waveform of Fast PWM on a state whose staged compare A holds the value of the
active one (no port write produces such a state unless the value is 0, see
`reachable_staged`).  With WGM = 3, COM-A = 2, compare A (active and
staged) equal to `0x80`, the counter at 0 and pin A low, the tick number `k + 1` begins at
`count = k` for `k ≤ 0x80`; pin A is high after the first tick and after every tick up to
the 128th (those that begin at counts 0 to `0x7F`), and low after the 129th (which begins
at `0x80`); a callback installed on pin A is called exactly twice over the 129 ticks, with
`true` and then with `false`. -/
theorem fastPWM_pin_waveform_of_staged (t : Timer) (hw : t.getWGM = 3) (hcom : t.getCOM 0 = 2)
    (hA : t.compareValA = 0x80) (hbA : t.compareValBufferA = 0x80) (hc : t.count = 0)
    (hpin : t.ocPinStates 0 = false) :
    (∀ k, k ≤ 128 → (Timer.Tick^[k] t).count = k) ∧
    (Timer.Tick^[1] t).ocPinStates 0 = true ∧
    (∀ k, 1 ≤ k → k ≤ 128 → (Timer.Tick^[k] t).ocPinStates 0 = true) ∧
    (Timer.Tick^[129] t).ocPinStates 0 = false ∧
    (t.ocPinCallbacks 0 = true →
      ∃ evs, (Timer.Tick^[129] t).trace = t.trace ++ evs ∧
        pinLevels 0 evs = [true, false]) := by
  have hit := fastPWM_iterate t hw hcom hA hbA hc hpin
  have hhigh : ∀ k, 1 ≤ k → k ≤ 128 → (Timer.Tick^[k] t).ocPinStates 0 = true := by
    intro k h1 hk
    rw [(hit k hk).2.2.2.2.2.2.1]
    simpa using h1
  obtain ⟨i1, i2, i3, i4, i5, i6, i7, evs, i8, i9⟩ := hit 128 (by decide)
  have hw' : (Timer.Tick^[128] t).getWGM = 3 := by
    unfold Timer.getWGM at hw ⊢
    rw [i1, i2]; exact hw
  have hcom' : (Timer.Tick^[128] t).getCOM 0 = 2 := by
    unfold Timer.getCOM at hcom ⊢
    rw [i1]; exact hcom
  obtain ⟨_, _, _, _, _, _, s7, evs', s8, s9⟩ :=
    fastPWM_step (Timer.Tick^[128] t) hw' hcom' i3 i4 (by omega)
  have hlast : Timer.Tick^[129] t = (Timer.Tick^[128] t).Tick :=
    Function.iterate_succ_apply' Timer.Tick 128 t
  rw [i5, i7, i6] at s9
  rw [i5, i7] at s7
  refine ⟨fun k hk => (hit k hk).2.2.2.2.1, hhigh 1 (by decide) (by decide), hhigh, ?_, ?_⟩
  · rw [hlast, s7]
    simp
  · intro hcb
    refine ⟨evs ++ evs', by rw [hlast, s8, i8, List.append_assoc], ?_⟩
    rw [pinLevels_append, i9, s9]
    simp [hcb]

/-- An instance of `fastPWM_pin_waveform_of_staged` on a state built by hand: `controlA =
0x83`, compare A `0x80` active and staged, callbacks on both pins. -/
theorem fastPWM_pin_waveform_of_staged_instance :
    ({ New 0 with controlA := 0x83, compareValA := 0x80, compareValBufferA := 0x80,
                  ocPinCallbacks := fun _ => true } : Timer).getWGM = 3 ∧
    ({ New 0 with controlA := 0x83, compareValA := 0x80, compareValBufferA := 0x80,
                  ocPinCallbacks := fun _ => true } : Timer).getCOM 0 = 2 ∧
    (Timer.Tick^[129] { New 0 with controlA := 0x83, compareValA := 0x80,
                                   compareValBufferA := 0x80,
                                   ocPinCallbacks := fun _ => true }).ocPinStates 0 = false ∧
    ∃ evs, (Timer.Tick^[129] { New 0 with controlA := 0x83, compareValA := 0x80,
                                          compareValBufferA := 0x80,
                                          ocPinCallbacks := fun _ => true }).trace
        = ({ New 0 with controlA := 0x83, compareValA := 0x80, compareValBufferA := 0x80,
                        ocPinCallbacks := fun _ => true } : Timer).trace ++ evs ∧
      pinLevels 0 evs = [true, false] :=
  ⟨by decide, by decide,
    (fastPWM_pin_waveform_of_staged { New 0 with controlA := 0x83, compareValA := 0x80,
                                                 compareValBufferA := 0x80,
                                                 ocPinCallbacks := fun _ => true }
      (by decide) (by decide) rfl rfl rfl rfl).2.2.2.1,
    (fastPWM_pin_waveform_of_staged { New 0 with controlA := 0x83, compareValA := 0x80,
                                                 compareValBufferA := 0x80,
                                                 ocPinCallbacks := fun _ => true }
      (by decide) (by decide) rfl rfl rfl rfl).2.2.2.2 rfl⟩

/-! ## Compare-match pin actions in Normal and clear-timer-on-compare modes -/

/-- C15 (the code deviates): a compare match whose pin action is not applied.  In
clear-timer-on-compare mode (`0x42` written to TCCR0A of a new timer: WGM = 2, COM-A = 1)
the tick begins with `count = compareValA = 0`, yet pin A is not toggled: `tickCTCMode`
forces the counter to `0xFF` before `checkOCPinCTCMode` compares it.  In Normal mode
(`0x40` written to TCCR0A, `0x05` to TCNT0 and to OCR0A: WGM = 0, COM-A = 1) the tick begins
with `count = compareValA = 5`, yet pin A is not toggled: `tickNormalMode` first replaces
the active register by the staged value 0. -/
theorem Tick_compare_match_pin_action_missed :
    (tccra.Write (New 0) 0x42).getWGM = 2 ∧ (tccra.Write (New 0) 0x42).getCOM 0 = 1 ∧
    (tccra.Write (New 0) 0x42).count = (tccra.Write (New 0) 0x42).compareValA ∧
    (tccra.Write (New 0) 0x42).ocPinStates 0 = false ∧
    (tccra.Write (New 0) 0x42).Tick.ocPinStates 0 = false ∧
    (ocra.Write (tcnt.Write (tccra.Write (New 0) 0x40) 0x05) 0x05).getWGM = 0 ∧
    (ocra.Write (tcnt.Write (tccra.Write (New 0) 0x40) 0x05) 0x05).getCOM 0 = 1 ∧
    (ocra.Write (tcnt.Write (tccra.Write (New 0) 0x40) 0x05) 0x05).count
      = (ocra.Write (tcnt.Write (tccra.Write (New 0) 0x40) 0x05) 0x05).compareValA ∧
    (ocra.Write (tcnt.Write (tccra.Write (New 0) 0x40) 0x05) 0x05).ocPinStates 0 = false ∧
    (ocra.Write (tcnt.Write (tccra.Write (New 0) 0x40) 0x05) 0x05).Tick.ocPinStates 0
      = false := by
  refine ⟨by decide, by decide, by decide, by decide, by decide, by decide, by decide,
    by decide, by decide, by decide⟩

/-! ## Clear-timer-on-compare through the ports -/

